import Mathlib

/-!
Environment upgrade command (`internal/pkg/cli/env_upgrade.go`)

A shallow embedding of the `env upgrade` command of the Copilot CLI and the
properties of it that the specification states.

Go strings are byte strings; they are embedded as lists of characters
(`GoString`).  Every string the command inspects byte by byte (semantic
versions, the newline separator of a template body) is ASCII, where bytes
and characters coincide.

Section layout:
* `semver`   the functions of `golang.org/x/mod/semver` the command calls;
* `strings`  the functions of the Go `strings` package the command calls;
* the data model (`config`, `deploy`), collaborator calls and their trace;
* the methods of `envUpgradeOpts`;
* the theorems.
-/

set_option autoImplicit false

/-- A Go string, as the list of its characters. -/
abbrev GoString := List Char

/-! ## golang.org/x/mod/semver -/

namespace semver

/-- The record `parsed` of the semver package: the pieces of a version. -/
structure parsed where
  major : GoString := []
  minor : GoString := []
  patch : GoString := []
  short : GoString := []
  prerelease : GoString := []
  build : GoString := []
deriving Repr, DecidableEq

/-- Whether `c` is one of the bytes `0` to `9`. -/
def isDigit (c : Char) : Bool := decide (48 ≤ c.toNat) && decide (c.toNat ≤ 57)

/-- Go string comparison `x < y`: lexicographic on the character codes. -/
def strLt : GoString → GoString → Bool
  | [], [] => false
  | [], _ :: _ => true
  | _ :: _, [] => false
  | a :: x, b :: y =>
    if a.toNat < b.toNat then true
    else if b.toNat < a.toNat then false
    else strLt x y

/-- Function `parseInt`: a leading decimal number without leading zeros, and the rest. -/
def parseInt (v : GoString) : Option (GoString × GoString) :=
  match v with
  | [] => none
  | c :: _ =>
    if !isDigit c then none
    else
      let t := v.takeWhile isDigit
      let rest := v.dropWhile isDigit
      if c = '0' ∧ t.length ≠ 1 then none
      else some (t, rest)

/-- Function `isIdentChar`: ASCII letters, digits and the hyphen. -/
def isIdentChar (c : Char) : Bool :=
  (decide (65 ≤ c.toNat) && decide (c.toNat ≤ 90))
    || (decide (97 ≤ c.toNat) && decide (c.toNat ≤ 122))
    || (decide (48 ≤ c.toNat) && decide (c.toNat ≤ 57))
    || decide (c = '-')

/-- Function `isBadNum`: all digits, more than one of them, and a leading zero. -/
def isBadNum (v : GoString) : Bool :=
  let i := (v.takeWhile isDigit).length
  decide (i = v.length) && decide (i > 1) && decide (v.head? = some '0')

/-- Function `isNum`: all digits. -/
def isNum (v : GoString) : Bool :=
  decide ((v.takeWhile isDigit).length = v.length)

/-- The scanning loop of `parsePrerelease`. `done` is `v[:i]`, `cur` is
`v[start:i]` and the argument is `v[i:]`. -/
def parsePrereleaseLoop (done cur : GoString) : GoString → Option (GoString × GoString)
  | [] => if cur = [] ∨ isBadNum cur then none else some (done, [])
  | c :: cs =>
    if c = '+' then
      if cur = [] ∨ isBadNum cur then none else some (done, c :: cs)
    else if !isIdentChar c ∧ c ≠ '.' then none
    else if c = '.' then
      if cur = [] ∨ isBadNum cur then none
      else parsePrereleaseLoop (done ++ [c]) [] cs
    else parsePrereleaseLoop (done ++ [c]) (cur ++ [c]) cs

/-- Function `parsePrerelease`: a hyphen and dot separated identifiers. -/
def parsePrerelease (v : GoString) : Option (GoString × GoString) :=
  match v with
  | [] => none
  | c :: cs => if c ≠ '-' then none else parsePrereleaseLoop [c] [] cs

/-- The scanning loop of `parseBuild`, with `done` and `cur` as above. -/
def parseBuildLoop (done cur : GoString) : GoString → Option (GoString × GoString)
  | [] => if cur = [] then none else some (done, [])
  | c :: cs =>
    if !isIdentChar c ∧ c ≠ '.' then none
    else if c = '.' then
      if cur = [] then none
      else parseBuildLoop (done ++ [c]) [] cs
    else parseBuildLoop (done ++ [c]) (cur ++ [c]) cs

/-- Function `parseBuild`: a plus sign and dot separated identifiers. -/
def parseBuild (v : GoString) : Option (GoString × GoString) :=
  match v with
  | [] => none
  | c :: cs => if c ≠ '+' then none else parseBuildLoop [c] [] cs

/-- The tail of `parse` after the patch number: optional prerelease and
build parts, then the end of the string. -/
def parseTail (p : parsed) (v : GoString) : Option parsed :=
  let afterPre : Option (parsed × GoString) :=
    match v with
    | '-' :: _ =>
      match parsePrerelease v with
      | none => none
      | some (t, rest) => some ({ p with prerelease := t }, rest)
    | _ => some (p, v)
  match afterPre with
  | none => none
  | some (p1, v1) =>
    let afterBuild : Option (parsed × GoString) :=
      match v1 with
      | '+' :: _ =>
        match parseBuild v1 with
        | none => none
        | some (t, rest) => some ({ p1 with build := t }, rest)
      | _ => some (p1, v1)
    match afterBuild with
    | none => none
    | some (p2, v2) => if v2 ≠ [] then none else some p2

/-- Function `parse`: the parsed form of a version string, `none` when the
string is not a valid semantic version. -/
def parse (v : GoString) : Option parsed :=
  match v with
  | [] => none
  | c :: v0 =>
    if c ≠ 'v' then none
    else
      match parseInt v0 with
      | none => none
      | some (major, v1) =>
        match v1 with
        | [] => some { major := major, minor := ['0'], patch := ['0'], short := ".0.0".toList }
        | d1 :: v1t =>
          if d1 ≠ '.' then none
          else
            match parseInt v1t with
            | none => none
            | some (minor, v2) =>
              match v2 with
              | [] => some { major := major, minor := minor, patch := ['0'], short := ".0".toList }
              | d2 :: v2t =>
                if d2 ≠ '.' then none
                else
                  match parseInt v2t with
                  | none => none
                  | some (patch, v3) =>
                    parseTail { major := major, minor := minor, patch := patch } v3

/-- Function `IsValid`: whether `v` is a valid semantic version string. -/
def IsValid (v : GoString) : Bool := (parse v).isSome

/-- Function `compareInt`: decimal numbers without leading zeros, by length
and then as strings. -/
def compareInt (x y : GoString) : Int :=
  if x = y then 0
  else if x.length < y.length then -1
  else if x.length > y.length then 1
  else if strLt x y then -1
  else 1

/-- Function `nextIdent`: the text up to the next dot, and the rest. -/
def nextIdent (x : GoString) : GoString × GoString :=
  (x.takeWhile (fun c => c ≠ '.'), x.dropWhile (fun c => c ≠ '.'))

/-- The loop of `comparePrerelease`; every turn drops a character of `x`, so
`x.length + 1` turns are enough. -/
def comparePrereleaseLoop : Nat → GoString → GoString → Int
  | 0, x, _ => if x = [] then -1 else 1
  | fuel + 1, x, y =>
    if x ≠ [] ∧ y ≠ [] then
      let (dx, x1) := nextIdent x.tail
      let (dy, y1) := nextIdent y.tail
      if dx ≠ dy then
        let ix := isNum dx
        let iy := isNum dy
        if ix ≠ iy then
          if ix then -1 else 1
        else if ix ∧ dx.length < dy.length then -1
        else if ix ∧ dx.length > dy.length then 1
        else if strLt dx dy then -1
        else 1
      else comparePrereleaseLoop fuel x1 y1
    else if x = [] then -1 else 1

/-- Function `comparePrerelease`: precedence of two prerelease strings. -/
def comparePrerelease (x y : GoString) : Int :=
  if x = y then 0
  else if x = [] then 1
  else if y = [] then -1
  else comparePrereleaseLoop (x.length + 1) x y

/-- Function `Compare`: `-1`, `0` or `+1`; an invalid version is below every
valid one and equal to every invalid one. -/
def Compare (v w : GoString) : Int :=
  match parse v, parse w with
  | none, none => 0
  | none, some _ => -1
  | some _, none => 1
  | some pv, some pw =>
    let c1 := compareInt pv.major pw.major
    if c1 ≠ 0 then c1
    else
      let c2 := compareInt pv.minor pw.minor
      if c2 ≠ 0 then c2
      else
        let c3 := compareInt pv.patch pw.patch
        if c3 ≠ 0 then c3
        else comparePrerelease pv.prerelease pw.prerelease

/-! ### The order of the specification on release versions

The specification compares versions by major, minor and patch number. The
definitions below state that order on the strings `vMAJOR.MINOR.PATCH`, for
comparison with `Compare`. -/

/-- The number that a string of decimal digits writes. -/
def numeralValue (x : GoString) : Nat := x.foldl (fun n c => 10 * n + (c.toNat - 48)) 0

/-- A decimal number as a semantic version writes it: one digit or more, and
no leading zero unless it is the single digit `0`. -/
def IsNumeral (x : GoString) : Prop :=
  x ≠ [] ∧ (∀ c ∈ x, isDigit c = true) ∧ (x.head? = some '0' → x.length = 1)

instance (x : GoString) : Decidable (IsNumeral x) := by
  unfold IsNumeral
  infer_instance

/-- The release version `vMAJOR.MINOR.PATCH`. -/
def release (major minor patch : GoString) : GoString :=
  'v' :: (major ++ '.' :: (minor ++ '.' :: patch))

end semver

/-! ## The Go `strings` package -/

namespace strings

/-- Function `Split(s, "\n")`: the pieces of `s` between newlines; never empty. -/
def Split : GoString → List GoString
  | [] => [[]]
  | c :: cs =>
    if c = '\n' then [] :: Split cs
    else
      match Split cs with
      | [] => [[c]]
      | l :: ls => (c :: l) :: ls

/-- Function `Join(lines, "\n")`. -/
def Join : List GoString → GoString
  | [] => []
  | [l] => l
  | l :: l2 :: ls => l ++ '\n' :: Join (l2 :: ls)

/-- Function `Replace(s, "\n", new, -1)`: every newline replaced by `new`. -/
def Replace (s new : GoString) : GoString :=
  s.flatMap (fun c => if c = '\n' then new else [c])

/-- Function `Repeat(" ", count)`; it panics on a negative count (`none`). -/
def Repeat (count : Int) : Option GoString :=
  if count < 0 then none else some (List.replicate count.toNat ' ')

end strings

/-! ## Errors -/

/-- A Go `error` value: its message, its dynamic type as far as `errors.As`
tells it apart in this command, and what it wraps. -/
inductive GoError where
  /-- An error of type `*awscfn.ErrChangeSetEmpty`. -/
  | ErrChangeSetEmpty (msg : GoString)
  /-- An error of type `*config.ErrNoSuchEnvironment`. -/
  | ErrNoSuchEnvironment (msg : GoString)
  /-- An error of another type that wraps nothing (`errors.New`, `fmt.Errorf` with `%v`). -/
  | errorString (msg : GoString)
  /-- An error that wraps `err` (`fmt.Errorf` with `%w`, or a type with `Unwrap`). -/
  | wrapError (msg : GoString) (err : GoError)
deriving Repr, DecidableEq

namespace GoError

/-- Method `Error()`: the message. -/
def Error : GoError → GoString
  | ErrChangeSetEmpty msg => msg
  | ErrNoSuchEnvironment msg => msg
  | errorString msg => msg
  | wrapError msg _ => msg

/-- The call `errors.As(err, &target)` with `target` of type `*awscfn.ErrChangeSetEmpty`. -/
def AsErrChangeSetEmpty : GoError → Bool
  | ErrChangeSetEmpty _ => true
  | ErrNoSuchEnvironment _ => false
  | errorString _ => false
  | wrapError _ err => AsErrChangeSetEmpty err

/-- The call `errors.As(err, &target)` with `target` of type `*config.ErrNoSuchEnvironment`. -/
def AsErrNoSuchEnvironment : GoError → Bool
  | ErrChangeSetEmpty _ => false
  | ErrNoSuchEnvironment _ => true
  | errorString _ => false
  | wrapError _ err => AsErrNoSuchEnvironment err

end GoError

namespace errors

/-- Function `errors.New`. -/
def New (msg : GoString) : GoError := GoError.errorString msg

end errors

namespace fmt

/-- The call `fmt.Errorf(text + "%v", err)`: a fresh error that wraps nothing. -/
def Errorf_v (text : GoString) (err : GoError) : GoError :=
  GoError.errorString (text ++ err.Error)

/-- The call `fmt.Errorf(text + "%w", err)`: an error that wraps `err`. -/
def Errorf_w (text : GoString) (err : GoError) : GoError :=
  GoError.wrapError (text ++ err.Error) err

end fmt

/-! ## Data model -/

namespace config

/-- The type `config.ImportVPC`. -/
structure ImportVPC where
  ID : GoString := []
  PublicSubnetIDs : List GoString := []
  PrivateSubnetIDs : List GoString := []
deriving Repr, DecidableEq

/-- The type `config.AdjustVPC`. -/
structure AdjustVPC where
  CIDR : GoString := []
  AZs : List GoString := []
  PublicSubnetCIDRs : List GoString := []
  PrivateSubnetCIDRs : List GoString := []
deriving Repr, DecidableEq

/-- The type `config.CustomizeEnv`: the stored custom network configuration. -/
structure CustomizeEnv where
  ImportVPC : Option ImportVPC := none
  VPCConfig : Option AdjustVPC := none
  ImportCertARNs : List GoString := []
  InternalALBSubnets : List GoString := []
  EnableInternalALBVPCIngress : Bool := false
deriving Repr, DecidableEq

/-- The type `config.Telemetry`. -/
structure Telemetry where
  EnableContainerInsights : Bool := false
deriving Repr, DecidableEq

/-- The type `config.Environment`: an environment record of the store. -/
structure Environment where
  App : GoString := []
  Name : GoString := []
  Region : GoString := []
  ManagerRoleARN : GoString := []
  ExecutionRoleARN : GoString := []
  CustomConfig : Option CustomizeEnv := none
  Telemetry : Option Telemetry := none
deriving Repr, DecidableEq

/-- The type `config.Application`. -/
structure Application where
  Name : GoString := []
  Domain : GoString := []
deriving Repr, DecidableEq

/-- The type `config.Workload`: a service record of the store. -/
structure Workload where
  App : GoString := []
  Name : GoString := []
  Type_ : GoString := []
deriving Repr, DecidableEq

end config

namespace deploy

/-- The type `deploy.AppInformation`. -/
structure AppInformation where
  Name : GoString := []
  Domain : GoString := []
deriving Repr, DecidableEq

/-- Modelled from the spec: the type `deploy.CreateEnvironmentInput`, the
upgrade input, which is declared outside this file of the source. It has the
fields that the source sets, and the internal-ALB subnet allow-list that the
specification counts among the data of the input. A field that a struct
literal of the source does not set keeps its zero value, the default here. -/
structure CreateEnvironmentInput where
  Version : GoString := []
  App : AppInformation := {}
  Name : GoString := []
  CustomResourcesURLs : List (GoString × GoString) := []
  ArtifactBucketARN : GoString := []
  ArtifactBucketKeyARN : GoString := []
  AdjustVPCConfig : Option config.AdjustVPC := none
  ImportVPCConfig : Option config.ImportVPC := none
  ImportCertARNs : List GoString := []
  InternalALBSubnets : List GoString := []
  AllowVPCIngress : Bool := false
  Telemetry : Option config.Telemetry := none
  CFNServiceRoleARN : GoString := []
deriving Repr, DecidableEq

end deploy

namespace stack

/-- The type `stack.AppRegionalResources`, as far as the command reads it. -/
structure AppRegionalResources where
  S3Bucket : GoString := []
  KMSKeyARN : GoString := []
deriving Repr, DecidableEq

end stack

namespace s3

/-- The type `s3.NamedBinary`: a named blob to upload. -/
structure NamedBinary where
  Name : GoString := []
  Content : GoString := []
deriving Repr, DecidableEq

end s3

namespace yaml

/-- The type `yaml.Node`, as far as the command reads it: the 1-indexed
source position of the node. The zero value is the node of an absent key. -/
structure Node where
  Line : Int := 0
  Column : Int := 0
deriving Repr, DecidableEq

end yaml

/-! ## Collaborators, their calls and the trace

Every call of a collaborator (the configuration store, the clients the
constructors of `envUpgradeOpts` create, the progress sink, the log) is
recorded with its result in a trace. A collaborator answers a call as a
function of the trace so far and of the arguments, which covers every
deterministic collaborator, stateful ones included. -/

/-- A client created at run time, named by a number. -/
abbrev Handle := Nat

/-- One recorded call of a collaborator, with what it returned. -/
inductive Event where
  /-- Call `store.GetEnvironment(app, name)`. -/
  | GetEnvironment (app name : GoString) (res : Except GoError config.Environment)
  /-- Call `store.ListEnvironments(app)`. -/
  | ListEnvironments (app : GoString) (res : Except GoError (List config.Environment))
  /-- Call `store.GetApplication(name)`. -/
  | GetApplication (name : GoString) (res : Except GoError config.Application)
  /-- Call `store.ListServices(app)`. -/
  | ListServices (app : GoString) (res : Except GoError (List config.Workload))
  /-- Call `legacyEnvTemplater.Template()`. -/
  | Template (res : Except GoError GoString)
  /-- Call `appCFN.GetAppResourcesByRegion(app, region)`. -/
  | GetAppResourcesByRegion (app : config.Application) (region : GoString)
      (res : Except GoError stack.AppRegionalResources)
  /-- Call `newEnvDeployer(conf)`. -/
  | newEnvDeployer (conf : config.Environment) (res : Except GoError Handle)
  /-- Call `newEnvVersionGetter(app, env)`. -/
  | newEnvVersionGetter (app env : GoString) (res : Except GoError Handle)
  /-- Call `newTemplateUpgrader(conf)`. -/
  | newTemplateUpgrader (conf : config.Environment) (res : Except GoError Handle)
  /-- Call `newS3(conf)`. -/
  | newS3 (conf : config.Environment) (res : Except GoError Handle)
  /-- Call `EnvironmentTemplate(app, env)` on a deployer or template upgrader. -/
  | EnvironmentTemplate (client : Handle) (app env : GoString) (res : Except GoError GoString)
  /-- Call `UpdateEnvironmentTemplate(app, env, body, execRole)` on a deployer. -/
  | UpdateEnvironmentTemplate (client : Handle) (app env body execRole : GoString)
      (res : Option GoError)
  /-- Call `Version()` on a version getter. -/
  | Version (client : Handle) (res : Except GoError GoString)
  /-- Call `UpgradeEnvironment(input)` on a template upgrader. -/
  | UpgradeEnvironment (client : Handle) (input : deploy.CreateEnvironmentInput)
      (res : Option GoError)
  /-- Call `UpgradeLegacyEnvironment(input, workloads...)` on a template upgrader. -/
  | UpgradeLegacyEnvironment (client : Handle) (input : deploy.CreateEnvironmentInput)
      (workloads : List GoString) (res : Option GoError)
  /-- Call `ZipAndUpload(bucket, key, objects...)` on an S3 client. -/
  | ZipAndUpload (client : Handle) (bucket key : GoString) (objects : List s3.NamedBinary)
      (res : Except GoError GoString)
  /-- Return of `uploader.UploadEnvironmentCustomResources(upload)`. -/
  | UploadEnvironmentCustomResources (res : Except GoError (List (GoString × GoString)))
  /-- Call `prog.Start(label)`. -/
  | Start (label : GoString)
  /-- Call `prog.Stop(label)`. -/
  | Stop (label : GoString)
  /-- Call `log.Debugln(msg)`. -/
  | Debugln (msg : GoString)
  /-- Call `log.Warningln(msg)`. -/
  | Warningln (msg : GoString)

/-- The calls made so far, oldest first. -/
abbrev Trace := List Event

/-- How a Go function call ends: a normal return, a returned non-nil error,
or a run-time panic. -/
inductive Outcome (α : Type) where
  | ok (a : α)
  | err (e : GoError)
  | panic (msg : GoString)

namespace Outcome

/-- Whether the call returned a nil error. -/
def isOk {α : Type} : Outcome α → Bool
  | ok _ => true
  | _ => false

/-- Whether the call returned a non-nil error. -/
def isErr {α : Type} : Outcome α → Bool
  | err _ => true
  | _ => false

end Outcome

/-- A Go function that calls collaborators: from the trace so far to its
outcome and the extended trace. -/
def Act (α : Type) : Type := Trace → Outcome α × Trace

namespace Act

/-- A normal return. -/
def ret {α : Type} (a : α) : Act α := fun t => (Outcome.ok a, t)

/-- Sequencing: an error or a panic of the first part ends the function. -/
def andThen {α β : Type} (x : Act α) (f : α → Act β) : Act β := fun t =>
  match x t with
  | (Outcome.ok a, t1) => f a t1
  | (Outcome.err e, t1) => (Outcome.err e, t1)
  | (Outcome.panic m, t1) => (Outcome.panic m, t1)

instance : Monad Act where
  pure := ret
  bind := andThen

/-- The statement `return err` with a non-nil error. -/
def fail {α : Type} (e : GoError) : Act α := fun t => (Outcome.err e, t)

/-- A run-time panic. -/
def panic {α : Type} (msg : GoString) : Act α := fun t => (Outcome.panic msg, t)

/-- A call of a collaborator: the answer is computed from the trace so far
and recorded. -/
def call {ρ : Type} (respond : Trace → ρ) (record : ρ → Event) : Act ρ := fun t =>
  (Outcome.ok (respond t), t ++ [record (respond t)])

/-- A call of a collaborator that returns nothing. -/
def emit (e : Event) : Act Unit := fun t => (Outcome.ok (), t ++ [e])

end Act

/-- Package-level constants and pure library functions the command uses and
that are declared outside this file of the source. -/
structure Pkg where
  /-- Constant `deploy.LatestEnvTemplateVersion`. -/
  LatestEnvTemplateVersion : GoString
  /-- Constant `deploy.LegacyEnvTemplateVersion`. -/
  LegacyEnvTemplateVersion : GoString
  /-- Constant `manifest.LoadBalancedWebServiceType`. -/
  LoadBalancedWebServiceType : GoString
  /-- Constant `endpoints.AwsPartitionID`. -/
  AwsPartitionID : GoString
  /-- Constant `allFlag`. -/
  allFlag : GoString
  /-- Constant `nameFlag`. -/
  nameFlag : GoString
  /-- Function `s3.FormatARN(partition, location)`. -/
  FormatARN : GoString → GoString → GoString
  /-- The call `yaml.Unmarshal` of `isManagerRoleAllowedToUpload`: the decoded
  `Metadata.Version`, empty when the key is absent. -/
  UnmarshalVersion : GoString → Except GoError GoString
  /-- The call `yaml.Unmarshal` of `grantManagerRolePermissionToUpload`: the
  `PolicyDocument.Statement` node of every entry of
  `Resources.EnvironmentManagerRole.Properties.Policies`, the zero node when
  an entry has no statement list, and no entry when the path is absent. -/
  UnmarshalPolicies : GoString → Except GoError (List yaml.Node)
  /-- Function `color.HighlightUserInput`. -/
  HighlightUserInput : GoString → GoString
  /-- Function `color.Emphasize`. -/
  Emphasize : GoString → GoString
  /-- Function `log.Serrorln`, of the one string it is given. -/
  Serrorln : GoString → GoString
  /-- Function `log.Ssuccessln`, of the one string it is given. -/
  Ssuccessln : GoString → GoString
  /-- Function `log.Serrorf`, of the formatted message. -/
  Serrorf : GoString → GoString
  /-- Function `log.Ssuccessf`, of the formatted message. -/
  Ssuccessf : GoString → GoString

/-- One custom resource the uploader publishes: the logical name it is
keyed by in the URL mapping, and the key and binaries given to the upload
callback. -/
structure CustomResource where
  name : GoString
  key : GoString
  objects : List s3.NamedBinary
deriving Repr, DecidableEq

/-- The type `envUpgradeOpts`: the flag values and the collaborators. The
methods of the clients that the constructors return are listed after the
constructors. -/
structure envUpgradeOpts where
  /-- Flag value: name of the application. -/
  appName : GoString
  /-- Flag value: name of the environment. -/
  name : GoString
  /-- Flag value: true means all environments should be upgraded. -/
  all : Bool
  /-- Method `store.GetEnvironment`. -/
  GetEnvironment : Trace → GoString → GoString → Except GoError config.Environment
  /-- Method `store.ListEnvironments`. -/
  ListEnvironments : Trace → GoString → Except GoError (List config.Environment)
  /-- Method `store.GetApplication`. -/
  GetApplication : Trace → GoString → Except GoError config.Application
  /-- Method `store.ListServices`. -/
  ListServices : Trace → GoString → Except GoError (List config.Workload)
  /-- Method `legacyEnvTemplater.Template`. -/
  Template : Trace → Except GoError GoString
  /-- Method `appCFN.GetAppResourcesByRegion`. -/
  GetAppResourcesByRegion :
    Trace → config.Application → GoString → Except GoError stack.AppRegionalResources
  /-- The resource set of `uploader`. -/
  uploader : List CustomResource
  /-- Constructor `newEnvDeployer`. -/
  newEnvDeployer : Trace → config.Environment → Except GoError Handle
  /-- Constructor `newEnvVersionGetter`. -/
  newEnvVersionGetter : Trace → GoString → GoString → Except GoError Handle
  /-- Constructor `newTemplateUpgrader`. -/
  newTemplateUpgrader : Trace → config.Environment → Except GoError Handle
  /-- Constructor `newS3`. -/
  newS3 : Trace → config.Environment → Except GoError Handle
  /-- Method `EnvironmentTemplate` of a deployer or template upgrader. -/
  EnvironmentTemplate : Trace → Handle → GoString → GoString → Except GoError GoString
  /-- Method `UpdateEnvironmentTemplate` of a deployer. -/
  UpdateEnvironmentTemplate :
    Trace → Handle → GoString → GoString → GoString → GoString → Option GoError
  /-- Method `Version` of a version getter. -/
  Version : Trace → Handle → Except GoError GoString
  /-- Method `UpgradeEnvironment` of a template upgrader. -/
  UpgradeEnvironment : Trace → Handle → deploy.CreateEnvironmentInput → Option GoError
  /-- Method `UpgradeLegacyEnvironment` of a template upgrader. -/
  UpgradeLegacyEnvironment :
    Trace → Handle → deploy.CreateEnvironmentInput → List GoString → Option GoError
  /-- Method `ZipAndUpload` of an S3 client. -/
  ZipAndUpload :
    Trace → Handle → GoString → GoString → List s3.NamedBinary → Except GoError GoString

/-! ## The command -/

/-- The apostrophe character. -/
def apostrophe : Char := Char.ofNat 39

/-- Constant `fmtEnvUpgradeStart`, with its three arguments filled in. -/
def fmtEnvUpgradeStart (env fromVersion toVersion : GoString) : GoString :=
  "Upgrading environment ".toList ++ env ++ " from version ".toList ++ fromVersion
    ++ " to version ".toList ++ toVersion ++ ".".toList

/-- Constant `fmtEnvUpgradeFailed`, with its two arguments filled in. -/
def fmtEnvUpgradeFailed (env toVersion : GoString) : GoString :=
  "Failed to upgrade environment ".toList ++ env ++ [apostrophe]
    ++ "s template to version ".toList ++ toVersion ++ ".\n".toList

/-- Constant `fmtEnvUpgradeComplete`, with its two arguments filled in. -/
def fmtEnvUpgradeComplete (env toVersion : GoString) : GoString :=
  "Upgraded environment ".toList ++ env ++ [apostrophe]
    ++ "s template to version ".toList ++ toVersion ++ ".\n".toList

/-- The message of `shouldUpgradeEnv` for an environment on the latest version. -/
def msgAlreadyLatest (env latest : GoString) : GoString :=
  "Environment ".toList ++ env ++ " is already on the latest version ".toList ++ latest
    ++ ", skip upgrade.".toList

/-- The message of `shouldUpgradeEnv` for an environment on a newer version
than the latest this tool knows. -/
def msgVersionSkew (env latest version : GoString) : GoString :=
  "Skip upgrading environment ".toList ++ env ++ " to version ".toList ++ latest
    ++ " since it".toList ++ [apostrophe] ++ "s on version ".toList ++ version
    ++ ". \nAre you using the latest version of AWS Copilot?".toList

/-- Function `shouldUpgradeEnv`. -/
def shouldUpgradeEnv (p : Pkg) (env version : GoString) : Act Bool :=
  let diff := semver.Compare version p.LatestEnvTemplateVersion
  if diff < 0 then
    pure true
  else
    let msg := msgAlreadyLatest env p.LatestEnvTemplateVersion
    let msg := if diff > 0 then msgVersionSkew env p.LatestEnvTemplateVersion version else msg
    do
      Act.emit (Event.Debugln msg)
      pure false

/-- Modelled from the spec: the artifact publisher behind
`uploader.UploadEnvironmentCustomResources` (package `template`, outside this
file). It hands each resource of its set to the upload callback, in order,
collects one address per logical name, and stops at the first failed upload. -/
def uploadCustomResources (upload : GoString → List s3.NamedBinary → Act (Except GoError GoString)) :
    List CustomResource → List (GoString × GoString) →
      Act (Except GoError (List (GoString × GoString)))
  | [], urls => pure (Except.ok urls)
  | r :: rs, urls => do
    let res ← upload r.key r.objects
    match res with
    | Except.error err => pure (Except.error err)
    | Except.ok url => uploadCustomResources upload rs (urls ++ [(r.name, url)])

namespace envUpgradeOpts

/-- Method `uploader.UploadEnvironmentCustomResources(upload)`; its return is recorded. -/
def UploadEnvironmentCustomResources (o : envUpgradeOpts)
    (upload : GoString → List s3.NamedBinary → Act (Except GoError GoString)) :
    Act (Except GoError (List (GoString × GoString))) := do
  let res ← uploadCustomResources upload o.uploader []
  Act.emit (Event.UploadEnvironmentCustomResources res)
  pure res

/-- Method `Validate`. -/
def Validate (p : Pkg) (o : envUpgradeOpts) : Act Unit :=
  if o.all = true ∧ o.name ≠ [] then
    Act.fail (GoError.errorString ("cannot specify both ".toList ++ ['-', '-'] ++ p.allFlag
      ++ " and ".toList ++ ['-', '-'] ++ p.nameFlag ++ " flags".toList))
  else if o.all = true then
    pure ()
  else if o.name ≠ [] then do
    let res ← Act.call (fun t => o.GetEnvironment t o.appName o.name)
      (Event.GetEnvironment o.appName o.name)
    match res with
    | Except.error err =>
      if err.AsErrNoSuchEnvironment then Act.fail err
      else Act.fail (fmt.Errorf_v ("get environment ".toList ++ o.name
        ++ " configuration from application ".toList ++ o.appName ++ ": ".toList) err)
    | Except.ok _ => pure ()
  else
    pure ()

/-- Method `listEnvsToUpgrade`. -/
def listEnvsToUpgrade (o : envUpgradeOpts) : Act (List config.Environment) :=
  if !o.all then do
    let res ← Act.call (fun t => o.GetEnvironment t o.appName o.name)
      (Event.GetEnvironment o.appName o.name)
    match res with
    | Except.error err =>
      Act.fail (fmt.Errorf_w ("get environment ".toList ++ o.appName ++ " in app ".toList
        ++ o.name ++ ": ".toList) err)
    | Except.ok env => pure [env]
  else do
    let res ← Act.call (fun t => o.ListEnvironments t o.appName) (Event.ListEnvironments o.appName)
    match res with
    | Except.error err =>
      Act.fail (fmt.Errorf_w ("list environments in app ".toList ++ o.appName ++ ": ".toList) err)
    | Except.ok envs => pure envs

/-- Method `isManagerRoleAllowedToUpload`. -/
def isManagerRoleAllowedToUpload (p : Pkg) (body : GoString) : Except GoError Bool :=
  match p.UnmarshalVersion body with
  | Except.error err =>
    Except.error (fmt.Errorf_v
      "unmarshal environment template to detect Metadata.Version: ".toList err)
  | Except.ok version =>
    if !semver.IsValid version then Except.ok false
    else if semver.Compare version "v1.9.0".toList < 0 then Except.ok false
    else Except.ok true

/-- The text of the added statement of `grantManagerRolePermissionToUpload`
before indentation: the format string with the bucket ARN filled in twice. -/
def permissionsText (bucketARN : GoString) : GoString :=
  "- Sid: PatchPutObjectsToArtifactBucket\n".toList
    ++ "  Effect: Allow\n".toList
    ++ "  Action:\n".toList
    ++ "    - s3:PutObject\n".toList
    ++ "    - s3:PutObjectAcl\n".toList
    ++ "  Resource:\n".toList
    ++ "    - ".toList ++ bucketARN ++ "\n".toList
    ++ "    - ".toList ++ bucketARN ++ "/*".toList

/-- The label of the progress sink while the manager role is updated. -/
def msgUpdateManagerRole : GoString :=
  ("Update the environment".toList ++ [apostrophe]
    ++ "s manager role with permission to upload artifacts to S3".toList)

/-- The failure text for the update of the manager role. -/
def msgUnableToUpdate : GoString :=
  ("Unable to update the environment".toList ++ [apostrophe]
    ++ "s manager role with upload artifacts permission".toList)

/-- The success text for the update of the manager role. -/
def msgUpdated : GoString :=
  ("Updated the environment".toList ++ [apostrophe]
    ++ "s manager role with permissions to upload artifacts to S3".toList)

/-- The eight lines of the statement that `grantManagerRolePermissionToUpload`
adds, without indentation. -/
def permissionLines (bucketARN : GoString) : List GoString :=
  [ "- Sid: PatchPutObjectsToArtifactBucket".toList,
    "  Effect: Allow".toList,
    "  Action:".toList,
    "    - s3:PutObject".toList,
    "    - s3:PutObjectAcl".toList,
    "  Resource:".toList,
    "    - ".toList ++ bucketARN,
    "    - ".toList ++ bucketARN ++ "/*".toList ]

/-- The body that `grantManagerRolePermissionToUpload` builds from the
position of the statement list. An error stands for a run-time panic, with
its message: `strings.Repeat` with a negative count, or a slice expression
out of the bounds of `lines`. -/
def updatedBody (node : yaml.Node) (body bucketARN : GoString) : Except GoString GoString :=
  let statementLineIndex := node.Line - 1
  let numSpaces := node.Column - 1
  match strings.Repeat numSpaces with
  | none => Except.error "strings: negative Repeat count".toList
  | some pad =>
    let permissions := permissionsText bucketARN
    let permissions := pad ++ strings.Replace permissions ('\n' :: pad)
    let lines := strings.Split body
    if statementLineIndex < 0 ∨ (lines.length : Int) < statementLineIndex then
      Except.error "slice bounds out of range".toList
    else
      let linesBefore := lines.take statementLineIndex.toNat
      let linesAfter := lines.drop statementLineIndex.toNat
      let updatedLines := linesBefore ++ (strings.Split permissions ++ linesAfter)
      Except.ok (strings.Join updatedLines)

/-- Method `grantManagerRolePermissionToUpload`. -/
def grantManagerRolePermissionToUpload (p : Pkg) (o : envUpgradeOpts) (cfn : Handle)
    (app env execRole body bucketARN : GoString) : Act Unit :=
  match p.UnmarshalPolicies body with
  | Except.error err =>
    Act.fail (fmt.Errorf_v
      "unmarshal environment template to find EnvironmentManagerRole policy statement: ".toList
      err)
  | Except.ok policies =>
    match policies with
    | [] => Act.fail (errors.New "unable to find policies for the EnvironmentManagerRole".toList)
    | node :: _ =>
      match updatedBody node body bucketARN with
      | Except.error msg => Act.panic msg
      | Except.ok updated => do
        Act.emit (Event.Start msgUpdateManagerRole)
        let res ← Act.call (fun t => o.UpdateEnvironmentTemplate t cfn app env updated execRole)
          (Event.UpdateEnvironmentTemplate cfn app env updated execRole)
        match res with
        | some err =>
          if !err.AsErrChangeSetEmpty then do
            Act.emit (Event.Stop (p.Serrorln msgUnableToUpdate))
            Act.fail (fmt.Errorf_v
              "update environment template with PutObject permissions: ".toList err)
          else do
            Act.emit (Event.Stop (p.Ssuccessln msgUpdated))
            pure ()
        | none => do
          Act.emit (Event.Stop (p.Ssuccessln msgUpdated))
          pure ()

/-- Method `ensureManagerRoleIsAllowedToUpload`. -/
def ensureManagerRoleIsAllowedToUpload (p : Pkg) (o : envUpgradeOpts)
    (env : config.Environment) (bucketName : GoString) : Act Unit := do
  let res ← Act.call (fun t => o.newEnvDeployer t env) (Event.newEnvDeployer env)
  match res with
  | Except.error err => Act.fail err
  | Except.ok cfn =>
    let res ← Act.call (fun t => o.EnvironmentTemplate t cfn env.App env.Name)
      (Event.EnvironmentTemplate cfn env.App env.Name)
    match res with
    | Except.error err => Act.fail err
    | Except.ok body =>
      match isManagerRoleAllowedToUpload p body with
      | Except.error err => Act.fail err
      | Except.ok ok =>
        if ok then pure ()
        else
          grantManagerRolePermissionToUpload p o cfn env.App env.Name env.ExecutionRoleARN body
            (p.FormatARN p.AwsPartitionID bucketName)

/-- Method `envVersion`. -/
def envVersion (o : envUpgradeOpts) (name : GoString) : Act GoString := do
  let res ← Act.call (fun t => o.newEnvVersionGetter t o.appName name)
    (Event.newEnvVersionGetter o.appName name)
  match res with
  | Except.error err => Act.fail err
  | Except.ok envTpl =>
    let res ← Act.call (fun t => o.Version t envTpl) (Event.Version envTpl)
    match res with
    | Except.error err =>
      Act.fail (fmt.Errorf_v ("get template version of environment ".toList ++ name
        ++ " in app ".toList ++ o.appName ++ ": ".toList) err)
    | Except.ok version => pure version

/-- The error text shared by the three upgrade calls. -/
def msgUpgradeEnvironment (name fromVersion toVersion : GoString) : GoString :=
  "upgrade environment ".toList ++ name ++ " from version ".toList ++ fromVersion
    ++ " to version ".toList ++ toVersion ++ ": ".toList

/-- Method `upgradeEnvironment`. -/
def upgradeEnvironment (o : envUpgradeOpts) (upgrader : Handle) (conf : config.Environment)
    (app : config.Application) (artifactBucketARN artifactBucketKeyARN : GoString)
    (customResourcesURLs : List (GoString × GoString)) (fromVersion toVersion : GoString) :
    Act Unit :=
  let importedVPC : Option config.ImportVPC :=
    match conf.CustomConfig with
    | some c => c.ImportVPC
    | none => none
  let adjustedVPC : Option config.AdjustVPC :=
    match conf.CustomConfig with
    | some c => c.VPCConfig
    | none => none
  let importCertARNs : List GoString :=
    match conf.CustomConfig with
    | some c => c.ImportCertARNs
    | none => []
  let allowVPCIngressForInternalALB : Bool :=
    match conf.CustomConfig with
    | some c => c.EnableInternalALBVPCIngress
    | none => false
  let input : deploy.CreateEnvironmentInput :=
    { Version := toVersion
      App := { Name := app.Name, Domain := app.Domain }
      Name := conf.Name
      ArtifactBucketKeyARN := artifactBucketKeyARN
      ArtifactBucketARN := artifactBucketARN
      CustomResourcesURLs := customResourcesURLs
      ImportVPCConfig := importedVPC
      AdjustVPCConfig := adjustedVPC
      ImportCertARNs := importCertARNs
      CFNServiceRoleARN := conf.ExecutionRoleARN
      Telemetry := conf.Telemetry
      AllowVPCIngress := allowVPCIngressForInternalALB }
  do
    let res ← Act.call (fun t => o.UpgradeEnvironment t upgrader input)
      (Event.UpgradeEnvironment upgrader input)
    match res with
    | some err =>
      Act.fail (fmt.Errorf_v (msgUpgradeEnvironment conf.Name fromVersion toVersion) err)
    | none => pure ()

/-- The upgrade input of `upgradeEnvironment`, written once for the theorems:
the struct literal of the method with its four local variables filled in from
the stored custom configuration, when there is one. -/
def versionedInput (conf : config.Environment) (app : config.Application)
    (artifactBucketARN artifactBucketKeyARN : GoString)
    (customResourcesURLs : List (GoString × GoString)) (toVersion : GoString) :
    deploy.CreateEnvironmentInput :=
  { Version := toVersion
    App := { Name := app.Name, Domain := app.Domain }
    Name := conf.Name
    ArtifactBucketKeyARN := artifactBucketKeyARN
    ArtifactBucketARN := artifactBucketARN
    CustomResourcesURLs := customResourcesURLs
    ImportVPCConfig := conf.CustomConfig.bind (fun c => c.ImportVPC)
    AdjustVPCConfig := conf.CustomConfig.bind (fun c => c.VPCConfig)
    ImportCertARNs := (conf.CustomConfig.map (fun c => c.ImportCertARNs)).getD []
    CFNServiceRoleARN := conf.ExecutionRoleARN
    Telemetry := conf.Telemetry
    AllowVPCIngress :=
      (conf.CustomConfig.map (fun c => c.EnableInternalALBVPCIngress)).getD false }

/-- Method `isDefaultLegacyTemplate`. -/
def isDefaultLegacyTemplate (o : envUpgradeOpts) (cfn : Handle) (appName envName : GoString) :
    Act Bool := do
  let res ← Act.call (fun t => o.Template t) Event.Template
  match res with
  | Except.error err =>
    Act.fail (fmt.Errorf_v "generate default legacy environment template: ".toList err)
  | Except.ok defaultLegacyEnvTemplate =>
    let res ← Act.call (fun t => o.EnvironmentTemplate t cfn appName envName)
      (Event.EnvironmentTemplate cfn appName envName)
    match res with
    | Except.error err =>
      Act.fail (fmt.Errorf_v ("get environment ".toList ++ envName
        ++ " template body: ".toList) err)
    | Except.ok actualTemplate => pure (decide (defaultLegacyEnvTemplate = actualTemplate))

/-- The loop of `listLBWebServices`: the names of the services of the
load-balanced web service type, in order. -/
def lbWebServiceNames (p : Pkg) : List config.Workload → List GoString
  | [] => []
  | svc :: rest =>
    if svc.Type_ ≠ p.LoadBalancedWebServiceType then lbWebServiceNames p rest
    else svc.Name :: lbWebServiceNames p rest

/-- Method `listLBWebServices`. -/
def listLBWebServices (p : Pkg) (o : envUpgradeOpts) : Act (List GoString) := do
  let res ← Act.call (fun t => o.ListServices t o.appName) (Event.ListServices o.appName)
  match res with
  | Except.error err =>
    Act.fail (fmt.Errorf_v ("list services in application ".toList ++ o.appName
      ++ ": ".toList) err)
  | Except.ok services => pure (lbWebServiceNames p services)

/-- The warning of `upgradeLegacyEnvironmentWithVPCOverrides`. -/
def msgCustomizedVPC : GoString :=
  "\nLooks like you".toList ++ [apostrophe]
    ++ "ve an environment with a customized VPC configuration.\n".toList
    ++ "Copilot could not upgrade your environment".toList ++ [apostrophe]
    ++ "s CloudFormation template.\n".toList
    ++ "To learn more about how to fix it: https://github.com/aws/copilot-cli/issues/1601".toList

/-- The dedicated error of a legacy environment without stored VPC configuration. -/
def errMissingVPCConfig : GoError :=
  errors.New "cannot upgrade environment due to missing vpc configuration".toList

/-- Method `upgradeLegacyEnvironmentWithVPCOverrides`. -/
def upgradeLegacyEnvironmentWithVPCOverrides (o : envUpgradeOpts) (upgrader : Handle)
    (conf : config.Environment) (fromVersion toVersion : GoString)
    (albWorkloads : List GoString) : Act Unit :=
  match conf.CustomConfig with
  | some c =>
    let input : deploy.CreateEnvironmentInput :=
      { Version := toVersion
        App := { Name := conf.App }
        Name := conf.Name
        ImportVPCConfig := c.ImportVPC
        AdjustVPCConfig := c.VPCConfig
        ImportCertARNs := c.ImportCertARNs
        AllowVPCIngress := c.EnableInternalALBVPCIngress
        CFNServiceRoleARN := conf.ExecutionRoleARN }
    do
      let res ← Act.call (fun t => o.UpgradeLegacyEnvironment t upgrader input albWorkloads)
        (Event.UpgradeLegacyEnvironment upgrader input albWorkloads)
      match res with
      | some err =>
        Act.fail (fmt.Errorf_v (msgUpgradeEnvironment conf.Name fromVersion toVersion) err)
      | none => pure ()
  | none => do
    Act.emit (Event.Warningln msgCustomizedVPC)
    Act.fail errMissingVPCConfig

/-- The upgrade input of the default-shape branch of `upgradeLegacyEnvironment`. -/
def defaultLegacyInput (conf : config.Environment) (app : config.Application)
    (artifactBucketARN artifactBucketKeyARN : GoString)
    (customResourcesURLs : List (GoString × GoString)) (toVersion : GoString) :
    deploy.CreateEnvironmentInput :=
  { Version := toVersion
    App := { Name := app.Name, Domain := app.Domain }
    Name := conf.Name
    ArtifactBucketKeyARN := artifactBucketKeyARN
    ArtifactBucketARN := artifactBucketARN
    CustomResourcesURLs := customResourcesURLs
    CFNServiceRoleARN := conf.ExecutionRoleARN
    Telemetry := conf.Telemetry }

/-- Method `upgradeLegacyEnvironment`. -/
def upgradeLegacyEnvironment (p : Pkg) (o : envUpgradeOpts) (upgrader : Handle)
    (conf : config.Environment) (app : config.Application)
    (artifactBucketARN artifactBucketKeyARN : GoString)
    (customResourcesURLs : List (GoString × GoString)) (fromVersion toVersion : GoString) :
    Act Unit := do
  let isDefaultEnv ← isDefaultLegacyTemplate o upgrader conf.App conf.Name
  let albWorkloads ← listLBWebServices p o
  if isDefaultEnv then
    let input := defaultLegacyInput conf app artifactBucketARN artifactBucketKeyARN
      customResourcesURLs toVersion
    let res ← Act.call (fun t => o.UpgradeLegacyEnvironment t upgrader input albWorkloads)
      (Event.UpgradeLegacyEnvironment upgrader input albWorkloads)
    match res with
    | some err =>
      Act.fail (fmt.Errorf_v (msgUpgradeEnvironment conf.Name fromVersion toVersion) err)
    | none => pure ()
  else
    upgradeLegacyEnvironmentWithVPCOverrides o upgrader conf fromVersion toVersion albWorkloads

/-- The deferred function of `upgrade`: when the rest of the method returns,
the progress sink is stopped with the failure text if the named result `err`
is non-nil and with the success text otherwise. -/
def upgradeDeferred (p : Pkg) (env : config.Environment) (rest : Act Unit) : Act Unit := fun t =>
  let failed := Event.Stop (p.Serrorf (fmtEnvUpgradeFailed (p.HighlightUserInput env.Name)
    (p.Emphasize p.LatestEnvTemplateVersion)))
  let complete := Event.Stop (p.Ssuccessf (fmtEnvUpgradeComplete (p.HighlightUserInput env.Name)
    (p.Emphasize p.LatestEnvTemplateVersion)))
  match rest t with
  | (Outcome.ok a, t1) => (Outcome.ok a, t1 ++ [complete])
  | (Outcome.err e, t1) => (Outcome.err e, t1 ++ [failed])
  | (Outcome.panic m, t1) => (Outcome.panic m, t1 ++ [complete])

/-- Method `upgrade`. -/
def upgrade (p : Pkg) (o : envUpgradeOpts) (env : config.Environment) (app : config.Application)
    (artifactBucketARN artifactBucketKeyARN : GoString)
    (customResourcesURLs : List (GoString × GoString)) : Act Unit := do
  let version ← envVersion o env.Name
  let should ← shouldUpgradeEnv p env.Name version
  if !should then
    pure ()
  else
    Act.emit (Event.Start (fmtEnvUpgradeStart (p.HighlightUserInput env.Name)
      (p.Emphasize version) (p.Emphasize p.LatestEnvTemplateVersion)))
    upgradeDeferred p env (do
      let res ← Act.call (fun t => o.newTemplateUpgrader t env) (Event.newTemplateUpgrader env)
      match res with
      | Except.error err => Act.fail err
      | Except.ok upgrader =>
        if version = p.LegacyEnvTemplateVersion then
          upgradeLegacyEnvironment p o upgrader env app artifactBucketARN artifactBucketKeyARN
            customResourcesURLs version p.LatestEnvTemplateVersion
        else
          upgradeEnvironment o upgrader env app artifactBucketARN artifactBucketKeyARN
            customResourcesURLs version p.LatestEnvTemplateVersion)

/-- The body of the loop of `Execute`, for one environment. -/
def ExecuteEnv (p : Pkg) (o : envUpgradeOpts) (app : config.Application)
    (env : config.Environment) : Act Unit := do
  let res ← Act.call (fun t => o.GetAppResourcesByRegion t app env.Region)
    (Event.GetAppResourcesByRegion app env.Region)
  match res with
  | Except.error err => Act.fail (fmt.Errorf_w "get app resources: ".toList err)
  | Except.ok resources =>
    ensureManagerRoleIsAllowedToUpload p o env resources.S3Bucket
    let res ← Act.call (fun t => o.newS3 t env) (Event.newS3 env)
    match res with
    | Except.error err => Act.fail err
    | Except.ok s3Client =>
      let res ← UploadEnvironmentCustomResources o (fun key objects =>
        Act.call (fun t => o.ZipAndUpload t s3Client resources.S3Bucket key objects)
          (Event.ZipAndUpload s3Client resources.S3Bucket key objects))
      match res with
      | Except.error err =>
        Act.fail (fmt.Errorf_w ("upload custom resources to bucket ".toList
          ++ resources.S3Bucket ++ ": ".toList) err)
      | Except.ok urls =>
        upgrade p o env app (p.FormatARN p.AwsPartitionID resources.S3Bucket)
          resources.KMSKeyARN urls

/-- The loop of `Execute` over the environments, in order. -/
def ExecuteLoop (p : Pkg) (o : envUpgradeOpts) (app : config.Application) :
    List config.Environment → Act Unit
  | [] => pure ()
  | env :: envs => do
    ExecuteEnv p o app env
    ExecuteLoop p o app envs

/-- Method `Execute`. -/
def Execute (p : Pkg) (o : envUpgradeOpts) : Act Unit := do
  let envs ← listEnvsToUpgrade o
  let res ← Act.call (fun t => o.GetApplication t o.appName) (Event.GetApplication o.appName)
  match res with
  | Except.error err =>
    Act.fail (fmt.Errorf_w ("get application ".toList ++ o.appName ++ ": ".toList) err)
  | Except.ok app => ExecuteLoop p o app envs

end envUpgradeOpts

/-! ## Classifying the calls of a trace -/

namespace Event

/-- Whether the event is a call of `UpdateEnvironmentTemplate`. -/
def isUpdateEnvironmentTemplate : Event → Bool
  | UpdateEnvironmentTemplate _ _ _ _ _ _ => true
  | _ => false

/-- Whether the event is an upgrade call: `UpgradeEnvironment` or
`UpgradeLegacyEnvironment`. -/
def isUpgradeCall : Event → Bool
  | UpgradeEnvironment _ _ _ => true
  | UpgradeLegacyEnvironment _ _ _ _ => true
  | _ => false

end Event

/-- Every call that the function adds to the trace satisfies `P`. -/
def Act.Emits {α : Type} (P : Event → Prop) (x : Act α) : Prop :=
  ∀ t : Trace, ∃ d : List Event, (x t).2 = t ++ d ∧ ∀ ev ∈ d, P ev

/-- A call of `UpdateEnvironmentTemplate` that returned an error other than an
empty change set ends the function: the function returns the error of the
permission patch, and the one call after the update is the stop of the
progress sink with the failure message. -/
def Act.UpdateErrorIsFatal {α : Type} (p : Pkg) (x : Act α) : Prop :=
  ∀ t : Trace, ∃ d : List Event, (x t).2 = t ++ d ∧
    ∀ (pre post : List Event) (c : Handle) (a n b r : GoString) (e : GoError),
      d = pre ++ Event.UpdateEnvironmentTemplate c a n b r (some e) :: post →
      e.AsErrChangeSetEmpty = false →
      (x t).1 = Outcome.err (fmt.Errorf_v
          "update environment template with PutObject permissions: ".toList e)
        ∧ post = [Event.Stop (p.Serrorln envUpgradeOpts.msgUnableToUpdate)]

namespace Event

/-- Whether the event is a call of the progress sink. -/
def isProgress : Event → Bool
  | Start _ => true
  | Stop _ => true
  | _ => false

/-- Whether the recorded call of a collaborator failed for the command: it
returned a non-nil error, other than an empty change set from
`UpdateEnvironmentTemplate`, which the command takes for a success. -/
def isFailure : Event → Bool
  | GetEnvironment _ _ (Except.error _) => true
  | ListEnvironments _ (Except.error _) => true
  | GetApplication _ (Except.error _) => true
  | ListServices _ (Except.error _) => true
  | Template (Except.error _) => true
  | GetAppResourcesByRegion _ _ (Except.error _) => true
  | newEnvDeployer _ (Except.error _) => true
  | newEnvVersionGetter _ _ (Except.error _) => true
  | newTemplateUpgrader _ (Except.error _) => true
  | newS3 _ (Except.error _) => true
  | EnvironmentTemplate _ _ _ (Except.error _) => true
  | UpdateEnvironmentTemplate _ _ _ _ _ (some e) => !e.AsErrChangeSetEmpty
  | Version _ (Except.error _) => true
  | UpgradeEnvironment _ _ (some _) => true
  | UpgradeLegacyEnvironment _ _ _ (some _) => true
  | ZipAndUpload _ _ _ _ (Except.error _) => true
  | _ => false

/-- What the command still records after a failed call: the stop of the
progress sink, and the return of the publisher whose upload failed. -/
def isCleanup : Event → Bool
  | Stop _ => true
  | UploadEnvironmentCustomResources _ => true
  | _ => false

end Event

/-- The function never ends in a run-time panic. -/
def Act.NeverPanics {α : Type} (x : Act α) : Prop :=
  ∀ (t : Trace) (m : GoString), (x t).1 ≠ Outcome.panic m

/-- A failed call of a collaborator ends the function: the function returns a
non-nil error, and after the failed call it only stops the progress sink (and
records the return of the publisher). -/
def Act.FailFast {α : Type} (x : Act α) : Prop :=
  ∀ t : Trace, ∃ d : List Event, (x t).2 = t ++ d ∧
    ∀ (pre post : List Event) (ev : Event),
      d = pre ++ ev :: post → ev.isFailure = true →
      (x t).1.isErr = true ∧ ∀ e ∈ post, e.isCleanup = true

/-- Whether the call reports a failure: it returned a non-nil error, or it
returned a value that `bad` takes for a failure. -/
def Outcome.failed {α : Type} (bad : α → Bool) : Outcome α → Bool
  | Outcome.err _ => true
  | Outcome.ok a => bad a
  | Outcome.panic _ => false

/-- A failed call of a collaborator ends the function, which reports the
failure to its caller, as an error or as a value that `bad` takes for a
failure; after the failed call it only stops the progress sink (and records
the return of the publisher). -/
def Act.FailFastOr {α : Type} (bad : α → Bool) (x : Act α) : Prop :=
  ∀ t : Trace, ∃ d : List Event, (x t).2 = t ++ d ∧
    ∀ (pre post : List Event) (ev : Event),
      d = pre ++ ev :: post → ev.isFailure = true →
      (x t).1.failed bad = true ∧ ∀ e ∈ post, e.isCleanup = true

/-- The function reports a failure to its caller, and only stops the progress
sink (and records the return of the publisher). -/
def Act.AbortsOr {α : Type} (bad : α → Bool) (x : Act α) : Prop :=
  ∀ t : Trace, (x t).1.failed bad = true ∧
    ∃ d : List Event, (x t).2 = t ++ d ∧ ∀ e ∈ d, e.isCleanup = true

/-! ## Test doubles

Concrete collaborators, in the manner of the mocks of the Go tests, on which
the theorems below are instantiated. -/

namespace Mock

/-- Package constants and library functions: the latest template version is
`latest`, every template body decodes to the version `version` and to the
statement nodes `policies`, and the styling functions add nothing. -/
def pkg (latest version : GoString) (policies : List yaml.Node) : Pkg :=
  { LatestEnvTemplateVersion := latest
    LegacyEnvTemplateVersion := "v0.0.0".toList
    LoadBalancedWebServiceType := "Load Balanced Web Service".toList
    AwsPartitionID := "aws".toList
    allFlag := "all".toList
    nameFlag := "name".toList
    FormatARN := fun partition location =>
      "arn:".toList ++ partition ++ ":s3:::".toList ++ location
    UnmarshalVersion := fun _ => Except.ok version
    UnmarshalPolicies := fun _ => Except.ok policies
    HighlightUserInput := fun s => s
    Emphasize := fun s => s
    Serrorln := fun s => "x ".toList ++ s ++ "\n".toList
    Ssuccessln := fun s => "v ".toList ++ s ++ "\n".toList
    Serrorf := fun s => "x ".toList ++ s
    Ssuccessf := fun s => "v ".toList ++ s }

/-- The environment `test` of the application `phonetool`. -/
def env : config.Environment :=
  { App := "phonetool".toList
    Name := "test".toList
    Region := "us-west-2".toList
    ManagerRoleARN := "managerRole".toList
    ExecutionRoleARN := "execRole".toList }

/-- The application `phonetool`. -/
def app : config.Application := { Name := "phonetool".toList }

/-- Collaborators that all succeed: the store knows the environment `env`,
the environment template is `actual`, the canonical legacy template is
`canonical`, the environment is on version `version`, and every update and
upgrade call returns `updateRes`. -/
def opts (actual canonical version : GoString) (updateRes : Option GoError) : envUpgradeOpts :=
  { appName := "phonetool".toList
    name := "test".toList
    all := false
    GetEnvironment := fun _ _ _ => Except.ok env
    ListEnvironments := fun _ _ => Except.ok [env]
    GetApplication := fun _ _ => Except.ok app
    ListServices := fun _ _ =>
      Except.ok [{ App := "phonetool".toList, Name := "frontend".toList,
                   Type_ := "Load Balanced Web Service".toList }]
    Template := fun _ => Except.ok canonical
    GetAppResourcesByRegion := fun _ _ _ =>
      Except.ok { S3Bucket := "bucket".toList, KMSKeyARN := "key".toList }
    uploader := [{ name := "script".toList, key := "script.zip".toList, objects := [] }]
    newEnvDeployer := fun _ _ => Except.ok 1
    newEnvVersionGetter := fun _ _ _ => Except.ok 2
    newTemplateUpgrader := fun _ _ => Except.ok 3
    newS3 := fun _ _ => Except.ok 4
    EnvironmentTemplate := fun _ _ _ _ => Except.ok actual
    UpdateEnvironmentTemplate := fun _ _ _ _ _ _ => updateRes
    Version := fun _ _ => Except.ok version
    UpgradeEnvironment := fun _ _ _ => updateRes
    UpgradeLegacyEnvironment := fun _ _ _ _ => updateRes
    ZipAndUpload := fun _ _ _ _ _ => Except.ok "url".toList }

/-- A template body of seven lines. The statement list of the first policy
of the manager role is the sequence that starts at the dash of line 7,
column 13. -/
def body : GoString :=
  ("Resources:\n".toList
    ++ "  EnvironmentManagerRole:\n".toList
    ++ "    Properties:\n".toList
    ++ "      Policies:\n".toList
    ++ "        - PolicyDocument:\n".toList
    ++ "            Statement:\n".toList
    ++ "            - Sid: CloudwatchLogs".toList)

/-- The body `body` with the statement `PatchPutObjectsToArtifactBucket` for
the bucket `bucket` added before line 7. -/
def patched : GoString :=
  strings.Join
    [ "Resources:".toList,
      "  EnvironmentManagerRole:".toList,
      "    Properties:".toList,
      "      Policies:".toList,
      "        - PolicyDocument:".toList,
      "            Statement:".toList,
      "            - Sid: PatchPutObjectsToArtifactBucket".toList,
      "              Effect: Allow".toList,
      "              Action:".toList,
      "                - s3:PutObject".toList,
      "                - s3:PutObjectAcl".toList,
      "              Resource:".toList,
      "                - arn:aws:s3:::bucket".toList,
      "                - arn:aws:s3:::bucket/*".toList,
      "            - Sid: CloudwatchLogs".toList ]

/-- The body `patched` patched a second time: the statement
`PatchPutObjectsToArtifactBucket` is there twice. -/
def patchedTwice : GoString :=
  strings.Join
    [ "Resources:".toList,
      "  EnvironmentManagerRole:".toList,
      "    Properties:".toList,
      "      Policies:".toList,
      "        - PolicyDocument:".toList,
      "            Statement:".toList,
      "            - Sid: PatchPutObjectsToArtifactBucket".toList,
      "              Effect: Allow".toList,
      "              Action:".toList,
      "                - s3:PutObject".toList,
      "                - s3:PutObjectAcl".toList,
      "              Resource:".toList,
      "                - arn:aws:s3:::bucket".toList,
      "                - arn:aws:s3:::bucket/*".toList,
      "            - Sid: PatchPutObjectsToArtifactBucket".toList,
      "              Effect: Allow".toList,
      "              Action:".toList,
      "                - s3:PutObject".toList,
      "                - s3:PutObjectAcl".toList,
      "              Resource:".toList,
      "                - arn:aws:s3:::bucket".toList,
      "                - arn:aws:s3:::bucket/*".toList,
      "            - Sid: CloudwatchLogs".toList ]

/-- A template body whose manager role has one policy, without a policy
document and so without a statement list: the decoder leaves the statement
node at its zero value, line 0 and column 0. -/
def bodyWithoutStatement : GoString :=
  ("Resources:\n".toList
    ++ "  EnvironmentManagerRole:\n".toList
    ++ "    Properties:\n".toList
    ++ "      Policies:\n".toList
    ++ "        - PolicyName: root".toList)

/-- The environment `test` with a stored custom configuration: an imported
VPC, two imported certificates, an internal-ALB subnet allow-list and the
VPC-ingress flag. -/
def customEnv : config.Environment :=
  { App := "phonetool".toList
    Name := "test".toList
    Region := "us-west-2".toList
    ManagerRoleARN := "managerRole".toList
    ExecutionRoleARN := "execRole".toList
    CustomConfig := some
      { ImportVPC := some { ID := "vpc-1".toList
                            PrivateSubnetIDs := ["subnet1".toList, "subnet2".toList] }
        ImportCertARNs := ["cert1".toList, "cert2".toList]
        InternalALBSubnets := ["subnet2".toList]
        EnableInternalALBVPCIngress := true } }

/-- The collaborators of `opts`, with a store whose listing of the services
fails. -/
def optsNoServices (actual canonical : GoString) : envUpgradeOpts :=
  { opts actual canonical "v0.0.0".toList none with
    ListServices := fun _ _ => Except.error (GoError.errorString "throttled".toList) }

/-- An empty-change-set error wrapped in another error. -/
def wrappedEmptyChangeSet : GoError :=
  GoError.wrapError "update stack: change set has no changes".toList
    (GoError.ErrChangeSetEmpty "change set has no changes".toList)

/-- An error of the update call that is not an empty change set. -/
def accessDenied : GoError := GoError.errorString "access denied".toList

/-- The environment `prod` of the application `phonetool`, without custom
network configuration. -/
def prod : config.Environment :=
  { App := "phonetool".toList
    Name := "prod".toList
    Region := "us-west-2".toList
    ManagerRoleARN := "managerRole".toList
    ExecutionRoleARN := "execRole".toList }

/-- The collaborators of `opts` for the single environment `prod`. -/
def prodOpts (actual canonical version : GoString) (updateRes : Option GoError) :
    envUpgradeOpts :=
  { opts actual canonical version updateRes with
    name := "prod".toList
    GetEnvironment := fun _ _ _ => Except.ok prod }

/-- The collaborators of `opts` for the single environment `customEnv`, a
legacy environment with a stored custom configuration. -/
def customOpts (actual canonical version : GoString) (updateRes : Option GoError) :
    envUpgradeOpts :=
  { opts actual canonical version updateRes with
    GetEnvironment := fun _ _ _ => Except.ok customEnv }

/-- The error of the version getter of the second environment. -/
def describeFailed : GoError := GoError.errorString "describe stack: timeout".toList

/-- The collaborators of `opts` with the flag `all` and the two environments
`test` and `prod`, in this order: `test` is on version `v1.8.0`, and the call
`Version` for `prod` fails. -/
def twoEnvOpts : envUpgradeOpts :=
  { opts body [] "v1.8.0".toList none with
    name := []
    all := true
    ListEnvironments := fun _ _ => Except.ok [env, prod]
    newEnvVersionGetter := fun _ _ name =>
      Except.ok (if name = "test".toList then 2 else 5)
    Version := fun _ client =>
      if client = 2 then Except.ok "v1.8.0".toList else Except.error describeFailed }

/-- The calls of `Execute` with `twoEnvOpts`, latest version `v1.9.0`, up to
the end of the first environment: the two calls of the store, then for `test`
no permission patch, the publication of the artifacts and one
`UpgradeEnvironment` call. -/
def firstEnvTrace : Trace :=
  [Event.ListEnvironments "phonetool".toList (Except.ok [env, prod]),
    Event.GetApplication "phonetool".toList (Except.ok app),
    Event.GetAppResourcesByRegion app "us-west-2".toList
      (Except.ok { S3Bucket := "bucket".toList, KMSKeyARN := "key".toList }),
    Event.newEnvDeployer env (Except.ok 1),
    Event.EnvironmentTemplate 1 "phonetool".toList "test".toList (Except.ok body),
    Event.newS3 env (Except.ok 4),
    Event.ZipAndUpload 4 "bucket".toList "script.zip".toList [] (Except.ok "url".toList),
    Event.UploadEnvironmentCustomResources (Except.ok [("script".toList, "url".toList)]),
    Event.newEnvVersionGetter "phonetool".toList "test".toList (Except.ok 2),
    Event.Version 2 (Except.ok "v1.8.0".toList),
    Event.Start (fmtEnvUpgradeStart "test".toList "v1.8.0".toList "v1.9.0".toList),
    Event.newTemplateUpgrader env (Except.ok 3),
    Event.UpgradeEnvironment 3
      { Version := "v1.9.0".toList
        App := { Name := "phonetool".toList }
        Name := "test".toList
        CustomResourcesURLs := [("script".toList, "url".toList)]
        ArtifactBucketARN := "arn:aws:s3:::bucket".toList
        ArtifactBucketKeyARN := "key".toList
        CFNServiceRoleARN := "execRole".toList } none,
    Event.Stop ("v ".toList ++ fmtEnvUpgradeComplete "test".toList "v1.9.0".toList)]

/-- The calls of `Execute` with `twoEnvOpts` for the second environment,
`prod`, up to the failed call `Version`. -/
def secondEnvCalls : List Event :=
  [Event.GetAppResourcesByRegion app "us-west-2".toList
      (Except.ok { S3Bucket := "bucket".toList, KMSKeyARN := "key".toList }),
    Event.newEnvDeployer prod (Except.ok 1),
    Event.EnvironmentTemplate 1 "phonetool".toList "prod".toList (Except.ok body),
    Event.newS3 prod (Except.ok 4),
    Event.ZipAndUpload 4 "bucket".toList "script.zip".toList [] (Except.ok "url".toList),
    Event.UploadEnvironmentCustomResources (Except.ok [("script".toList, "url".toList)]),
    Event.newEnvVersionGetter "phonetool".toList "prod".toList (Except.ok 5),
    Event.Version 5 (Except.error describeFailed)]

/-- Package constants for a run over two templates, latest version `v1.9.0`:
every body declares version `v1.8.0`; the decoder finds in
`bodyWithoutStatement` one policy whose statement node is the zero value, and
in every other body the statement list at line 7, column 13. -/
def pkgTwoTemplates : Pkg :=
  { pkg "v1.9.0".toList "v1.8.0".toList [] with
    UnmarshalPolicies := fun b =>
      if b = bodyWithoutStatement then Except.ok [{ Line := 0, Column := 0 }]
      else Except.ok [{ Line := 7, Column := 13 }] }

/-- The collaborators of `twoEnvOpts`, where the template of `test` is `body`
and the template of `prod` is `bodyWithoutStatement`. -/
def twoTemplateOpts : envUpgradeOpts :=
  { twoEnvOpts with
    EnvironmentTemplate := fun _ _ _ name =>
      if name = "prod".toList then Except.ok bodyWithoutStatement else Except.ok body }

end Mock

/-! ## Theorems -/

section ActLemmas

variable {α β : Type}

@[simp] theorem Act.pure_apply (a : α) (t : Trace) :
    (pure a : Act α) t = (Outcome.ok a, t) := rfl

@[simp] theorem Act.bind_apply (x : Act α) (f : α → Act β) (t : Trace) :
    (x >>= f) t =
      match x t with
      | (Outcome.ok a, t1) => f a t1
      | (Outcome.err e, t1) => (Outcome.err e, t1)
      | (Outcome.panic m, t1) => (Outcome.panic m, t1) := rfl

@[simp] theorem Act.fail_apply (e : GoError) (t : Trace) :
    (Act.fail e : Act α) t = (Outcome.err e, t) := rfl

@[simp] theorem Act.panic_apply (m : GoString) (t : Trace) :
    (Act.panic m : Act α) t = (Outcome.panic m, t) := rfl

@[simp] theorem Act.call_apply {ρ : Type} (respond : Trace → ρ) (record : ρ → Event) (t : Trace) :
    Act.call respond record t = (Outcome.ok (respond t), t ++ [record (respond t)]) := rfl

@[simp] theorem Act.emit_apply (e : Event) (t : Trace) :
    Act.emit e t = (Outcome.ok (), t ++ [e]) := rfl

end ActLemmas

/-! ### The version comparator -/

theorem semver.compareInt_range (x y : GoString) :
    semver.compareInt x y = -1 ∨ semver.compareInt x y = 0 ∨ semver.compareInt x y = 1 := by
  unfold semver.compareInt
  split_ifs <;> simp

theorem semver.comparePrereleaseLoop_range (fuel : Nat) (x y : GoString) :
    semver.comparePrereleaseLoop fuel x y = -1 ∨ semver.comparePrereleaseLoop fuel x y = 0
      ∨ semver.comparePrereleaseLoop fuel x y = 1 := by
  induction fuel generalizing x y with
  | zero =>
    unfold semver.comparePrereleaseLoop
    split_ifs <;> simp
  | succ n ih =>
    unfold semver.comparePrereleaseLoop
    simp only []
    split_ifs <;> first | exact ih _ _ | simp

/-- The loop of `comparePrerelease` always runs to its end on the turns it is
given: any two numbers of turns above the length of `x` give the same result. -/
theorem semver.comparePrereleaseLoop_fuel (n m : Nat) (x y : GoString)
    (hn : x.length < n) (hm : x.length < m) :
    semver.comparePrereleaseLoop n x y = semver.comparePrereleaseLoop m x y := by
  induction n generalizing m x y with
  | zero => omega
  | succ n ih =>
    cases m with
    | zero => omega
    | succ m =>
      unfold semver.comparePrereleaseLoop
      by_cases hxy : x ≠ [] ∧ y ≠ []
      · have hlen : (semver.nextIdent x.tail).2.length < x.length := by
          have h1 : (semver.nextIdent x.tail).2.length ≤ x.tail.length :=
            (List.dropWhile_sublist _).length_le
          have h2 : 0 < x.length := List.length_pos.mpr hxy.1
          rw [List.length_tail] at h1
          omega
        have hrec := ih m (semver.nextIdent x.tail).2 (semver.nextIdent y.tail).2
          (by omega) (by omega)
        simp only [hxy, and_self, if_true]
        split_ifs <;> first | rfl | exact hrec
      · simp only [hxy, if_false]

theorem semver.comparePrerelease_range (x y : GoString) :
    semver.comparePrerelease x y = -1 ∨ semver.comparePrerelease x y = 0
      ∨ semver.comparePrerelease x y = 1 := by
  unfold semver.comparePrerelease
  split_ifs <;> first | exact semver.comparePrereleaseLoop_range _ _ _ | simp

theorem semver.Compare_range (v w : GoString) :
    semver.Compare v w = -1 ∨ semver.Compare v w = 0 ∨ semver.Compare v w = 1 := by
  unfold semver.Compare
  split
  · simp
  · simp
  · simp
  · simp only []
    split_ifs
    · exact semver.compareInt_range _ _
    · exact semver.compareInt_range _ _
    · exact semver.compareInt_range _ _
    · exact semver.comparePrerelease_range _ _

/-! #### `Compare` on release versions is the order by major, minor, patch -/

theorem Char.eq_of_toNat_eq {a b : Char} (h : a.toNat = b.toNat) : a = b := by
  apply Char.ext
  apply UInt32.ext
  exact h

theorem semver.foldl_value (x : GoString) (n : Nat) :
    x.foldl (fun n c => 10 * n + (c.toNat - 48)) n
      = n * 10 ^ x.length + semver.numeralValue x := by
  induction x generalizing n with
  | nil => simp [semver.numeralValue]
  | cons c cs ih =>
    simp only [semver.numeralValue, List.foldl_cons, List.length_cons]
    rw [ih, ih (10 * 0 + (c.toNat - 48))]
    ring

theorem semver.numeralValue_cons (c : Char) (x : GoString) :
    semver.numeralValue (c :: x) = (c.toNat - 48) * 10 ^ x.length + semver.numeralValue x := by
  simp only [semver.numeralValue, List.foldl_cons]
  rw [semver.foldl_value]
  simp [semver.numeralValue]

theorem semver.numeralValue_lt (x : GoString) (hx : ∀ c ∈ x, semver.isDigit c = true) :
    semver.numeralValue x < 10 ^ x.length := by
  induction x with
  | nil => simp [semver.numeralValue]
  | cons c cs ih =>
    rw [semver.numeralValue_cons]
    have hc := hx c (by simp)
    have := ih (fun d hd => hx d (by simp [hd]))
    simp only [semver.isDigit, Bool.and_eq_true, decide_eq_true_eq] at hc
    have h9 : c.toNat - 48 ≤ 9 := by omega
    simp only [List.length_cons, pow_succ]
    nlinarith

theorem semver.le_numeralValue (x : GoString) (hx : semver.IsNumeral x)
    (h0 : x.head? ≠ some '0') : 10 ^ (x.length - 1) ≤ semver.numeralValue x := by
  obtain ⟨hne, hd, _⟩ := hx
  cases x with
  | nil => exact absurd rfl hne
  | cons c cs =>
    rw [semver.numeralValue_cons]
    have hc := hd c (by simp)
    simp only [semver.isDigit, Bool.and_eq_true, decide_eq_true_eq] at hc
    have hc0 : c ≠ '0' := by
      intro h
      apply h0
      simp [h]
    have hc48 : c.toNat ≠ 48 := by
      intro h
      exact hc0 (Char.eq_of_toNat_eq (by simpa using h))
    have : 1 ≤ c.toNat - 48 := by omega
    simp only [List.length_cons, Nat.add_sub_cancel]
    nlinarith [Nat.zero_le (semver.numeralValue cs), Nat.pos_pow_of_pos cs.length (by norm_num : 0 < 10)]

theorem semver.digits_order (x y : GoString) (hx : ∀ c ∈ x, semver.isDigit c = true)
    (hy : ∀ c ∈ y, semver.isDigit c = true) (hlen : x.length = y.length) :
    (semver.numeralValue x = semver.numeralValue y → x = y)
    ∧ (semver.strLt x y = true ↔ semver.numeralValue x < semver.numeralValue y) := by
  induction x generalizing y with
  | nil =>
    cases y with
    | nil => simp [semver.strLt]
    | cons d ds => simp at hlen
  | cons c cs ih =>
    cases y with
    | nil => simp at hlen
    | cons d ds =>
      have hl : cs.length = ds.length := by simpa using hlen
      have hc := hx c (by simp)
      have hd := hy d (by simp)
      simp only [semver.isDigit, Bool.and_eq_true, decide_eq_true_eq] at hc hd
      have hcs := semver.numeralValue_lt cs (fun a ha => hx a (by simp [ha]))
      have hds := semver.numeralValue_lt ds (fun a ha => hy a (by simp [ha]))
      obtain ⟨ih1, ih2⟩ := ih ds (fun a ha => hx a (by simp [ha]))
        (fun a ha => hy a (by simp [ha])) hl
      rw [semver.numeralValue_cons, semver.numeralValue_cons, hl]
      rw [hl] at hcs
      have hpos : 0 < 10 ^ ds.length := Nat.pos_pow_of_pos _ (by norm_num)
      rcases Nat.lt_trichotomy c.toNat d.toNat with hlt | heq | hgt
      · have h1 : (c.toNat - 48) + 1 ≤ d.toNat - 48 := by omega
        have h2 : ((c.toNat - 48) + 1) * 10 ^ ds.length ≤ (d.toNat - 48) * 10 ^ ds.length :=
          Nat.mul_le_mul_right _ h1
        have h3 : (c.toNat - 48) * 10 ^ ds.length + semver.numeralValue cs
            < (d.toNat - 48) * 10 ^ ds.length + semver.numeralValue ds := by
          rw [Nat.add_mul] at h2
          omega
        constructor
        · intro h
          omega
        · simp [semver.strLt, hlt, h3]
      · have hcd : c = d := Char.eq_of_toNat_eq heq
        subst hcd
        constructor
        · intro h
          have : semver.numeralValue cs = semver.numeralValue ds := by omega
          rw [ih1 this]
        · simp only [semver.strLt, lt_self_iff_false, if_false]
          rw [ih2]
          omega
      · have h1 : (d.toNat - 48) + 1 ≤ c.toNat - 48 := by omega
        have h2 : ((d.toNat - 48) + 1) * 10 ^ ds.length ≤ (c.toNat - 48) * 10 ^ ds.length :=
          Nat.mul_le_mul_right _ h1
        have h3 : (d.toNat - 48) * 10 ^ ds.length + semver.numeralValue ds
            < (c.toNat - 48) * 10 ^ ds.length + semver.numeralValue cs := by
          rw [Nat.add_mul] at h2
          omega
        constructor
        · intro h
          omega
        · have hnlt : ¬ c.toNat < d.toNat := by omega
          simp only [semver.strLt, hnlt, hgt, if_false, if_true]
          constructor
          · intro h
            simp at h
          · intro h
            omega

theorem semver.numeral_lt_of_length_lt (x y : GoString) (hx : semver.IsNumeral x)
    (hy : semver.IsNumeral y) (hlen : x.length < y.length) :
    semver.numeralValue x < semver.numeralValue y := by
  have h1 := semver.numeralValue_lt x hx.2.1
  have hy0 : y.head? ≠ some '0' := by
    intro h
    have := hy.2.2 h
    have hx1 : 0 < x.length := List.length_pos.mpr hx.1
    omega
  have h2 := semver.le_numeralValue y hy hy0
  have h3 : 10 ^ x.length ≤ 10 ^ (y.length - 1) :=
    Nat.pow_le_pow_right (by norm_num) (by omega)
  omega

theorem semver.compareInt_numeral (x y : GoString) (hx : semver.IsNumeral x)
    (hy : semver.IsNumeral y) :
    semver.compareInt x y
      = if semver.numeralValue x < semver.numeralValue y then -1
        else if semver.numeralValue x = semver.numeralValue y then 0 else 1 := by
  unfold semver.compareInt
  by_cases hxy : x = y
  · subst hxy
    simp
  · rw [if_neg hxy]
    rcases Nat.lt_trichotomy x.length y.length with hlt | heq | hgt
    · have := semver.numeral_lt_of_length_lt x y hx hy hlt
      simp [hlt, this]
    · obtain ⟨h1, h2⟩ := semver.digits_order x y hx.2.1 hy.2.1 heq
      have hne : semver.numeralValue x ≠ semver.numeralValue y := fun h => hxy (h1 h)
      have hl1 : ¬ x.length < y.length := by omega
      have hl2 : ¬ x.length > y.length := by omega
      rw [if_neg hl1, if_neg hl2]
      by_cases hs : semver.strLt x y = true
      · have := h2.mp hs
        simp [hs, this]
      · have hnlt : ¬ semver.numeralValue x < semver.numeralValue y := fun h => hs (h2.mpr h)
        simp [hs, hnlt, hne]
    · have := semver.numeral_lt_of_length_lt y x hy hx hgt
      have hl1 : ¬ x.length < y.length := by omega
      have hnlt : ¬ semver.numeralValue x < semver.numeralValue y := by omega
      have hne : semver.numeralValue x ≠ semver.numeralValue y := by omega
      simp [hl1, hgt, hnlt, hne]

theorem semver.parseInt_numeral (x rest : GoString) (hx : semver.IsNumeral x)
    (hrest : ∀ c ∈ rest.head?, semver.isDigit c = false) :
    semver.parseInt (x ++ rest) = some (x, rest) := by
  obtain ⟨hne, hd, h0⟩ := hx
  have htake : List.takeWhile semver.isDigit rest = [] := by
    cases rest with
    | nil => rfl
    | cons r rs =>
      have := hrest r (by simp)
      simp [List.takeWhile, this]
  have hdrop : List.dropWhile semver.isDigit rest = rest := by
    cases rest with
    | nil => rfl
    | cons r rs =>
      have := hrest r (by simp)
      simp [List.dropWhile, this]
  cases x with
  | nil => exact absurd rfl hne
  | cons c cs =>
    have hc := hd c (by simp)
    have ht : List.takeWhile semver.isDigit (c :: cs ++ rest) = c :: cs := by
      rw [List.takeWhile_append_of_pos hd, htake, List.append_nil]
    have hdr : List.dropWhile semver.isDigit (c :: cs ++ rest) = rest := by
      rw [List.dropWhile_append_of_pos hd, hdrop]
    have hcond : ¬ (c = '0' ∧ (c :: cs).length ≠ 1) := by
      rintro ⟨hc0, hlen⟩
      exact hlen (h0 (by simp [hc0]))
    show semver.parseInt (c :: (cs ++ rest)) = some (c :: cs, rest)
    unfold semver.parseInt
    simp only [hc, Bool.not_true, Bool.false_eq_true, if_false]
    rw [← List.cons_append, ht, hdr, if_neg hcond]

theorem semver.parse_release (a b c : GoString) (ha : semver.IsNumeral a)
    (hb : semver.IsNumeral b) (hc : semver.IsNumeral c) :
    semver.parse (semver.release a b c)
      = some { major := a, minor := b, patch := c } := by
  have hdot : ∀ (rest : GoString), ∀ x ∈ ('.' :: rest).head?, semver.isDigit x = false := by
    intro rest x hx
    simp only [List.head?_cons, Option.mem_def, Option.some.injEq] at hx
    subst hx
    decide
  have h1 := semver.parseInt_numeral a ('.' :: (b ++ '.' :: c)) ha (hdot _)
  have h2 := semver.parseInt_numeral b ('.' :: c) hb (hdot _)
  have h3 := semver.parseInt_numeral c [] hc (by simp)
  rw [List.append_nil] at h3
  unfold semver.release semver.parse
  simp only [ne_eq, not_true_eq_false, if_false, h1, h2, h3]
  rfl

theorem semver.Compare_release (a b c a2 b2 c2 : GoString) (ha : semver.IsNumeral a)
    (hb : semver.IsNumeral b) (hc : semver.IsNumeral c) (ha2 : semver.IsNumeral a2)
    (hb2 : semver.IsNumeral b2) (hc2 : semver.IsNumeral c2) :
    (semver.Compare (semver.release a b c) (semver.release a2 b2 c2) < 0
      ↔ (semver.numeralValue a < semver.numeralValue a2
          ∨ (semver.numeralValue a = semver.numeralValue a2
            ∧ (semver.numeralValue b < semver.numeralValue b2
              ∨ (semver.numeralValue b = semver.numeralValue b2
                ∧ semver.numeralValue c < semver.numeralValue c2)))))
    ∧ (semver.Compare (semver.release a b c) (semver.release a2 b2 c2) = 0
      ↔ (semver.numeralValue a = semver.numeralValue a2
          ∧ semver.numeralValue b = semver.numeralValue b2
          ∧ semver.numeralValue c = semver.numeralValue c2)) := by
  unfold semver.Compare
  rw [semver.parse_release a b c ha hb hc, semver.parse_release a2 b2 c2 ha2 hb2 hc2]
  simp only [semver.compareInt_numeral _ _ ha ha2, semver.compareInt_numeral _ _ hb hb2,
    semver.compareInt_numeral _ _ hc hc2]
  have hp : semver.comparePrerelease [] [] = 0 := rfl
  rw [hp]
  rcases Nat.lt_trichotomy (semver.numeralValue a) (semver.numeralValue a2) with h1 | h1 | h1
  · simp [h1]
    omega
  · rcases Nat.lt_trichotomy (semver.numeralValue b) (semver.numeralValue b2) with h2 | h2 | h2
    · simp [h1, h2]
      omega
    · rcases Nat.lt_trichotomy (semver.numeralValue c) (semver.numeralValue c2) with
        h3 | h3 | h3
      · simp [h1, h2, h3]
        omega
      · simp [h1, h2, h3]
      · have h3a : ¬ semver.numeralValue c < semver.numeralValue c2 := by omega
        have h3b : semver.numeralValue c ≠ semver.numeralValue c2 := by omega
        simp [h1, h2, h3a, h3b]
    · have h2a : ¬ semver.numeralValue b < semver.numeralValue b2 := by omega
      have h2b : semver.numeralValue b ≠ semver.numeralValue b2 := by omega
      simp [h1, h2a, h2b]
  · have h1a : ¬ semver.numeralValue a < semver.numeralValue a2 := by omega
    have h1b : semver.numeralValue a ≠ semver.numeralValue a2 := by omega
    simp [h1a, h1b]

/-- C1. `shouldUpgradeEnv env v` returns true exactly when `v` is strictly
lower than `deploy.LatestEnvTemplateVersion` in the order of `semver.Compare`
(in which a string that is not a version is below every version), and then
logs nothing. When `v` compares equal it returns false and logs the
up-to-date message; when `v` compares greater it returns false and logs the
advisory message, which is a different message. One of the three cases always
applies. On release versions `vMAJOR.MINOR.PATCH` the order is the numeric
order by major, then minor, then patch number. The advisory message is the
text `Skip upgrading environment ENV to version LATEST since it` + apostrophe
+ `s on version V. ` + line break + `Are you using the latest version of AWS
Copilot?`: it names `v` and ends with the question about the latest tool. The
up-to-date message is the text `Environment ENV is already on the latest
version LATEST, skip upgrade.`, which does not end with that question. -/
theorem shouldUpgradeEnv_decides (p : Pkg) (env v : GoString) (t : Trace) :
    ((shouldUpgradeEnv p env v t).1 = Outcome.ok true
        ↔ semver.Compare v p.LatestEnvTemplateVersion < 0)
    ∧ (semver.Compare v p.LatestEnvTemplateVersion = -1
        ∨ semver.Compare v p.LatestEnvTemplateVersion = 0
        ∨ semver.Compare v p.LatestEnvTemplateVersion = 1)
    ∧ (semver.Compare v p.LatestEnvTemplateVersion = -1 →
        shouldUpgradeEnv p env v t = (Outcome.ok true, t))
    ∧ (semver.Compare v p.LatestEnvTemplateVersion = 0 →
        shouldUpgradeEnv p env v t
          = (Outcome.ok false,
              t ++ [Event.Debugln (msgAlreadyLatest env p.LatestEnvTemplateVersion)]))
    ∧ (semver.Compare v p.LatestEnvTemplateVersion = 1 →
        shouldUpgradeEnv p env v t
          = (Outcome.ok false,
              t ++ [Event.Debugln (msgVersionSkew env p.LatestEnvTemplateVersion v)]))
    ∧ msgVersionSkew env p.LatestEnvTemplateVersion v
        ≠ msgAlreadyLatest env p.LatestEnvTemplateVersion
    ∧ (∀ a b c a2 b2 c2 : GoString,
        semver.IsNumeral a → semver.IsNumeral b → semver.IsNumeral c →
        semver.IsNumeral a2 → semver.IsNumeral b2 → semver.IsNumeral c2 →
        v = semver.release a b c →
        p.LatestEnvTemplateVersion = semver.release a2 b2 c2 →
        ((shouldUpgradeEnv p env v t).1 = Outcome.ok true
          ↔ (semver.numeralValue a < semver.numeralValue a2
              ∨ (semver.numeralValue a = semver.numeralValue a2
                ∧ (semver.numeralValue b < semver.numeralValue b2
                  ∨ (semver.numeralValue b = semver.numeralValue b2
                    ∧ semver.numeralValue c < semver.numeralValue c2))))))
    ∧ msgVersionSkew env p.LatestEnvTemplateVersion v
        = "Skip upgrading environment ".toList ++ env ++ " to version ".toList
          ++ p.LatestEnvTemplateVersion ++ " since it".toList ++ [Char.ofNat 39]
          ++ "s on version ".toList ++ v
          ++ ". \nAre you using the latest version of AWS Copilot?".toList
    ∧ v <:+: msgVersionSkew env p.LatestEnvTemplateVersion v
    ∧ "Are you using the latest version of AWS Copilot?".toList
        <:+ msgVersionSkew env p.LatestEnvTemplateVersion v
    ∧ msgAlreadyLatest env p.LatestEnvTemplateVersion
        = "Environment ".toList ++ env ++ " is already on the latest version ".toList
          ++ p.LatestEnvTemplateVersion ++ ", skip upgrade.".toList
    ∧ ¬ ("Are you using the latest version of AWS Copilot?".toList
        <:+ msgAlreadyLatest env p.LatestEnvTemplateVersion) := by
  have hfirst : (shouldUpgradeEnv p env v t).1 = Outcome.ok true
      ↔ semver.Compare v p.LatestEnvTemplateVersion < 0 := by
    unfold shouldUpgradeEnv
    by_cases h : semver.Compare v p.LatestEnvTemplateVersion < 0
    · simp [h]
    · simp [h]
  refine ⟨hfirst, semver.Compare_range _ _, ?_, ?_, ?_, ?_, ?_, rfl, ?_, ?_, rfl, ?_⟩
  · intro h
    simp [shouldUpgradeEnv, h]
  · intro h
    simp [shouldUpgradeEnv, h]
  · intro h
    simp [shouldUpgradeEnv, h]
  · intro h
    have := congrArg List.head? h
    simp [msgVersionSkew, msgAlreadyLatest] at this
  · intro a b c a2 b2 c2 ha hb hc ha2 hb2 hc2 hv hl
    rw [hfirst, hv, hl]
    exact (semver.Compare_release a b c a2 b2 c2 ha hb hc ha2 hb2 hc2).1
  · exact ⟨"Skip upgrading environment ".toList ++ env ++ " to version ".toList
        ++ p.LatestEnvTemplateVersion ++ " since it".toList ++ [apostrophe]
        ++ "s on version ".toList,
      ". \nAre you using the latest version of AWS Copilot?".toList, rfl⟩
  · exact ⟨"Skip upgrading environment ".toList ++ env ++ " to version ".toList
        ++ p.LatestEnvTemplateVersion ++ " since it".toList ++ [apostrophe]
        ++ "s on version ".toList ++ v ++ ". \n".toList,
      by simp [msgVersionSkew]⟩
  · rintro ⟨pre, hpre⟩
    have hq : "Are you using the latest version of AWS Copilot?".toList
        = "Are you using the latest version of AWS Copilot".toList ++ ['?'] := rfl
    have hs : ", skip upgrade.".toList = ", skip upgrade".toList ++ ['.'] := rfl
    have h1 : (pre ++ "Are you using the latest version of AWS Copilot?".toList).getLast?
        = some '?' := by
      rw [hq, ← List.append_assoc]
      exact List.getLast?_concat _
    have h2 : (msgAlreadyLatest env p.LatestEnvTemplateVersion).getLast? = some '.' := by
      unfold msgAlreadyLatest
      rw [hs, ← List.append_assoc]
      exact List.getLast?_concat _
    rw [hpre, h2] at h1
    exact absurd h1 (by decide)

/-- C1, on the versions of the specification: with latest `v1.9.0`, version
`v1.8.0` gives an upgrade, `v1.9.0` is skipped as up to date and `v1.10.0` is
skipped with the advisory message, which names `v1.10.0` and asks about the
latest tool. -/
theorem shouldUpgradeEnv_decides_witness :
    shouldUpgradeEnv (Mock.pkg "v1.9.0".toList [] []) "test".toList "v1.8.0".toList []
        = (Outcome.ok true, [])
    ∧ shouldUpgradeEnv (Mock.pkg "v1.9.0".toList [] []) "test".toList "v1.9.0".toList []
        = (Outcome.ok false,
            [Event.Debugln (msgAlreadyLatest "test".toList "v1.9.0".toList)])
    ∧ shouldUpgradeEnv (Mock.pkg "v1.9.0".toList [] []) "test".toList "v1.10.0".toList []
        = (Outcome.ok false,
            [Event.Debugln (msgVersionSkew "test".toList "v1.9.0".toList "v1.10.0".toList)])
    ∧ msgVersionSkew "test".toList "v1.9.0".toList "v1.10.0".toList
        = "Skip upgrading environment test to version v1.9.0 since it".toList
          ++ [Char.ofNat 39]
          ++ "s on version v1.10.0. \nAre you using the latest version of AWS Copilot?".toList
    ∧ msgAlreadyLatest "test".toList "v1.9.0".toList
        = "Environment test is already on the latest version v1.9.0, skip upgrade.".toList :=
  ⟨(shouldUpgradeEnv_decides (Mock.pkg "v1.9.0".toList [] []) "test".toList
      "v1.8.0".toList []).2.2.1 (by decide),
   (shouldUpgradeEnv_decides (Mock.pkg "v1.9.0".toList [] []) "test".toList
      "v1.9.0".toList []).2.2.2.1 (by decide),
   (shouldUpgradeEnv_decides (Mock.pkg "v1.9.0".toList [] []) "test".toList
      "v1.10.0".toList []).2.2.2.2.1 (by decide),
   (shouldUpgradeEnv_decides (Mock.pkg "v1.9.0".toList [] []) "test".toList
      "v1.10.0".toList []).2.2.2.2.2.2.2.1,
   (shouldUpgradeEnv_decides (Mock.pkg "v1.9.0".toList [] []) "test".toList
      "v1.10.0".toList []).2.2.2.2.2.2.2.2.2.2.1⟩

/-! ### The permission patcher -/

theorem envUpgradeOpts.isManagerRoleAllowedToUpload_of_version (p : Pkg)
    (body ver : GoString) (h : p.UnmarshalVersion body = Except.ok ver) :
    isManagerRoleAllowedToUpload p body
      = Except.ok (semver.IsValid ver && decide (0 ≤ semver.Compare ver "v1.9.0".toList)) := by
  unfold isManagerRoleAllowedToUpload
  rw [h]
  simp only []
  generalize semver.Compare ver "v1.9.0".toList = c
  by_cases hv : semver.IsValid ver = true
  · by_cases hc : c < 0
    · have : ¬ (0 ≤ c) := by omega
      simp [hv, hc, this]
    · have : 0 ≤ c := by omega
      simp [hv, hc, this]
  · simp [hv]

/-- C2. For a template body that parses, with `Metadata.Version` decoded to
`ver` (empty when absent), `isManagerRoleAllowedToUpload` returns `(true, nil)`
exactly when `ver` is a valid semantic version at or above `v1.9.0`, and
`(false, nil)` exactly when `ver` is not a valid version or is below `v1.9.0`;
an absent version gives `(false, nil)`. -/
theorem isManagerRoleAllowedToUpload_iff (p : Pkg) (body ver : GoString)
    (h : p.UnmarshalVersion body = Except.ok ver) :
    (envUpgradeOpts.isManagerRoleAllowedToUpload p body = Except.ok true
        ↔ (semver.IsValid ver = true ∧ 0 ≤ semver.Compare ver "v1.9.0".toList))
    ∧ (envUpgradeOpts.isManagerRoleAllowedToUpload p body = Except.ok false
        ↔ (semver.IsValid ver = false ∨ semver.Compare ver "v1.9.0".toList < 0))
    ∧ (ver = [] → envUpgradeOpts.isManagerRoleAllowedToUpload p body = Except.ok false) := by
  rw [envUpgradeOpts.isManagerRoleAllowedToUpload_of_version p body ver h]
  refine ⟨?_, ?_, ?_⟩
  · simp
  · by_cases hv : semver.IsValid ver = true
    · simp [hv]
    · simp [hv]
  · intro he
    subst he
    simp [semver.IsValid, semver.parse]

/-- C2, on the versions of the specification: an absent version and `v1.8.5`
are insufficient, `v1.9.0` and `v1.9.1` are sufficient. -/
theorem isManagerRoleAllowedToUpload_iff_witness :
    envUpgradeOpts.isManagerRoleAllowedToUpload (Mock.pkg [] [] []) Mock.body = Except.ok false
    ∧ envUpgradeOpts.isManagerRoleAllowedToUpload (Mock.pkg [] "v1.8.5".toList []) Mock.body
        = Except.ok false
    ∧ envUpgradeOpts.isManagerRoleAllowedToUpload (Mock.pkg [] "v1.9.0".toList []) Mock.body
        = Except.ok true
    ∧ envUpgradeOpts.isManagerRoleAllowedToUpload (Mock.pkg [] "v1.9.1".toList []) Mock.body
        = Except.ok true :=
  ⟨(isManagerRoleAllowedToUpload_iff (Mock.pkg [] [] []) Mock.body [] rfl).2.2 rfl,
   (isManagerRoleAllowedToUpload_iff (Mock.pkg [] "v1.8.5".toList []) Mock.body
      "v1.8.5".toList rfl).2.1.2 (Or.inr (by decide)),
   (isManagerRoleAllowedToUpload_iff (Mock.pkg [] "v1.9.0".toList []) Mock.body
      "v1.9.0".toList rfl).1.2 ⟨by decide, by decide⟩,
   (isManagerRoleAllowedToUpload_iff (Mock.pkg [] "v1.9.1".toList []) Mock.body
      "v1.9.1".toList rfl).1.2 ⟨by decide, by decide⟩⟩

/-! ### Splitting and joining lines -/

theorem strings.Split_ne_nil (s : GoString) : strings.Split s ≠ [] := by
  cases s with
  | nil => simp [strings.Split]
  | cons c cs =>
    unfold strings.Split
    split_ifs
    · simp
    · split <;> simp

theorem strings.Split_line (l : GoString) (hl : '\n' ∉ l) : strings.Split l = [l] := by
  induction l with
  | nil => rfl
  | cons c cs ih =>
    have hc : c ≠ '\n' := fun h => hl (by simp [h])
    have hcs : '\n' ∉ cs := fun h => hl (by simp [h])
    simp [strings.Split, hc, ih hcs]

theorem strings.Split_line_append (l s : GoString) (hl : '\n' ∉ l) :
    strings.Split (l ++ '\n' :: s) = l :: strings.Split s := by
  induction l with
  | nil => simp [strings.Split]
  | cons c cs ih =>
    have hc : c ≠ '\n' := fun h => hl (by simp [h])
    have hcs : '\n' ∉ cs := fun h => hl (by simp [h])
    simp [strings.Split, hc, ih hcs]

theorem strings.Split_Join (ls : List GoString) (hne : ls ≠ [])
    (hls : ∀ l ∈ ls, '\n' ∉ l) : strings.Split (strings.Join ls) = ls := by
  induction ls with
  | nil => exact absurd rfl hne
  | cons l rest ih =>
    cases rest with
    | nil => simpa [strings.Join] using strings.Split_line l (hls l (by simp))
    | cons l2 rest2 =>
      have h1 : '\n' ∉ l := hls l (by simp)
      have h2 : ∀ x ∈ l2 :: rest2, '\n' ∉ x := fun x hx => hls x (by simp [hx])
      simp only [strings.Join]
      rw [strings.Split_line_append l _ h1, ih (by simp) h2]

theorem strings.Split_mem_no_newline (s : GoString) :
    ∀ l ∈ strings.Split s, '\n' ∉ l := by
  induction s with
  | nil => simp [strings.Split]
  | cons c cs ih =>
    unfold strings.Split
    split_ifs with hc
    · intro l hl
      rcases List.mem_cons.mp hl with h | h
      · simp [h]
      · exact ih l h
    · split
      · intro l hl
        simp at hl
        subst hl
        simpa using Ne.symm hc
      · rename_i l0 ls heq
        intro l hl
        rcases List.mem_cons.mp hl with h | h
        · subst h
          have := ih l0 (by simp [heq])
          simp [Ne.symm hc, this]
        · exact ih l (by simp [heq, h])

theorem strings.Join_Split (s : GoString) : strings.Join (strings.Split s) = s := by
  induction s with
  | nil => rfl
  | cons c cs ih =>
    unfold strings.Split
    split_ifs with hc
    · subst hc
      rcases hs : strings.Split cs with _ | ⟨l, ls⟩
      · exact absurd hs (strings.Split_ne_nil cs)
      · rw [hs] at ih
        simp [strings.Join, ih]
    · rcases hs : strings.Split cs with _ | ⟨l, ls⟩
      · exact absurd hs (strings.Split_ne_nil cs)
      · rw [hs] at ih
        cases ls with
        | nil => simpa [strings.Join] using ih
        | cons l2 ls2 =>
          simp only [strings.Join] at ih ⊢
          simp [ih]

theorem strings.Replace_line (l new : GoString) (hl : '\n' ∉ l) : strings.Replace l new = l := by
  induction l with
  | nil => rfl
  | cons c cs ih =>
    have hc : c ≠ '\n' := fun h => hl (by simp [h])
    have hcs : '\n' ∉ cs := fun h => hl (by simp [h])
    have := ih hcs
    simp only [strings.Replace] at this ⊢
    simp [List.flatMap_cons, hc, this]

theorem strings.Replace_append (a b new : GoString) :
    strings.Replace (a ++ b) new = strings.Replace a new ++ strings.Replace b new := by
  simp [strings.Replace, List.flatMap_append]

theorem strings.Replace_newline_cons (s new : GoString) :
    strings.Replace ('\n' :: s) new = new ++ strings.Replace s new := by
  simp [strings.Replace, List.flatMap_cons]

theorem strings.Replace_Join (pad : GoString) (ls : List GoString) (hne : ls ≠ [])
    (hls : ∀ l ∈ ls, '\n' ∉ l) :
    pad ++ strings.Replace (strings.Join ls) ('\n' :: pad)
      = strings.Join (ls.map (fun l => pad ++ l)) := by
  induction ls with
  | nil => exact absurd rfl hne
  | cons l rest ih =>
    cases rest with
    | nil => simp [strings.Join, strings.Replace_line l _ (hls l (by simp))]
    | cons l2 rest2 =>
      have h1 : '\n' ∉ l := hls l (by simp)
      have h2 : ∀ x ∈ l2 :: rest2, '\n' ∉ x := fun x hx => hls x (by simp [hx])
      have ih2 := ih (by simp) h2
      simp only [strings.Join, List.map_cons] at ih2 ⊢
      rw [strings.Replace_append, strings.Replace_line l _ h1, strings.Replace_newline_cons,
        ← ih2]
      simp

theorem envUpgradeOpts.permissionsText_eq_Join (bucketARN : GoString) :
    envUpgradeOpts.permissionsText bucketARN
      = strings.Join (envUpgradeOpts.permissionLines bucketARN) := by
  simp [envUpgradeOpts.permissionsText, envUpgradeOpts.permissionLines, strings.Join]

theorem envUpgradeOpts.permissionLines_no_newline (bucketARN : GoString)
    (hA : '\n' ∉ bucketARN) :
    ∀ l ∈ envUpgradeOpts.permissionLines bucketARN, '\n' ∉ l := by
  intro l hl
  simp only [envUpgradeOpts.permissionLines, List.mem_cons, List.mem_singleton,
    List.not_mem_nil, or_false] at hl
  rcases hl with h | h | h | h | h | h | h | h <;> subst h <;> simp [hA]

theorem strings.Repeat_natCast_sub_one (C : Nat) (hC : 1 ≤ C) :
    strings.Repeat ((C : Int) - 1) = some (List.replicate (C - 1) ' ') := by
  have h1 : ¬ ((C : Int) - 1 < 0) := by omega
  have h2 : ((C : Int) - 1).toNat = C - 1 := by omega
  simp [strings.Repeat, h1, h2]

theorem envUpgradeOpts.updatedBody_eq (L C : Nat) (body bucketARN : GoString)
    (hL1 : 1 ≤ L) (hL2 : L ≤ (strings.Split body).length) (hC : 1 ≤ C)
    (hA : '\n' ∉ bucketARN) :
    envUpgradeOpts.updatedBody { Line := L, Column := C } body bucketARN
      = Except.ok (strings.Join
          ((strings.Split body).take (L - 1)
            ++ ((envUpgradeOpts.permissionLines bucketARN).map
                  (fun l => List.replicate (C - 1) ' ' ++ l)
                ++ (strings.Split body).drop (L - 1)))) := by
  have hpad : ∀ l ∈ (envUpgradeOpts.permissionLines bucketARN).map
      (fun l => List.replicate (C - 1) ' ' ++ l), '\n' ∉ l := by
    intro l hl
    rcases List.mem_map.mp hl with ⟨l0, hl0, rfl⟩
    have := envUpgradeOpts.permissionLines_no_newline bucketARN hA l0 hl0
    simp [this]
  have h1 : ¬ ((L : Int) - 1 < 0 ∨ ((strings.Split body).length : Int) < (L : Int) - 1) := by
    omega
  have h2 : ((L : Int) - 1).toNat = L - 1 := by omega
  unfold envUpgradeOpts.updatedBody
  simp only [strings.Repeat_natCast_sub_one C hC, h1, h2, if_false]
  rw [envUpgradeOpts.permissionsText_eq_Join,
    strings.Replace_Join _ _ (by simp [envUpgradeOpts.permissionLines])
      (envUpgradeOpts.permissionLines_no_newline bucketARN hA),
    strings.Split_Join _ (by simp [envUpgradeOpts.permissionLines]) hpad]

/-- C3. When the statement list of the first policy of the manager role
begins at line `L` (between 1 and the number of lines of the body) and
column `C` (at least 1), and the bucket ARN has no newline,
`grantManagerRolePermissionToUpload` starts the progress sink and submits to
`UpdateEnvironmentTemplate` exactly the body made of the first `L - 1` lines
of the original, the eight lines of the statement
`PatchPutObjectsToArtifactBucket` each behind `C - 1` spaces, and the original
lines from line `L` on, joined with newlines. The lines of the submitted body
are those lines, so its first `L - 1` lines are the first `L - 1` lines of
the original. -/
theorem grantManagerRolePermissionToUpload_splices (p : Pkg) (o : envUpgradeOpts) (cfn : Handle)
    (app env execRole body bucketARN : GoString) (t : Trace) (L C : Nat)
    (rest : List yaml.Node)
    (hU : p.UnmarshalPolicies body = Except.ok ({ Line := L, Column := C } :: rest))
    (hL1 : 1 ≤ L) (hL2 : L ≤ (strings.Split body).length) (hC : 1 ≤ C)
    (hA : '\n' ∉ bucketARN) :
    ∃ updated : GoString,
      updated = strings.Join
          ((strings.Split body).take (L - 1)
            ++ ((envUpgradeOpts.permissionLines bucketARN).map
                  (fun l => List.replicate (C - 1) ' ' ++ l)
                ++ (strings.Split body).drop (L - 1)))
      ∧ (∃ label : GoString,
          (envUpgradeOpts.grantManagerRolePermissionToUpload p o cfn app env execRole body
              bucketARN t).2
            = t ++ [Event.Start envUpgradeOpts.msgUpdateManagerRole,
                Event.UpdateEnvironmentTemplate cfn app env updated execRole
                  (o.UpdateEnvironmentTemplate
                    (t ++ [Event.Start envUpgradeOpts.msgUpdateManagerRole])
                    cfn app env updated execRole),
                Event.Stop label])
      ∧ strings.Split updated
          = (strings.Split body).take (L - 1)
            ++ ((envUpgradeOpts.permissionLines bucketARN).map
                  (fun l => List.replicate (C - 1) ' ' ++ l)
                ++ (strings.Split body).drop (L - 1))
      ∧ (strings.Split updated).take (L - 1) = (strings.Split body).take (L - 1)
      ∧ (envUpgradeOpts.permissionLines bucketARN).length = 8
      ∧ envUpgradeOpts.permissionLines bucketARN
          = [ "- Sid: PatchPutObjectsToArtifactBucket".toList,
              "  Effect: Allow".toList,
              "  Action:".toList,
              "    - s3:PutObject".toList,
              "    - s3:PutObjectAcl".toList,
              "  Resource:".toList,
              "    - ".toList ++ bucketARN,
              "    - ".toList ++ bucketARN ++ "/*".toList ] := by
  refine ⟨_, rfl, ?_, ?_, ?_, rfl, rfl⟩
  · unfold envUpgradeOpts.grantManagerRolePermissionToUpload
    rw [hU]
    simp only [envUpgradeOpts.updatedBody_eq L C body bucketARN hL1 hL2 hC hA]
    rcases hres : o.UpdateEnvironmentTemplate
        (t ++ [Event.Start envUpgradeOpts.msgUpdateManagerRole]) cfn app env
        (strings.Join
          ((strings.Split body).take (L - 1)
            ++ ((envUpgradeOpts.permissionLines bucketARN).map
                  (fun l => List.replicate (C - 1) ' ' ++ l)
                ++ (strings.Split body).drop (L - 1)))) execRole with _ | err
    · exact ⟨p.Ssuccessln envUpgradeOpts.msgUpdated,
        by simp [bind, Act.andThen, Act.emit, Act.call, hres, pure, Act.ret]⟩
    · by_cases hE : err.AsErrChangeSetEmpty = true
      · exact ⟨p.Ssuccessln envUpgradeOpts.msgUpdated,
          by simp [bind, Act.andThen, Act.emit, Act.call, hres, pure, Act.ret, hE]⟩
      · exact ⟨p.Serrorln envUpgradeOpts.msgUnableToUpdate,
          by simp [bind, Act.andThen, Act.emit, Act.call, hres, pure, Act.ret, hE, Act.fail]⟩
  · have hlines : ∀ l ∈ (strings.Split body).take (L - 1)
        ++ ((envUpgradeOpts.permissionLines bucketARN).map
              (fun l => List.replicate (C - 1) ' ' ++ l)
            ++ (strings.Split body).drop (L - 1)), '\n' ∉ l := by
      intro l hl
      rcases List.mem_append.mp hl with h | h
      · exact strings.Split_mem_no_newline body l (List.mem_of_mem_take h)
      · rcases List.mem_append.mp h with h | h
        · rcases List.mem_map.mp h with ⟨l0, hl0, rfl⟩
          have := envUpgradeOpts.permissionLines_no_newline bucketARN hA l0 hl0
          simp [this]
        · exact strings.Split_mem_no_newline body l (List.mem_of_mem_drop h)
    exact strings.Split_Join _ (by simp [envUpgradeOpts.permissionLines]) hlines
  · have hlines : ∀ l ∈ (strings.Split body).take (L - 1)
        ++ ((envUpgradeOpts.permissionLines bucketARN).map
              (fun l => List.replicate (C - 1) ' ' ++ l)
            ++ (strings.Split body).drop (L - 1)), '\n' ∉ l := by
      intro l hl
      rcases List.mem_append.mp hl with h | h
      · exact strings.Split_mem_no_newline body l (List.mem_of_mem_take h)
      · rcases List.mem_append.mp h with h | h
        · rcases List.mem_map.mp h with ⟨l0, hl0, rfl⟩
          have := envUpgradeOpts.permissionLines_no_newline bucketARN hA l0 hl0
          simp [this]
        · exact strings.Split_mem_no_newline body l (List.mem_of_mem_drop h)
    rw [strings.Split_Join _ (by simp [envUpgradeOpts.permissionLines]) hlines]
    have hlen : ((strings.Split body).take (L - 1)).length = L - 1 := by
      rw [List.length_take]
      omega
    rw [List.take_append_of_le_length (by omega), List.take_of_length_le (by omega)]

/-- C3, on a template of seven lines whose statement list starts at line 7,
column 13: the submitted body has the six first lines unchanged, the eight
added lines behind twelve spaces, and the former line 7 last. -/
theorem grantManagerRolePermissionToUpload_splices_witness :
    ∃ updated label : GoString,
      (envUpgradeOpts.grantManagerRolePermissionToUpload
          (Mock.pkg [] [] [{ Line := 7, Column := 13 }]) (Mock.opts Mock.body [] [] none) 1
          "phonetool".toList "test".toList "execRole".toList Mock.body
          "arn:aws:s3:::bucket".toList []).2
        = [Event.Start envUpgradeOpts.msgUpdateManagerRole,
            Event.UpdateEnvironmentTemplate 1 "phonetool".toList "test".toList updated
              "execRole".toList none,
            Event.Stop label]
      ∧ strings.Split updated
        = [ "Resources:".toList,
            "  EnvironmentManagerRole:".toList,
            "    Properties:".toList,
            "      Policies:".toList,
            "        - PolicyDocument:".toList,
            "            Statement:".toList,
            "            - Sid: PatchPutObjectsToArtifactBucket".toList,
            "              Effect: Allow".toList,
            "              Action:".toList,
            "                - s3:PutObject".toList,
            "                - s3:PutObjectAcl".toList,
            "              Resource:".toList,
            "                - arn:aws:s3:::bucket".toList,
            "                - arn:aws:s3:::bucket/*".toList,
            "            - Sid: CloudwatchLogs".toList ] := by
  obtain ⟨updated, _, ⟨label, h2⟩, h3, _⟩ :=
    grantManagerRolePermissionToUpload_splices
      (Mock.pkg [] [] [{ Line := 7, Column := 13 }]) (Mock.opts Mock.body [] [] none) 1
      "phonetool".toList "test".toList "execRole".toList Mock.body
      "arn:aws:s3:::bucket".toList [] 7 13 [] rfl (by decide) (by decide) (by decide)
      (by decide)
  refine ⟨updated, label, ?_, ?_⟩
  · rw [h2]
    rfl
  · rw [h3]
    decide

/-! ### The shape of a run of the permission patcher -/

/-- A run of `grantManagerRolePermissionToUpload` either ends before any call
(with an error or a panic), or makes the three calls `Start`, `Update`, `Stop`:
with the success label and no error when the update succeeds or reports an
empty change set, with the failure label and an error otherwise. -/
theorem envUpgradeOpts.grant_shape (p : Pkg) (o : envUpgradeOpts) (cfn : Handle)
    (app env execRole body bucketARN : GoString) (t : Trace) :
    (∃ e, grantManagerRolePermissionToUpload p o cfn app env execRole body bucketARN t
        = (Outcome.err e, t))
    ∨ (∃ m, grantManagerRolePermissionToUpload p o cfn app env execRole body bucketARN t
        = (Outcome.panic m, t))
    ∨ (∃ updated res,
        res = o.UpdateEnvironmentTemplate (t ++ [Event.Start msgUpdateManagerRole]) cfn app env
          updated execRole
        ∧ (((res = none ∨ ∃ e, res = some e ∧ e.AsErrChangeSetEmpty = true)
            ∧ grantManagerRolePermissionToUpload p o cfn app env execRole body bucketARN t
              = (Outcome.ok (),
                  t ++ [Event.Start msgUpdateManagerRole,
                    Event.UpdateEnvironmentTemplate cfn app env updated execRole res,
                    Event.Stop (p.Ssuccessln msgUpdated)]))
          ∨ (∃ e, res = some e ∧ e.AsErrChangeSetEmpty = false
            ∧ grantManagerRolePermissionToUpload p o cfn app env execRole body bucketARN t
              = (Outcome.err (fmt.Errorf_v
                    "update environment template with PutObject permissions: ".toList e),
                  t ++ [Event.Start msgUpdateManagerRole,
                    Event.UpdateEnvironmentTemplate cfn app env updated execRole res,
                    Event.Stop (p.Serrorln msgUnableToUpdate)])))) := by
  unfold grantManagerRolePermissionToUpload
  rcases hU : p.UnmarshalPolicies body with err | policies
  · exact Or.inl ⟨_, rfl⟩
  · rcases policies with _ | ⟨node, rest⟩
    · exact Or.inl ⟨_, rfl⟩
    · simp only []
      rcases hB : updatedBody node body bucketARN with msg | updated
      · exact Or.inr (Or.inl ⟨_, rfl⟩)
      · refine Or.inr (Or.inr ⟨updated, _, rfl, ?_⟩)
        rcases hres : o.UpdateEnvironmentTemplate (t ++ [Event.Start msgUpdateManagerRole]) cfn
            app env updated execRole with _ | e
        · left
          refine ⟨Or.inl rfl, ?_⟩
          simp [bind, Act.andThen, Act.emit, Act.call, hres, pure, Act.ret]
        · by_cases hE : e.AsErrChangeSetEmpty = true
          · left
            refine ⟨Or.inr ⟨e, rfl, hE⟩, ?_⟩
            simp [bind, Act.andThen, Act.emit, Act.call, hres, pure, Act.ret, hE]
          · right
            have hE2 : e.AsErrChangeSetEmpty = false := by simpa using hE
            refine ⟨e, rfl, hE2, ?_⟩
            simp [bind, Act.andThen, Act.emit, Act.call, hres, pure, Act.ret, hE2, Act.fail]

/-- A run of `ensureManagerRoleIsAllowedToUpload` either makes no update call
at all, or creates the deployer, fetches the template and continues in
`grantManagerRolePermissionToUpload`. -/
theorem envUpgradeOpts.ensure_shape (p : Pkg) (o : envUpgradeOpts) (env : config.Environment)
    (bucketName : GoString) (t : Trace) :
    (∃ d, (ensureManagerRoleIsAllowedToUpload p o env bucketName t).2 = t ++ d
        ∧ (∀ ev ∈ d, ev.isUpdateEnvironmentTemplate = false)
        ∧ d.length ≤ 2)
    ∨ (∃ cfn body,
        ensureManagerRoleIsAllowedToUpload p o env bucketName t
          = grantManagerRolePermissionToUpload p o cfn env.App env.Name env.ExecutionRoleARN
              body (p.FormatARN p.AwsPartitionID bucketName)
              (t ++ [Event.newEnvDeployer env (Except.ok cfn),
                Event.EnvironmentTemplate cfn env.App env.Name (Except.ok body)])) := by
  unfold ensureManagerRoleIsAllowedToUpload
  rcases h1 : o.newEnvDeployer t env with err | cfn
  · left
    exact ⟨[Event.newEnvDeployer env (Except.error err)],
      by simp [bind, Act.andThen, Act.call, h1, Act.fail],
      by simp [Event.isUpdateEnvironmentTemplate], by simp⟩
  · rcases h2 : o.EnvironmentTemplate (t ++ [Event.newEnvDeployer env (Except.ok cfn)]) cfn
        env.App env.Name with err | body
    · left
      exact ⟨[Event.newEnvDeployer env (Except.ok cfn),
          Event.EnvironmentTemplate cfn env.App env.Name (Except.error err)],
        by simp [bind, Act.andThen, Act.call, h1, h2, Act.fail],
        by simp [Event.isUpdateEnvironmentTemplate], by simp⟩
    · rcases h3 : isManagerRoleAllowedToUpload p body with err | ok
      · left
        exact ⟨[Event.newEnvDeployer env (Except.ok cfn),
            Event.EnvironmentTemplate cfn env.App env.Name (Except.ok body)],
          by simp [bind, Act.andThen, Act.call, h1, h2, h3, Act.fail],
          by simp [Event.isUpdateEnvironmentTemplate], by simp⟩
      · cases ok
        · right
          exact ⟨cfn, body, by simp [bind, Act.andThen, Act.call, h1, h2, h3]⟩
        · left
          exact ⟨[Event.newEnvDeployer env (Except.ok cfn),
              Event.EnvironmentTemplate cfn env.App env.Name (Except.ok body)],
            by simp [bind, Act.andThen, Act.call, h1, h2, h3, pure, Act.ret],
            by simp [Event.isUpdateEnvironmentTemplate], by simp⟩

theorem Event.no_update_split {l pre post : List Event} {ev : Event}
    (h : l = pre ++ ev :: post) (hl : ∀ x ∈ l, x.isUpdateEnvironmentTemplate = false)
    (hev : ev.isUpdateEnvironmentTemplate = true) : False := by
  have := hl ev (by simp [h])
  simp [hev] at this

theorem Event.unique_update_split (l1 l2 : List Event) {pre post : List Event} {u ev : Event}
    (h : l1 ++ u :: l2 = pre ++ ev :: post)
    (h1 : ∀ x ∈ l1, x.isUpdateEnvironmentTemplate = false)
    (h2 : ∀ x ∈ l2, x.isUpdateEnvironmentTemplate = false)
    (hev : ev.isUpdateEnvironmentTemplate = true) : pre = l1 ∧ ev = u ∧ post = l2 := by
  induction l1 generalizing pre with
  | nil =>
    cases pre with
    | nil =>
      simp only [List.nil_append, List.cons.injEq] at h
      exact ⟨rfl, h.1.symm, h.2.symm⟩
    | cons x pre2 =>
      simp only [List.nil_append, List.cons_append, List.cons.injEq] at h
      exact absurd hev (by simp [h2 ev (by simp [h.2])])
  | cons a l1 ih =>
    cases pre with
    | nil =>
      simp only [List.nil_append, List.cons_append, List.cons.injEq] at h
      exact absurd hev (by simp [← h.1, h1 a (by simp)])
    | cons x pre2 =>
      simp only [List.cons_append, List.cons.injEq] at h
      obtain ⟨hp, he, hq⟩ := ih h.2 (fun y hy => h1 y (by simp [hy]))
      exact ⟨by simp [h.1, hp], he, hq⟩

/-- C4. Whenever a run of `grantManagerRolePermissionToUpload`, or of
`ensureManagerRoleIsAllowedToUpload`, contains a call of
`UpdateEnvironmentTemplate` that returned an error which is or wraps an
`ErrChangeSetEmpty`, the run returns nil and the one call after the update is
the stop of the progress sink with the success message. -/
theorem emptyChangeSet_is_success (p : Pkg) (o : envUpgradeOpts) (e : GoError)
    (hE : e.AsErrChangeSetEmpty = true) (t pre post : List Event) (c : Handle)
    (a n b r : GoString) :
    (∀ cfn app env execRole body bucketARN,
        (envUpgradeOpts.grantManagerRolePermissionToUpload p o cfn app env execRole body
            bucketARN t).2
          = t ++ (pre ++ Event.UpdateEnvironmentTemplate c a n b r (some e) :: post) →
        (envUpgradeOpts.grantManagerRolePermissionToUpload p o cfn app env execRole body
            bucketARN t).1 = Outcome.ok ()
          ∧ post = [Event.Stop (p.Ssuccessln envUpgradeOpts.msgUpdated)])
    ∧ (∀ env bucketName,
        (envUpgradeOpts.ensureManagerRoleIsAllowedToUpload p o env bucketName t).2
          = t ++ (pre ++ Event.UpdateEnvironmentTemplate c a n b r (some e) :: post) →
        (envUpgradeOpts.ensureManagerRoleIsAllowedToUpload p o env bucketName t).1
            = Outcome.ok ()
          ∧ post = [Event.Stop (p.Ssuccessln envUpgradeOpts.msgUpdated)]) := by
  have hgrant : ∀ (t0 pre0 : List Event) cfn app env execRole body bucketARN,
      (envUpgradeOpts.grantManagerRolePermissionToUpload p o cfn app env execRole body
          bucketARN t0).2
        = t0 ++ (pre0 ++ Event.UpdateEnvironmentTemplate c a n b r (some e) :: post) →
      (envUpgradeOpts.grantManagerRolePermissionToUpload p o cfn app env execRole body
          bucketARN t0).1 = Outcome.ok ()
        ∧ post = [Event.Stop (p.Ssuccessln envUpgradeOpts.msgUpdated)] := by
    intro t0 pre0 cfn app env execRole body bucketARN h
    rcases envUpgradeOpts.grant_shape p o cfn app env execRole body bucketARN t0 with
      ⟨e1, h1⟩ | ⟨m, h1⟩ | ⟨updated, res, _, ⟨_, h1⟩ | ⟨e1, hres, hne, h1⟩⟩
    · rw [h1] at h
      simp at h
    · rw [h1] at h
      simp at h
    · rw [h1] at h ⊢
      have h2 := List.append_cancel_left h
      obtain ⟨_, _, hpost⟩ := Event.unique_update_split
        ([Event.Start envUpgradeOpts.msgUpdateManagerRole])
        ([Event.Stop (p.Ssuccessln envUpgradeOpts.msgUpdated)]) h2
        (by simp [Event.isUpdateEnvironmentTemplate])
        (by simp [Event.isUpdateEnvironmentTemplate]) rfl
      exact ⟨rfl, hpost⟩
    · rw [h1] at h
      have h2 := List.append_cancel_left h
      obtain ⟨_, hev, _⟩ := Event.unique_update_split
        ([Event.Start envUpgradeOpts.msgUpdateManagerRole])
        ([Event.Stop (p.Serrorln envUpgradeOpts.msgUnableToUpdate)]) h2
        (by simp [Event.isUpdateEnvironmentTemplate])
        (by simp [Event.isUpdateEnvironmentTemplate]) rfl
      rw [hres] at hev
      simp only [Event.UpdateEnvironmentTemplate.injEq, Option.some.injEq] at hev
      rw [hev.2.2.2.2.2, hne] at hE
      exact absurd hE (by simp)
  refine ⟨fun cfn app env execRole body bucketARN h =>
    hgrant t pre cfn app env execRole body bucketARN h, ?_⟩
  intro env bucketName h
  rcases envUpgradeOpts.ensure_shape p o env bucketName t with ⟨d, hd, hno, _⟩ | ⟨cfn, body, hg⟩
  · rw [hd] at h
    exact (Event.no_update_split (List.append_cancel_left h) hno rfl).elim
  · rw [hg] at h ⊢
    rcases envUpgradeOpts.grant_shape p o cfn env.App env.Name env.ExecutionRoleARN body
        (p.FormatARN p.AwsPartitionID bucketName)
        (t ++ [Event.newEnvDeployer env (Except.ok cfn),
          Event.EnvironmentTemplate cfn env.App env.Name (Except.ok body)]) with
      ⟨e1, h1⟩ | ⟨m, h1⟩ | ⟨updated, res, _, ⟨_, h1⟩ | ⟨e1, hres, hne, h1⟩⟩
    · rw [h1] at h
      have h2 := List.append_cancel_left h
      exact (Event.no_update_split h2 (by simp [Event.isUpdateEnvironmentTemplate]) rfl).elim
    · rw [h1] at h
      have h2 := List.append_cancel_left h
      exact (Event.no_update_split h2 (by simp [Event.isUpdateEnvironmentTemplate]) rfl).elim
    · rw [h1] at h ⊢
      rw [List.append_assoc] at h
      have h2 := List.append_cancel_left h
      obtain ⟨_, _, hpost⟩ := Event.unique_update_split
        ([Event.newEnvDeployer env (Except.ok cfn),
          Event.EnvironmentTemplate cfn env.App env.Name (Except.ok body),
          Event.Start envUpgradeOpts.msgUpdateManagerRole])
        ([Event.Stop (p.Ssuccessln envUpgradeOpts.msgUpdated)]) h2
        (by simp [Event.isUpdateEnvironmentTemplate])
        (by simp [Event.isUpdateEnvironmentTemplate]) rfl
      exact ⟨rfl, hpost⟩
    · rw [h1] at h
      rw [List.append_assoc] at h
      have h2 := List.append_cancel_left h
      obtain ⟨_, hev, _⟩ := Event.unique_update_split
        ([Event.newEnvDeployer env (Except.ok cfn),
          Event.EnvironmentTemplate cfn env.App env.Name (Except.ok body),
          Event.Start envUpgradeOpts.msgUpdateManagerRole])
        ([Event.Stop (p.Serrorln envUpgradeOpts.msgUnableToUpdate)]) h2
        (by simp [Event.isUpdateEnvironmentTemplate])
        (by simp [Event.isUpdateEnvironmentTemplate]) rfl
      rw [hres] at hev
      simp only [Event.UpdateEnvironmentTemplate.injEq, Option.some.injEq] at hev
      rw [hev.2.2.2.2.2, hne] at hE
      exact absurd hE (by simp)

/-- C4, on an environment whose template has no version and whose update
call returns a wrapped empty-change-set error: the run returns nil and ends
with the success stop. -/
theorem emptyChangeSet_is_success_witness :
    (envUpgradeOpts.ensureManagerRoleIsAllowedToUpload
        (Mock.pkg [] [] [{ Line := 7, Column := 13 }])
        (Mock.opts Mock.body [] [] (some Mock.wrappedEmptyChangeSet))
        Mock.env "bucket".toList []).1 = Outcome.ok ()
    ∧ (envUpgradeOpts.ensureManagerRoleIsAllowedToUpload
        (Mock.pkg [] [] [{ Line := 7, Column := 13 }])
        (Mock.opts Mock.body [] [] (some Mock.wrappedEmptyChangeSet))
        Mock.env "bucket".toList []).2
      = [Event.newEnvDeployer Mock.env (Except.ok 1),
          Event.EnvironmentTemplate 1 "phonetool".toList "test".toList (Except.ok Mock.body),
          Event.Start envUpgradeOpts.msgUpdateManagerRole,
          Event.UpdateEnvironmentTemplate 1 "phonetool".toList "test".toList Mock.patched
            "execRole".toList (some Mock.wrappedEmptyChangeSet),
          Event.Stop ("v ".toList ++ envUpgradeOpts.msgUpdated ++ "\n".toList)] :=
  ⟨((emptyChangeSet_is_success (Mock.pkg [] [] [{ Line := 7, Column := 13 }])
        (Mock.opts Mock.body [] [] (some Mock.wrappedEmptyChangeSet))
        Mock.wrappedEmptyChangeSet (by decide) []
        [Event.newEnvDeployer Mock.env (Except.ok 1),
          Event.EnvironmentTemplate 1 "phonetool".toList "test".toList (Except.ok Mock.body),
          Event.Start envUpgradeOpts.msgUpdateManagerRole]
        [Event.Stop ("v ".toList ++ envUpgradeOpts.msgUpdated ++ "\n".toList)]
        1 "phonetool".toList "test".toList Mock.patched "execRole".toList).2
      Mock.env "bucket".toList (by rfl)).1,
   by rfl⟩

/-- When the first policy of the manager role has no statement list, its node
is the zero node and `grantManagerRolePermissionToUpload` panics in
`strings.Repeat`, before any call of a collaborator. -/
theorem envUpgradeOpts.grant_zero_node_panics (p : Pkg) (o : envUpgradeOpts) (cfn : Handle)
    (app env execRole body bucketARN : GoString) (t : Trace) (rest : List yaml.Node)
    (hU : p.UnmarshalPolicies body = Except.ok ({ Line := 0, Column := 0 } :: rest)) :
    grantManagerRolePermissionToUpload p o cfn app env execRole body bucketARN t
      = (Outcome.panic "strings: negative Repeat count".toList, t) := by
  unfold grantManagerRolePermissionToUpload
  rw [hU]
  rfl

/-- When the manager role has no policies (or is missing), the policy list is
empty and `grantManagerRolePermissionToUpload` returns an error before any
call of a collaborator. -/
theorem envUpgradeOpts.grant_no_policies_errors (p : Pkg) (o : envUpgradeOpts) (cfn : Handle)
    (app env execRole body bucketARN : GoString) (t : Trace)
    (hU : p.UnmarshalPolicies body = Except.ok []) :
    grantManagerRolePermissionToUpload p o cfn app env execRole body bucketARN t
      = (Outcome.err (errors.New
          "unable to find policies for the EnvironmentManagerRole".toList), t) := by
  unfold grantManagerRolePermissionToUpload
  rw [hU]
  rfl

/-- C5 (defect of the code). On a template whose manager role has a policy
without a statement list, `grantManagerRolePermissionToUpload` does not return
an error: it panics on the negative repeat count, with no collaborator
called. With no policy at all it returns the error, as the claim says. -/
theorem grantManagerRolePermissionToUpload_panics_without_statement :
    envUpgradeOpts.grantManagerRolePermissionToUpload
        (Mock.pkg [] [] [{ Line := 0, Column := 0 }]) (Mock.opts [] [] [] none) 1
        "phonetool".toList "test".toList "execRole".toList Mock.bodyWithoutStatement
        "arn:aws:s3:::bucket".toList []
      = (Outcome.panic "strings: negative Repeat count".toList, [])
    ∧ envUpgradeOpts.grantManagerRolePermissionToUpload
        (Mock.pkg [] [] []) (Mock.opts [] [] [] none) 1
        "phonetool".toList "test".toList "execRole".toList "Resources:".toList
        "arn:aws:s3:::bucket".toList []
      = (Outcome.err (errors.New
          "unable to find policies for the EnvironmentManagerRole".toList), []) :=
  ⟨envUpgradeOpts.grant_zero_node_panics _ _ _ _ _ _ _ _ _ [] rfl,
   envUpgradeOpts.grant_no_policies_errors _ _ _ _ _ _ _ _ _ rfl⟩

/-- C6. When the deployer is created, the template is fetched and it declares
a valid version at or above `v1.9.0`, `ensureManagerRoleIsAllowedToUpload`
returns nil and its only calls are the creation of the deployer and the fetch
of the template: no update call, no start or stop of the progress sink. -/
theorem ensureManagerRoleIsAllowedToUpload_sufficient (p : Pkg) (o : envUpgradeOpts)
    (env : config.Environment) (bucketName : GoString) (t : Trace) (cfn : Handle)
    (body ver : GoString)
    (h1 : o.newEnvDeployer t env = Except.ok cfn)
    (h2 : o.EnvironmentTemplate (t ++ [Event.newEnvDeployer env (Except.ok cfn)]) cfn
      env.App env.Name = Except.ok body)
    (h3 : p.UnmarshalVersion body = Except.ok ver)
    (h4 : semver.IsValid ver = true)
    (h5 : 0 ≤ semver.Compare ver "v1.9.0".toList) :
    envUpgradeOpts.ensureManagerRoleIsAllowedToUpload p o env bucketName t
      = (Outcome.ok (),
          t ++ [Event.newEnvDeployer env (Except.ok cfn),
            Event.EnvironmentTemplate cfn env.App env.Name (Except.ok body)]) := by
  have h6 : envUpgradeOpts.isManagerRoleAllowedToUpload p body = Except.ok true := by
    rw [envUpgradeOpts.isManagerRoleAllowedToUpload_of_version p body ver h3, h4,
      decide_eq_true h5]
    rfl
  unfold envUpgradeOpts.ensureManagerRoleIsAllowedToUpload
  simp [bind, Act.andThen, Act.call, h1, h2, h6, pure, Act.ret]

/-- C6, on an environment whose template declares version `v1.9.1`. -/
theorem ensureManagerRoleIsAllowedToUpload_sufficient_witness :
    envUpgradeOpts.ensureManagerRoleIsAllowedToUpload
        (Mock.pkg [] "v1.9.1".toList [{ Line := 7, Column := 13 }])
        (Mock.opts Mock.body [] [] none) Mock.env "bucket".toList []
      = (Outcome.ok (),
          [Event.newEnvDeployer Mock.env (Except.ok 1),
            Event.EnvironmentTemplate 1 "phonetool".toList "test".toList
              (Except.ok Mock.body)]) :=
  ensureManagerRoleIsAllowedToUpload_sufficient
    (Mock.pkg [] "v1.9.1".toList [{ Line := 7, Column := 13 }])
    (Mock.opts Mock.body [] [] none) Mock.env "bucket".toList [] 1 Mock.body "v1.9.1".toList
    rfl rfl rfl (by decide) (by decide)

/-! ### Which calls a function can make -/

section EmitsLemmas

variable {α β : Type} {P : Event → Prop}

theorem Act.Emits.pure (a : α) : Act.Emits P (pure a : Act α) :=
  fun t => ⟨[], by simp, by simp⟩

theorem Act.Emits.fail (e : GoError) : Act.Emits P (Act.fail e : Act α) :=
  fun t => ⟨[], by simp, by simp⟩

theorem Act.Emits.panic (m : GoString) : Act.Emits P (Act.panic m : Act α) :=
  fun t => ⟨[], by simp, by simp⟩

theorem Act.Emits.call {ρ : Type} (respond : Trace → ρ) (record : ρ → Event)
    (h : ∀ r, P (record r)) : Act.Emits P (Act.call respond record) :=
  fun t => ⟨[record (respond t)], by simp, by simpa using h _⟩

theorem Act.Emits.emit (e : Event) (h : P e) : Act.Emits P (Act.emit e) :=
  fun t => ⟨[e], by simp, by simpa using h⟩

theorem Act.Emits.bind {x : Act α} {f : α → Act β} (hx : Act.Emits P x)
    (hf : ∀ a, Act.Emits P (f a)) : Act.Emits P (x >>= f) := by
  intro t
  obtain ⟨dx, hdx, hPx⟩ := hx t
  rw [Act.bind_apply]
  rcases hxt : x t with ⟨ox, tx⟩
  rw [hxt] at hdx
  simp only at hdx
  subst hdx
  cases ox with
  | ok a =>
    obtain ⟨df, hdf, hPf⟩ := hf a (t ++ dx)
    refine ⟨dx ++ df, by simp [hdf], ?_⟩
    intro ev hev
    rcases List.mem_append.mp hev with h | h
    · exact hPx ev h
    · exact hPf ev h
  | err e => exact ⟨dx, rfl, hPx⟩
  | panic m => exact ⟨dx, rfl, hPx⟩

theorem Act.Emits.mono {Q : Event → Prop} {x : Act α} (hx : Act.Emits P x)
    (h : ∀ ev, P ev → Q ev) : Act.Emits Q x := by
  intro t
  obtain ⟨d, hd, hP⟩ := hx t
  exact ⟨d, hd, fun ev hev => h ev (hP ev hev)⟩

end EmitsLemmas

theorem uploadCustomResources_emits {P : Event → Prop}
    (upload : GoString → List s3.NamedBinary → Act (Except GoError GoString))
    (hu : ∀ key objects, Act.Emits P (upload key objects))
    (rs : List CustomResource) (urls : List (GoString × GoString)) :
    Act.Emits P (uploadCustomResources upload rs urls) := by
  induction rs generalizing urls with
  | nil => exact Act.Emits.pure _
  | cons r rs ih =>
    unfold uploadCustomResources
    refine Act.Emits.bind (hu _ _) (fun res => ?_)
    cases res with
    | error err => exact Act.Emits.pure _
    | ok url => exact ih _

theorem envUpgradeOpts.UploadEnvironmentCustomResources_emits {P : Event → Prop}
    (o : envUpgradeOpts)
    (upload : GoString → List s3.NamedBinary → Act (Except GoError GoString))
    (hu : ∀ key objects, Act.Emits P (upload key objects))
    (hP : ∀ res, P (Event.UploadEnvironmentCustomResources res)) :
    Act.Emits P (UploadEnvironmentCustomResources o upload) := by
  unfold UploadEnvironmentCustomResources
  refine Act.Emits.bind (uploadCustomResources_emits upload hu _ _) (fun res => ?_)
  exact Act.Emits.bind (Act.Emits.emit _ (hP res)) (fun _ => Act.Emits.pure _)

theorem envUpgradeOpts.envVersion_emits {P : Event → Prop} (o : envUpgradeOpts)
    (name : GoString) (h1 : ∀ a e r, P (Event.newEnvVersionGetter a e r))
    (h2 : ∀ c r, P (Event.Version c r)) : Act.Emits P (envVersion o name) := by
  unfold envVersion
  refine Act.Emits.bind (Act.Emits.call _ _ (h1 _ _)) (fun res => ?_)
  cases res with
  | error err => exact Act.Emits.fail _
  | ok envTpl =>
    refine Act.Emits.bind (Act.Emits.call _ _ (h2 _)) (fun res => ?_)
    cases res with
    | error err => exact Act.Emits.fail _
    | ok version => exact Act.Emits.pure _

theorem shouldUpgradeEnv_emits {P : Event → Prop} (p : Pkg) (env version : GoString)
    (h : ∀ m, P (Event.Debugln m)) : Act.Emits P (shouldUpgradeEnv p env version) := by
  unfold shouldUpgradeEnv
  simp only []
  split_ifs
  · exact Act.Emits.pure _
  · exact Act.Emits.bind (Act.Emits.emit _ (h _)) (fun _ => Act.Emits.pure _)
  · exact Act.Emits.bind (Act.Emits.emit _ (h _)) (fun _ => Act.Emits.pure _)

theorem envUpgradeOpts.upgradeEnvironment_emits {P : Event → Prop} (o : envUpgradeOpts)
    (upgrader : Handle) (conf : config.Environment) (app : config.Application)
    (artifactBucketARN artifactBucketKeyARN : GoString)
    (urls : List (GoString × GoString)) (fromVersion toVersion : GoString)
    (h : ∀ c i r, P (Event.UpgradeEnvironment c i r)) :
    Act.Emits P (upgradeEnvironment o upgrader conf app artifactBucketARN
      artifactBucketKeyARN urls fromVersion toVersion) := by
  unfold upgradeEnvironment
  refine Act.Emits.bind (Act.Emits.call _ _ (h _ _)) (fun res => ?_)
  cases res with
  | none => exact Act.Emits.pure _
  | some err => exact Act.Emits.fail _

theorem envUpgradeOpts.isDefaultLegacyTemplate_emits {P : Event → Prop} (o : envUpgradeOpts)
    (cfn : Handle) (appName envName : GoString) (h1 : ∀ r, P (Event.Template r))
    (h2 : ∀ c a e r, P (Event.EnvironmentTemplate c a e r)) :
    Act.Emits P (isDefaultLegacyTemplate o cfn appName envName) := by
  unfold isDefaultLegacyTemplate
  refine Act.Emits.bind (Act.Emits.call _ _ h1) (fun res => ?_)
  cases res with
  | error err => exact Act.Emits.fail _
  | ok tpl =>
    refine Act.Emits.bind (Act.Emits.call _ _ (h2 _ _ _)) (fun res => ?_)
    cases res with
    | error err => exact Act.Emits.fail _
    | ok actual => exact Act.Emits.pure _

theorem envUpgradeOpts.listLBWebServices_emits {P : Event → Prop} (p : Pkg)
    (o : envUpgradeOpts) (h : ∀ a r, P (Event.ListServices a r)) :
    Act.Emits P (listLBWebServices p o) := by
  unfold listLBWebServices
  refine Act.Emits.bind (Act.Emits.call _ _ (h _)) (fun res => ?_)
  cases res with
  | error err => exact Act.Emits.fail _
  | ok services => exact Act.Emits.pure _

theorem envUpgradeOpts.upgradeLegacyEnvironmentWithVPCOverrides_emits {P : Event → Prop}
    (o : envUpgradeOpts) (upgrader : Handle) (conf : config.Environment)
    (fromVersion toVersion : GoString) (albWorkloads : List GoString)
    (h1 : ∀ c i w r, P (Event.UpgradeLegacyEnvironment c i w r))
    (h2 : ∀ m, P (Event.Warningln m)) :
    Act.Emits P (upgradeLegacyEnvironmentWithVPCOverrides o upgrader conf fromVersion
      toVersion albWorkloads) := by
  unfold upgradeLegacyEnvironmentWithVPCOverrides
  cases conf.CustomConfig with
  | none => exact Act.Emits.bind (Act.Emits.emit _ (h2 _)) (fun _ => Act.Emits.fail _)
  | some c =>
    refine Act.Emits.bind (Act.Emits.call _ _ (h1 _ _ _)) (fun res => ?_)
    cases res with
    | none => exact Act.Emits.pure _
    | some err => exact Act.Emits.fail _

theorem envUpgradeOpts.upgradeLegacyEnvironment_emits {P : Event → Prop} (p : Pkg)
    (o : envUpgradeOpts) (upgrader : Handle) (conf : config.Environment)
    (app : config.Application) (artifactBucketARN artifactBucketKeyARN : GoString)
    (urls : List (GoString × GoString)) (fromVersion toVersion : GoString)
    (hP : ∀ ev : Event, ev.isUpdateEnvironmentTemplate = false → P ev) :
    Act.Emits P (upgradeLegacyEnvironment p o upgrader conf app artifactBucketARN
      artifactBucketKeyARN urls fromVersion toVersion) := by
  unfold upgradeLegacyEnvironment
  refine Act.Emits.bind (isDefaultLegacyTemplate_emits o _ _ _ (fun _ => hP _ rfl)
    (fun _ _ _ _ => hP _ rfl)) (fun isDefaultEnv => ?_)
  refine Act.Emits.bind (listLBWebServices_emits p o (fun _ _ => hP _ rfl))
    (fun albWorkloads => ?_)
  cases isDefaultEnv with
  | true =>
    refine Act.Emits.bind (Act.Emits.call _ _ (fun _ => hP _ rfl)) (fun res => ?_)
    cases res with
    | none => exact Act.Emits.pure _
    | some err => exact Act.Emits.fail _
  | false =>
    exact upgradeLegacyEnvironmentWithVPCOverrides_emits o _ _ _ _ _
      (fun _ _ _ _ => hP _ rfl) (fun _ => hP _ rfl)

theorem envUpgradeOpts.upgradeDeferred_emits {P : Event → Prop} (p : Pkg)
    (env : config.Environment) (rest : Act Unit) (hr : Act.Emits P rest)
    (hP : ∀ m, P (Event.Stop m)) : Act.Emits P (upgradeDeferred p env rest) := by
  intro t
  obtain ⟨d, hd, hPd⟩ := hr t
  unfold upgradeDeferred
  rcases hrt : rest t with ⟨out, t1⟩
  rw [hrt] at hd
  simp only at hd
  subst hd
  have hmem : ∀ m, ∀ ev ∈ d ++ [Event.Stop m], P ev := by
    intro m ev hev
    rcases List.mem_append.mp hev with h | h
    · exact hPd ev h
    · simp only [List.mem_singleton] at h
      subst h
      exact hP _
  cases out with
  | ok a => exact ⟨d ++ [Event.Stop _], (List.append_assoc _ _ _), hmem _⟩
  | err e => exact ⟨d ++ [Event.Stop _], (List.append_assoc _ _ _), hmem _⟩
  | panic m => exact ⟨d ++ [Event.Stop _], (List.append_assoc _ _ _), hmem _⟩

theorem envUpgradeOpts.upgrade_emits {P : Event → Prop} (p : Pkg) (o : envUpgradeOpts)
    (env : config.Environment) (app : config.Application)
    (artifactBucketARN artifactBucketKeyARN : GoString) (urls : List (GoString × GoString))
    (hP : ∀ ev : Event, ev.isUpdateEnvironmentTemplate = false → P ev) :
    Act.Emits P (upgrade p o env app artifactBucketARN artifactBucketKeyARN urls) := by
  unfold upgrade
  refine Act.Emits.bind (envVersion_emits o _ (fun _ _ _ => hP _ rfl) (fun _ _ => hP _ rfl))
    (fun version => ?_)
  refine Act.Emits.bind (shouldUpgradeEnv_emits p _ _ (fun _ => hP _ rfl)) (fun should => ?_)
  cases should with
  | false => exact Act.Emits.pure _
  | true =>
    refine Act.Emits.bind (Act.Emits.emit _ (hP _ rfl)) (fun _ => ?_)
    refine upgradeDeferred_emits p env _ ?_ (fun _ => hP _ rfl)
    refine Act.Emits.bind (Act.Emits.call _ _ (fun _ => hP _ rfl)) (fun res => ?_)
    cases res with
    | error err => exact Act.Emits.fail _
    | ok upgrader =>
      simp only []
      split_ifs
      · exact upgradeLegacyEnvironment_emits p o _ _ _ _ _ _ _ _ hP
      · exact upgradeEnvironment_emits o _ _ _ _ _ _ _ _ (fun _ _ _ => hP _ rfl)

theorem envUpgradeOpts.listEnvsToUpgrade_emits {P : Event → Prop} (o : envUpgradeOpts)
    (hP : ∀ ev : Event, ev.isUpdateEnvironmentTemplate = false → P ev) :
    Act.Emits P (listEnvsToUpgrade o) := by
  unfold listEnvsToUpgrade
  split_ifs
  · refine Act.Emits.bind (Act.Emits.call _ _ (fun _ => hP _ rfl)) (fun res => ?_)
    cases res with
    | error err => exact Act.Emits.fail _
    | ok env => exact Act.Emits.pure _
  · refine Act.Emits.bind (Act.Emits.call _ _ (fun _ => hP _ rfl)) (fun res => ?_)
    cases res with
    | error err => exact Act.Emits.fail _
    | ok envs => exact Act.Emits.pure _

/-- What `Execute` does for one environment after the permission patch: the
S3 client, the upload of the custom resources and the upgrade. -/
theorem envUpgradeOpts.afterPatch_emits {P : Event → Prop} (p : Pkg) (o : envUpgradeOpts)
    (app : config.Application) (env : config.Environment)
    (resources : stack.AppRegionalResources)
    (hP : ∀ ev : Event, ev.isUpdateEnvironmentTemplate = false → P ev) :
    Act.Emits P (do
      let res ← Act.call (fun t => o.newS3 t env) (Event.newS3 env)
      match res with
      | Except.error err => Act.fail err
      | Except.ok s3Client =>
        let res ← UploadEnvironmentCustomResources o (fun key objects =>
          Act.call (fun t => o.ZipAndUpload t s3Client resources.S3Bucket key objects)
            (Event.ZipAndUpload s3Client resources.S3Bucket key objects))
        match res with
        | Except.error err =>
          Act.fail (fmt.Errorf_w ("upload custom resources to bucket ".toList
            ++ resources.S3Bucket ++ ": ".toList) err)
        | Except.ok urls =>
          upgrade p o env app (p.FormatARN p.AwsPartitionID resources.S3Bucket)
            resources.KMSKeyARN urls : Act Unit) := by
  refine Act.Emits.bind (Act.Emits.call _ _ (fun _ => hP _ rfl)) (fun res => ?_)
  cases res with
  | error err => exact Act.Emits.fail _
  | ok s3Client =>
    refine Act.Emits.bind (UploadEnvironmentCustomResources_emits o _
      (fun _ _ => Act.Emits.call _ _ (fun _ => hP _ rfl)) (fun _ => hP _ rfl)) (fun res => ?_)
    cases res with
    | error err => exact Act.Emits.fail _
    | ok urls => exact upgrade_emits p o _ _ _ _ _ hP

/-! ### A failed update of the manager role ends the run -/

theorem Act.UpdateErrorIsFatal.of_emits {α : Type} (p : Pkg) {x : Act α}
    (hx : Act.Emits (fun ev => ev.isUpdateEnvironmentTemplate = false) x) :
    Act.UpdateErrorIsFatal p x := by
  intro t
  obtain ⟨d, hd, hno⟩ := hx t
  refine ⟨d, hd, ?_⟩
  intro pre post c a n b r e hsplit _
  exact (Event.no_update_split hsplit hno rfl).elim

theorem Act.UpdateErrorIsFatal.sequence {α β : Type} (p : Pkg) {x : Act α} {f : α → Act β}
    (hx : Act.UpdateErrorIsFatal p x) (hf : ∀ a, Act.UpdateErrorIsFatal p (f a)) :
    Act.UpdateErrorIsFatal p (x >>= f) := by
  intro t
  obtain ⟨dx, hdx, hQx⟩ := hx t
  rw [Act.bind_apply]
  rcases hxt : x t with ⟨ox, tx⟩
  rw [hxt] at hdx hQx
  simp only at hdx hQx
  subst hdx
  cases ox with
  | ok v =>
    obtain ⟨df, hdf, hQf⟩ := hf v (t ++ dx)
    refine ⟨dx ++ df, by simp [hdf], ?_⟩
    intro pre post c a n b r e hsplit hE
    rcases List.append_eq_append_iff.mp hsplit with ⟨a1, hpre, hdf2⟩ | ⟨c1, hdx2, hrest⟩
    · exact hQf a1 post c a n b r e hdf2 hE
    · cases c1 with
      | nil =>
        simp only [List.nil_append] at hrest
        exact hQf [] post c a n b r e (by simpa using hrest.symm) hE
      | cons u c2 =>
        simp only [List.cons_append, List.cons.injEq] at hrest
        have := (hQx pre c2 c a n b r e (by rw [hdx2, ← hrest.1]) hE).1
        simp at this
  | err e1 =>
    refine ⟨dx, rfl, ?_⟩
    intro pre post c a n b r e hsplit hE
    have := hQx pre post c a n b r e hsplit hE
    simp only [Outcome.err.injEq] at this ⊢
    exact this
  | panic m =>
    refine ⟨dx, rfl, ?_⟩
    intro pre post c a n b r e hsplit hE
    have := (hQx pre post c a n b r e hsplit hE).1
    simp at this

theorem envUpgradeOpts.grant_updateErrorIsFatal (p : Pkg) (o : envUpgradeOpts) (cfn : Handle)
    (app env execRole body bucketARN : GoString) :
    Act.UpdateErrorIsFatal p
      (grantManagerRolePermissionToUpload p o cfn app env execRole body bucketARN) := by
  intro t
  rcases grant_shape p o cfn app env execRole body bucketARN t with
    ⟨e1, h1⟩ | ⟨m, h1⟩ | ⟨updated, res, _, ⟨hok, h1⟩ | ⟨e1, hres, hne, h1⟩⟩
  · rw [h1]
    exact ⟨[], by simp, fun pre post c a n b r e h _ => by simp at h⟩
  · rw [h1]
    exact ⟨[], by simp, fun pre post c a n b r e h _ => by simp at h⟩
  · rw [h1]
    refine ⟨_, rfl, ?_⟩
    intro pre post c a n b r e h hE
    obtain ⟨_, hev, _⟩ := Event.unique_update_split
      ([Event.Start msgUpdateManagerRole])
      ([Event.Stop (p.Ssuccessln msgUpdated)]) h
      (by simp [Event.isUpdateEnvironmentTemplate])
      (by simp [Event.isUpdateEnvironmentTemplate]) rfl
    simp only [Event.UpdateEnvironmentTemplate.injEq] at hev
    rcases hok with hnone | ⟨e2, hsome, hE2⟩
    · rw [hnone] at hev
      simp at hev
    · rw [hsome] at hev
      simp only [Option.some.injEq] at hev
      rw [hev.2.2.2.2.2, hE2] at hE
      simp at hE
  · rw [h1]
    refine ⟨_, rfl, ?_⟩
    intro pre post c a n b r e h hE
    obtain ⟨_, hev, hpost⟩ := Event.unique_update_split
      ([Event.Start msgUpdateManagerRole])
      ([Event.Stop (p.Serrorln msgUnableToUpdate)]) h
      (by simp [Event.isUpdateEnvironmentTemplate])
      (by simp [Event.isUpdateEnvironmentTemplate]) rfl
    rw [hres] at hev
    simp only [Event.UpdateEnvironmentTemplate.injEq, Option.some.injEq] at hev
    rw [hev.2.2.2.2.2]
    exact ⟨rfl, hpost⟩

theorem envUpgradeOpts.ensure_updateErrorIsFatal (p : Pkg) (o : envUpgradeOpts)
    (env : config.Environment) (bucketName : GoString) :
    Act.UpdateErrorIsFatal p (ensureManagerRoleIsAllowedToUpload p o env bucketName) := by
  intro t
  rcases ensure_shape p o env bucketName t with ⟨d, hd, hno, _⟩ | ⟨cfn, body, hg⟩
  · exact ⟨d, hd, fun pre post c a n b r e h _ => (Event.no_update_split h hno rfl).elim⟩
  · rw [hg]
    obtain ⟨d, hd, hQ⟩ := grant_updateErrorIsFatal p o cfn env.App env.Name
      env.ExecutionRoleARN body (p.FormatARN p.AwsPartitionID bucketName)
      (t ++ [Event.newEnvDeployer env (Except.ok cfn),
        Event.EnvironmentTemplate cfn env.App env.Name (Except.ok body)])
    refine ⟨[Event.newEnvDeployer env (Except.ok cfn),
      Event.EnvironmentTemplate cfn env.App env.Name (Except.ok body)] ++ d,
      by rw [hd, List.append_assoc], ?_⟩
    intro pre post c a n b r e h hE
    rcases List.append_eq_append_iff.mp h with ⟨a1, hpre, hd2⟩ | ⟨c1, hl, hrest⟩
    · exact hQ a1 post c a n b r e hd2 hE
    · cases c1 with
      | nil =>
        simp only [List.nil_append] at hrest
        exact hQ [] post c a n b r e (by simpa using hrest.symm) hE
      | cons u c2 =>
        simp only [List.cons_append, List.cons.injEq] at hrest
        have hmem : Event.UpdateEnvironmentTemplate c a n b r (some e)
            ∈ [Event.newEnvDeployer env (Except.ok cfn),
              Event.EnvironmentTemplate cfn env.App env.Name (Except.ok body)] := by
          rw [hl, ← hrest.1]
          simp
        simp at hmem

theorem envUpgradeOpts.ExecuteEnv_updateErrorIsFatal (p : Pkg) (o : envUpgradeOpts)
    (app : config.Application) (env : config.Environment) :
    Act.UpdateErrorIsFatal p (ExecuteEnv p o app env) := by
  unfold ExecuteEnv
  refine Act.UpdateErrorIsFatal.sequence p
    (Act.UpdateErrorIsFatal.of_emits p (Act.Emits.call _ _ (fun _ => rfl))) (fun res => ?_)
  cases res with
  | error err => exact Act.UpdateErrorIsFatal.of_emits p (Act.Emits.fail _)
  | ok resources =>
    exact Act.UpdateErrorIsFatal.sequence p (ensure_updateErrorIsFatal p o env _)
      (fun _ => Act.UpdateErrorIsFatal.of_emits p
        (afterPatch_emits p o app env resources (fun _ h => h)))

theorem envUpgradeOpts.ExecuteLoop_updateErrorIsFatal (p : Pkg) (o : envUpgradeOpts)
    (app : config.Application) (envs : List config.Environment) :
    Act.UpdateErrorIsFatal p (ExecuteLoop p o app envs) := by
  induction envs with
  | nil => exact Act.UpdateErrorIsFatal.of_emits p (Act.Emits.pure _)
  | cons env envs ih =>
    unfold ExecuteLoop
    exact Act.UpdateErrorIsFatal.sequence p (ExecuteEnv_updateErrorIsFatal p o app env)
      (fun _ => ih)

theorem envUpgradeOpts.Execute_updateErrorIsFatal (p : Pkg) (o : envUpgradeOpts) :
    Act.UpdateErrorIsFatal p (Execute p o) := by
  unfold Execute
  refine Act.UpdateErrorIsFatal.sequence p
    (Act.UpdateErrorIsFatal.of_emits p (listEnvsToUpgrade_emits o (fun _ h => h)))
    (fun envs => ?_)
  refine Act.UpdateErrorIsFatal.sequence p
    (Act.UpdateErrorIsFatal.of_emits p (Act.Emits.call _ _ (fun _ => rfl))) (fun res => ?_)
  cases res with
  | error err => exact Act.UpdateErrorIsFatal.of_emits p (Act.Emits.fail _)
  | ok app => exact ExecuteLoop_updateErrorIsFatal p o app envs

theorem envUpgradeOpts.ExecuteEnv_failed_update_calls (p : Pkg) (o : envUpgradeOpts)
    (app : config.Application) (env : config.Environment) (t pre post : List Event)
    (c : Handle) (a n b r : GoString) (e : GoError)
    (h : (ExecuteEnv p o app env t).2
      = t ++ (pre ++ Event.UpdateEnvironmentTemplate c a n b r (some e) :: post))
    (hE : e.AsErrChangeSetEmpty = false) :
    ∃ resources cfn body,
      pre = [Event.GetAppResourcesByRegion app env.Region (Except.ok resources),
        Event.newEnvDeployer env (Except.ok cfn),
        Event.EnvironmentTemplate cfn env.App env.Name (Except.ok body),
        Event.Start msgUpdateManagerRole] := by
  unfold ExecuteEnv at h
  simp only [Act.bind_apply, Act.call_apply] at h
  rcases hG : o.GetAppResourcesByRegion t app env.Region with err | resources
  · rw [hG] at h
    simp only [Act.fail_apply] at h
    exact (Event.no_update_split (List.append_cancel_left h)
      (by simp [Event.isUpdateEnvironmentTemplate]) rfl).elim
  · rw [hG] at h
    simp only [] at h
    rw [Act.bind_apply] at h
    have hrest := afterPatch_emits (P := fun ev => ev.isUpdateEnvironmentTemplate = false)
      p o app env resources (fun _ h => h)
    rcases ensure_shape p o env resources.S3Bucket
        (t ++ [Event.GetAppResourcesByRegion app env.Region (Except.ok resources)]) with
      ⟨d, hd, hno, _⟩ | ⟨cfn, body, hg⟩
    · rcases hen : ensureManagerRoleIsAllowedToUpload p o env resources.S3Bucket
          (t ++ [Event.GetAppResourcesByRegion app env.Region (Except.ok resources)]) with
        ⟨oe, te⟩
      rw [hen] at h hd
      simp only at hd
      subst hd
      have hno1 : ∀ x ∈ [Event.GetAppResourcesByRegion app env.Region (Except.ok resources)]
          ++ d, x.isUpdateEnvironmentTemplate = false := by
        intro x hx
        rcases List.mem_append.mp hx with hx | hx
        · simp only [List.mem_singleton] at hx
          subst hx
          rfl
        · exact hno x hx
      cases oe with
      | ok u =>
        simp only [] at h
        obtain ⟨d2, hd2, hno2⟩ := hrest
          (t ++ [Event.GetAppResourcesByRegion app env.Region (Except.ok resources)] ++ d)
        rw [hd2, List.append_assoc, List.append_assoc] at h
        refine (Event.no_update_split (List.append_cancel_left h) ?_ rfl).elim
        intro x hx
        rw [← List.append_assoc] at hx
        rcases List.mem_append.mp hx with hx | hx
        · exact hno1 x hx
        · exact hno2 x hx
      | err e1 =>
        simp only [] at h
        rw [List.append_assoc] at h
        exact (Event.no_update_split (List.append_cancel_left h) hno1 rfl).elim
      | panic m =>
        simp only [] at h
        rw [List.append_assoc] at h
        exact (Event.no_update_split (List.append_cancel_left h) hno1 rfl).elim
    · rw [hg] at h
      rcases grant_shape p o cfn env.App env.Name env.ExecutionRoleARN body
          (p.FormatARN p.AwsPartitionID resources.S3Bucket)
          (t ++ [Event.GetAppResourcesByRegion app env.Region (Except.ok resources)]
            ++ [Event.newEnvDeployer env (Except.ok cfn),
              Event.EnvironmentTemplate cfn env.App env.Name (Except.ok body)]) with
        ⟨e1, h1⟩ | ⟨m, h1⟩ | ⟨updated, res, _, ⟨hok, h1⟩ | ⟨e1, hres, hne, h1⟩⟩
      · rw [h1] at h
        simp only [List.append_assoc] at h
        exact (Event.no_update_split (List.append_cancel_left h)
          (by simp [Event.isUpdateEnvironmentTemplate]) rfl).elim
      · rw [h1] at h
        simp only [List.append_assoc] at h
        exact (Event.no_update_split (List.append_cancel_left h)
          (by simp [Event.isUpdateEnvironmentTemplate]) rfl).elim
      · rw [h1] at h
        simp only [] at h
        obtain ⟨d2, hd2, hno2⟩ := hrest
          (t ++ [Event.GetAppResourcesByRegion app env.Region (Except.ok resources)]
            ++ [Event.newEnvDeployer env (Except.ok cfn),
              Event.EnvironmentTemplate cfn env.App env.Name (Except.ok body)]
            ++ [Event.Start msgUpdateManagerRole,
              Event.UpdateEnvironmentTemplate cfn env.App env.Name updated
                env.ExecutionRoleARN res,
              Event.Stop (p.Ssuccessln msgUpdated)])
        rw [hd2] at h
        simp only [List.append_assoc, List.cons_append, List.nil_append] at h
        have h2 := List.append_cancel_left h
        obtain ⟨_, hev, _⟩ := Event.unique_update_split
          ([Event.GetAppResourcesByRegion app env.Region (Except.ok resources),
            Event.newEnvDeployer env (Except.ok cfn),
            Event.EnvironmentTemplate cfn env.App env.Name (Except.ok body),
            Event.Start msgUpdateManagerRole])
          (Event.Stop (p.Ssuccessln msgUpdated) :: d2) h2
          (by simp [Event.isUpdateEnvironmentTemplate])
          (by
            intro x hx
            rcases List.mem_cons.mp hx with hx | hx
            · subst hx
              rfl
            · exact hno2 x hx) rfl
        simp only [Event.UpdateEnvironmentTemplate.injEq] at hev
        rcases hok with hnone | ⟨e2, hsome, hE2⟩
        · rw [hnone] at hev
          simp at hev
        · rw [hsome] at hev
          simp only [Option.some.injEq] at hev
          rw [hev.2.2.2.2.2, hE2] at hE
          simp at hE
      · rw [h1] at h
        simp only [List.append_assoc, List.cons_append, List.nil_append] at h
        have h2 := List.append_cancel_left h
        obtain ⟨hpre, _, _⟩ := Event.unique_update_split
          ([Event.GetAppResourcesByRegion app env.Region (Except.ok resources),
            Event.newEnvDeployer env (Except.ok cfn),
            Event.EnvironmentTemplate cfn env.App env.Name (Except.ok body),
            Event.Start msgUpdateManagerRole])
          ([Event.Stop (p.Serrorln msgUnableToUpdate)]) h2
          (by simp [Event.isUpdateEnvironmentTemplate])
          (by simp [Event.isUpdateEnvironmentTemplate]) rfl
        exact ⟨resources, cfn, body, hpre⟩

/-- C7. Whenever a run contains a call of `UpdateEnvironmentTemplate` that
returned an error which is not an empty change set,
`ensureManagerRoleIsAllowedToUpload` returns the error of the permission
patch; so does the loop body of `Execute` for that environment, whose calls
before the update are only the discovery of the resources, the creation of
the deployer, the fetch of the template and the start of the progress sink;
and so does `Execute`. In each case the one call after the update is the stop
of the progress sink with the failure message: no S3 client is created,
nothing is uploaded, no version is read and no upgrade call is issued. -/
theorem updateError_aborts_run (p : Pkg) (o : envUpgradeOpts) (e : GoError)
    (hE : e.AsErrChangeSetEmpty = false) (t pre post : List Event) (c : Handle)
    (a n b r : GoString) :
    (∀ env bucketName,
        (envUpgradeOpts.ensureManagerRoleIsAllowedToUpload p o env bucketName t).2
          = t ++ (pre ++ Event.UpdateEnvironmentTemplate c a n b r (some e) :: post) →
        (envUpgradeOpts.ensureManagerRoleIsAllowedToUpload p o env bucketName t).1
            = Outcome.err (fmt.Errorf_v
                "update environment template with PutObject permissions: ".toList e)
          ∧ post = [Event.Stop (p.Serrorln envUpgradeOpts.msgUnableToUpdate)])
    ∧ (∀ app env,
        (envUpgradeOpts.ExecuteEnv p o app env t).2
          = t ++ (pre ++ Event.UpdateEnvironmentTemplate c a n b r (some e) :: post) →
        (envUpgradeOpts.ExecuteEnv p o app env t).1
            = Outcome.err (fmt.Errorf_v
                "update environment template with PutObject permissions: ".toList e)
          ∧ post = [Event.Stop (p.Serrorln envUpgradeOpts.msgUnableToUpdate)]
          ∧ ∃ resources cfn body,
              pre = [Event.GetAppResourcesByRegion app env.Region (Except.ok resources),
                Event.newEnvDeployer env (Except.ok cfn),
                Event.EnvironmentTemplate cfn env.App env.Name (Except.ok body),
                Event.Start envUpgradeOpts.msgUpdateManagerRole])
    ∧ ((envUpgradeOpts.Execute p o t).2
          = t ++ (pre ++ Event.UpdateEnvironmentTemplate c a n b r (some e) :: post) →
        (envUpgradeOpts.Execute p o t).1
            = Outcome.err (fmt.Errorf_v
                "update environment template with PutObject permissions: ".toList e)
          ∧ post = [Event.Stop (p.Serrorln envUpgradeOpts.msgUnableToUpdate)]) := by
  refine ⟨?_, ?_, ?_⟩
  · intro env bucketName h
    obtain ⟨d, hd, hQ⟩ := envUpgradeOpts.ensure_updateErrorIsFatal p o env bucketName t
    rw [hd] at h
    exact hQ pre post c a n b r e (List.append_cancel_left h) hE
  · intro app env h
    obtain ⟨d, hd, hQ⟩ := envUpgradeOpts.ExecuteEnv_updateErrorIsFatal p o app env t
    have h2 := h
    rw [hd] at h2
    obtain ⟨hout, hpost⟩ := hQ pre post c a n b r e (List.append_cancel_left h2) hE
    exact ⟨hout, hpost,
      envUpgradeOpts.ExecuteEnv_failed_update_calls p o app env t pre post c a n b r e h hE⟩
  · intro h
    obtain ⟨d, hd, hQ⟩ := envUpgradeOpts.Execute_updateErrorIsFatal p o t
    rw [hd] at h
    exact hQ pre post c a n b r e (List.append_cancel_left h) hE

/-- C7, on one environment without a version in its template, whose update
call is denied: `Execute` returns the error of the patch after six calls for
the environment, the last being the failure stop. -/
theorem updateError_aborts_run_witness :
    (envUpgradeOpts.Execute (Mock.pkg "v1.9.0".toList [] [{ Line := 7, Column := 13 }])
        (Mock.opts Mock.body [] "v1.8.0".toList (some Mock.accessDenied)) []).2
      = [Event.GetEnvironment "phonetool".toList "test".toList (Except.ok Mock.env),
          Event.GetApplication "phonetool".toList (Except.ok Mock.app),
          Event.GetAppResourcesByRegion Mock.app "us-west-2".toList
            (Except.ok { S3Bucket := "bucket".toList, KMSKeyARN := "key".toList }),
          Event.newEnvDeployer Mock.env (Except.ok 1),
          Event.EnvironmentTemplate 1 "phonetool".toList "test".toList (Except.ok Mock.body),
          Event.Start envUpgradeOpts.msgUpdateManagerRole,
          Event.UpdateEnvironmentTemplate 1 "phonetool".toList "test".toList Mock.patched
            "execRole".toList (some Mock.accessDenied),
          Event.Stop ("x ".toList ++ envUpgradeOpts.msgUnableToUpdate ++ "\n".toList)]
    ∧ (envUpgradeOpts.Execute (Mock.pkg "v1.9.0".toList [] [{ Line := 7, Column := 13 }])
        (Mock.opts Mock.body [] "v1.8.0".toList (some Mock.accessDenied)) []).1
      = Outcome.err (fmt.Errorf_v
          "update environment template with PutObject permissions: ".toList
          Mock.accessDenied) :=
  ⟨by rfl,
   ((updateError_aborts_run (Mock.pkg "v1.9.0".toList [] [{ Line := 7, Column := 13 }])
      (Mock.opts Mock.body [] "v1.8.0".toList (some Mock.accessDenied))
      Mock.accessDenied (by decide) []
      [Event.GetEnvironment "phonetool".toList "test".toList (Except.ok Mock.env),
        Event.GetApplication "phonetool".toList (Except.ok Mock.app),
        Event.GetAppResourcesByRegion Mock.app "us-west-2".toList
          (Except.ok { S3Bucket := "bucket".toList, KMSKeyARN := "key".toList }),
        Event.newEnvDeployer Mock.env (Except.ok 1),
        Event.EnvironmentTemplate 1 "phonetool".toList "test".toList (Except.ok Mock.body),
        Event.Start envUpgradeOpts.msgUpdateManagerRole]
      [Event.Stop ("x ".toList ++ envUpgradeOpts.msgUnableToUpdate ++ "\n".toList)]
      1 "phonetool".toList "test".toList Mock.patched "execRole".toList).2.2 (by rfl)).1⟩

/-! ### The legacy resolver -/

theorem envUpgradeOpts.isDefaultLegacyTemplate_eq (o : envUpgradeOpts) (cfn : Handle)
    (appName envName canonical actual : GoString) (t : Trace)
    (hT : o.Template t = Except.ok canonical)
    (hA : o.EnvironmentTemplate (t ++ [Event.Template (Except.ok canonical)]) cfn appName
      envName = Except.ok actual) :
    isDefaultLegacyTemplate o cfn appName envName t
      = (Outcome.ok (decide (canonical = actual)),
          t ++ [Event.Template (Except.ok canonical),
            Event.EnvironmentTemplate cfn appName envName (Except.ok actual)]) := by
  unfold isDefaultLegacyTemplate
  simp [bind, Act.andThen, Act.call, hT, hA, pure, Act.ret]

theorem envUpgradeOpts.upgradeLegacyEnvironment_listed (p : Pkg) (o : envUpgradeOpts)
    (upgrader : Handle) (conf : config.Environment) (app : config.Application)
    (artifactBucketARN artifactBucketKeyARN : GoString) (urls : List (GoString × GoString))
    (fromVersion toVersion canonical actual : GoString) (t : Trace)
    (services : List config.Workload)
    (hT : o.Template t = Except.ok canonical)
    (hA : o.EnvironmentTemplate (t ++ [Event.Template (Except.ok canonical)]) upgrader
      conf.App conf.Name = Except.ok actual)
    (hS : o.ListServices (t ++ [Event.Template (Except.ok canonical),
        Event.EnvironmentTemplate upgrader conf.App conf.Name (Except.ok actual)]) o.appName
      = Except.ok services) :
    upgradeLegacyEnvironment p o upgrader conf app artifactBucketARN artifactBucketKeyARN urls
        fromVersion toVersion t
      = if canonical = actual then
          ((match o.UpgradeLegacyEnvironment
                (t ++ [Event.Template (Except.ok canonical),
                  Event.EnvironmentTemplate upgrader conf.App conf.Name (Except.ok actual),
                  Event.ListServices o.appName (Except.ok services)])
                upgrader
                (defaultLegacyInput conf app artifactBucketARN artifactBucketKeyARN urls
                  toVersion)
                (lbWebServiceNames p services) with
            | none => Outcome.ok ()
            | some err => Outcome.err (fmt.Errorf_v
                (msgUpgradeEnvironment conf.Name fromVersion toVersion) err)),
           t ++ [Event.Template (Except.ok canonical),
              Event.EnvironmentTemplate upgrader conf.App conf.Name (Except.ok actual),
              Event.ListServices o.appName (Except.ok services),
              Event.UpgradeLegacyEnvironment upgrader
                (defaultLegacyInput conf app artifactBucketARN artifactBucketKeyARN urls
                  toVersion)
                (lbWebServiceNames p services)
                (o.UpgradeLegacyEnvironment
                  (t ++ [Event.Template (Except.ok canonical),
                    Event.EnvironmentTemplate upgrader conf.App conf.Name (Except.ok actual),
                    Event.ListServices o.appName (Except.ok services)])
                  upgrader
                  (defaultLegacyInput conf app artifactBucketARN artifactBucketKeyARN urls
                    toVersion)
                  (lbWebServiceNames p services))])
        else
          upgradeLegacyEnvironmentWithVPCOverrides o upgrader conf fromVersion toVersion
            (lbWebServiceNames p services)
            (t ++ [Event.Template (Except.ok canonical),
              Event.EnvironmentTemplate upgrader conf.App conf.Name (Except.ok actual),
              Event.ListServices o.appName (Except.ok services)]) := by
  unfold upgradeLegacyEnvironment
  rw [Act.bind_apply, isDefaultLegacyTemplate_eq o upgrader conf.App conf.Name canonical actual
    t hT hA]
  simp only []
  rw [Act.bind_apply]
  unfold listLBWebServices
  simp only [Act.bind_apply, Act.call_apply, hS, Act.pure_apply]
  by_cases heq : canonical = actual
  · simp only [heq, decide_True, if_true, List.append_assoc, List.cons_append,
      List.nil_append, Act.bind_apply, Act.call_apply]
    generalize o.UpgradeLegacyEnvironment
        (t ++ [Event.Template (Except.ok actual),
          Event.EnvironmentTemplate upgrader conf.App conf.Name (Except.ok actual),
          Event.ListServices o.appName (Except.ok services)])
        upgrader
        (defaultLegacyInput conf app artifactBucketARN artifactBucketKeyARN urls toVersion)
        (lbWebServiceNames p services) = res
    cases res with
    | none => simp
    | some err => simp
  · simp only [heq, decide_False, if_false, List.append_assoc, List.cons_append,
      List.nil_append]
    rfl

theorem envUpgradeOpts.upgradeLegacyEnvironment_not_listed (p : Pkg) (o : envUpgradeOpts)
    (upgrader : Handle) (conf : config.Environment) (app : config.Application)
    (artifactBucketARN artifactBucketKeyARN : GoString) (urls : List (GoString × GoString))
    (fromVersion toVersion canonical actual : GoString) (t : Trace) (err : GoError)
    (hT : o.Template t = Except.ok canonical)
    (hA : o.EnvironmentTemplate (t ++ [Event.Template (Except.ok canonical)]) upgrader
      conf.App conf.Name = Except.ok actual)
    (hS : o.ListServices (t ++ [Event.Template (Except.ok canonical),
        Event.EnvironmentTemplate upgrader conf.App conf.Name (Except.ok actual)]) o.appName
      = Except.error err) :
    upgradeLegacyEnvironment p o upgrader conf app artifactBucketARN artifactBucketKeyARN urls
        fromVersion toVersion t
      = (Outcome.err (fmt.Errorf_v ("list services in application ".toList ++ o.appName
            ++ ": ".toList) err),
          t ++ [Event.Template (Except.ok canonical),
            Event.EnvironmentTemplate upgrader conf.App conf.Name (Except.ok actual),
            Event.ListServices o.appName (Except.error err)]) := by
  unfold upgradeLegacyEnvironment
  rw [Act.bind_apply, isDefaultLegacyTemplate_eq o upgrader conf.App conf.Name canonical actual
    t hT hA]
  simp only []
  rw [Act.bind_apply]
  unfold listLBWebServices
  simp [hS]

theorem envUpgradeOpts.withVPCOverrides_none (o : envUpgradeOpts) (upgrader : Handle)
    (conf : config.Environment) (fromVersion toVersion : GoString)
    (albWorkloads : List GoString) (t : Trace) (hC : conf.CustomConfig = none) :
    upgradeLegacyEnvironmentWithVPCOverrides o upgrader conf fromVersion toVersion
        albWorkloads t
      = (Outcome.err errMissingVPCConfig, t ++ [Event.Warningln msgCustomizedVPC]) := by
  unfold upgradeLegacyEnvironmentWithVPCOverrides
  rw [hC]
  rfl

theorem envUpgradeOpts.withVPCOverrides_some (o : envUpgradeOpts) (upgrader : Handle)
    (conf : config.Environment) (c : config.CustomizeEnv) (fromVersion toVersion : GoString)
    (albWorkloads : List GoString) (t : Trace) (hC : conf.CustomConfig = some c) :
    upgradeLegacyEnvironmentWithVPCOverrides o upgrader conf fromVersion toVersion
        albWorkloads t
      = ((match o.UpgradeLegacyEnvironment t upgrader
              { Version := toVersion
                App := { Name := conf.App }
                Name := conf.Name
                ImportVPCConfig := c.ImportVPC
                AdjustVPCConfig := c.VPCConfig
                ImportCertARNs := c.ImportCertARNs
                AllowVPCIngress := c.EnableInternalALBVPCIngress
                CFNServiceRoleARN := conf.ExecutionRoleARN } albWorkloads with
          | none => Outcome.ok ()
          | some err => Outcome.err (fmt.Errorf_v
              (msgUpgradeEnvironment conf.Name fromVersion toVersion) err)),
         t ++ [Event.UpgradeLegacyEnvironment upgrader
            { Version := toVersion
              App := { Name := conf.App }
              Name := conf.Name
              ImportVPCConfig := c.ImportVPC
              AdjustVPCConfig := c.VPCConfig
              ImportCertARNs := c.ImportCertARNs
              AllowVPCIngress := c.EnableInternalALBVPCIngress
              CFNServiceRoleARN := conf.ExecutionRoleARN } albWorkloads
            (o.UpgradeLegacyEnvironment t upgrader
              { Version := toVersion
                App := { Name := conf.App }
                Name := conf.Name
                ImportVPCConfig := c.ImportVPC
                AdjustVPCConfig := c.VPCConfig
                ImportCertARNs := c.ImportCertARNs
                AllowVPCIngress := c.EnableInternalALBVPCIngress
                CFNServiceRoleARN := conf.ExecutionRoleARN } albWorkloads)]) := by
  unfold upgradeLegacyEnvironmentWithVPCOverrides
  rw [hC]
  simp only [Act.bind_apply, Act.call_apply]
  generalize o.UpgradeLegacyEnvironment t upgrader
      { Version := toVersion
        App := { Name := conf.App }
        Name := conf.Name
        ImportVPCConfig := c.ImportVPC
        AdjustVPCConfig := c.VPCConfig
        ImportCertARNs := c.ImportCertARNs
        AllowVPCIngress := c.EnableInternalALBVPCIngress
        CFNServiceRoleARN := conf.ExecutionRoleARN } albWorkloads = res
  cases res with
  | none => simp
  | some err => simp

/-- C8, as stated, fails: with the fetched template equal to the canonical
one, `isDefaultLegacyTemplate` returns true, yet when the store fails to list
the services `upgradeLegacyEnvironment` takes neither branch: it returns the
listing error and makes no upgrade call. -/
theorem defaultBranch_not_taken_when_listing_fails :
    (envUpgradeOpts.isDefaultLegacyTemplate (Mock.optsNoServices Mock.body Mock.body) 3
        "phonetool".toList "test".toList []).1 = Outcome.ok true
    ∧ envUpgradeOpts.upgradeLegacyEnvironment (Mock.pkg "v1.9.0".toList [] [])
        (Mock.optsNoServices Mock.body Mock.body) 3 Mock.env Mock.app
        "arn:aws:s3:::bucket".toList "key".toList [] "v0.0.0".toList "v1.9.0".toList []
      = (Outcome.err (GoError.errorString
            "list services in application phonetool: throttled".toList),
          [Event.Template (Except.ok Mock.body),
            Event.EnvironmentTemplate 3 "phonetool".toList "test".toList
              (Except.ok Mock.body),
            Event.ListServices "phonetool".toList
              (Except.error (GoError.errorString "throttled".toList))]) := by
  constructor
  · rfl
  · rfl

/-- C8, amended. With the canonical template and the template of the
environment both obtained, `isDefaultLegacyTemplate` returns true exactly when
the two are equal as strings. Once the services of the application are
listed, `upgradeLegacyEnvironment` takes the default-shape branch (one
`UpgradeLegacyEnvironment` call with the stock fields) when they are equal and
continues in `upgradeLegacyEnvironmentWithVPCOverrides` when they differ; when
the listing fails it takes neither branch and returns the listing error. -/
theorem isDefaultLegacyTemplate_decides_branch (p : Pkg) (o : envUpgradeOpts)
    (upgrader : Handle) (conf : config.Environment) (app : config.Application)
    (artifactBucketARN artifactBucketKeyARN : GoString) (urls : List (GoString × GoString))
    (fromVersion toVersion canonical actual : GoString) (t : Trace)
    (hT : o.Template t = Except.ok canonical)
    (hA : o.EnvironmentTemplate (t ++ [Event.Template (Except.ok canonical)]) upgrader
      conf.App conf.Name = Except.ok actual) :
    envUpgradeOpts.isDefaultLegacyTemplate o upgrader conf.App conf.Name t
      = (Outcome.ok (decide (canonical = actual)),
          t ++ [Event.Template (Except.ok canonical),
            Event.EnvironmentTemplate upgrader conf.App conf.Name (Except.ok actual)])
    ∧ ((envUpgradeOpts.isDefaultLegacyTemplate o upgrader conf.App conf.Name t).1
        = Outcome.ok true ↔ canonical = actual)
    ∧ (∀ services,
        o.ListServices (t ++ [Event.Template (Except.ok canonical),
            Event.EnvironmentTemplate upgrader conf.App conf.Name (Except.ok actual)])
          o.appName = Except.ok services →
        (canonical = actual →
          envUpgradeOpts.upgradeLegacyEnvironment p o upgrader conf app artifactBucketARN
              artifactBucketKeyARN urls fromVersion toVersion t
            = ((match o.UpgradeLegacyEnvironment
                    (t ++ [Event.Template (Except.ok canonical),
                      Event.EnvironmentTemplate upgrader conf.App conf.Name
                        (Except.ok actual),
                      Event.ListServices o.appName (Except.ok services)])
                    upgrader
                    (envUpgradeOpts.defaultLegacyInput conf app artifactBucketARN
                      artifactBucketKeyARN urls toVersion)
                    (envUpgradeOpts.lbWebServiceNames p services) with
                | none => Outcome.ok ()
                | some err => Outcome.err (fmt.Errorf_v
                    (envUpgradeOpts.msgUpgradeEnvironment conf.Name fromVersion toVersion)
                    err)),
               t ++ [Event.Template (Except.ok canonical),
                  Event.EnvironmentTemplate upgrader conf.App conf.Name (Except.ok actual),
                  Event.ListServices o.appName (Except.ok services),
                  Event.UpgradeLegacyEnvironment upgrader
                    (envUpgradeOpts.defaultLegacyInput conf app artifactBucketARN
                      artifactBucketKeyARN urls toVersion)
                    (envUpgradeOpts.lbWebServiceNames p services)
                    (o.UpgradeLegacyEnvironment
                      (t ++ [Event.Template (Except.ok canonical),
                        Event.EnvironmentTemplate upgrader conf.App conf.Name
                          (Except.ok actual),
                        Event.ListServices o.appName (Except.ok services)])
                      upgrader
                      (envUpgradeOpts.defaultLegacyInput conf app artifactBucketARN
                        artifactBucketKeyARN urls toVersion)
                      (envUpgradeOpts.lbWebServiceNames p services))]))
        ∧ (canonical ≠ actual →
          envUpgradeOpts.upgradeLegacyEnvironment p o upgrader conf app artifactBucketARN
              artifactBucketKeyARN urls fromVersion toVersion t
            = envUpgradeOpts.upgradeLegacyEnvironmentWithVPCOverrides o upgrader conf
                fromVersion toVersion (envUpgradeOpts.lbWebServiceNames p services)
                (t ++ [Event.Template (Except.ok canonical),
                  Event.EnvironmentTemplate upgrader conf.App conf.Name (Except.ok actual),
                  Event.ListServices o.appName (Except.ok services)])))
    ∧ (∀ err,
        o.ListServices (t ++ [Event.Template (Except.ok canonical),
            Event.EnvironmentTemplate upgrader conf.App conf.Name (Except.ok actual)])
          o.appName = Except.error err →
        envUpgradeOpts.upgradeLegacyEnvironment p o upgrader conf app artifactBucketARN
            artifactBucketKeyARN urls fromVersion toVersion t
          = (Outcome.err (fmt.Errorf_v ("list services in application ".toList ++ o.appName
                ++ ": ".toList) err),
              t ++ [Event.Template (Except.ok canonical),
                Event.EnvironmentTemplate upgrader conf.App conf.Name (Except.ok actual),
                Event.ListServices o.appName (Except.error err)])) := by
  have h1 := envUpgradeOpts.isDefaultLegacyTemplate_eq o upgrader conf.App conf.Name canonical
    actual t hT hA
  refine ⟨h1, ?_, ?_, ?_⟩
  · rw [h1]
    simp
  · intro services hS
    have h2 := envUpgradeOpts.upgradeLegacyEnvironment_listed p o upgrader conf app
      artifactBucketARN artifactBucketKeyARN urls fromVersion toVersion canonical actual t
      services hT hA hS
    constructor
    · intro heq
      rw [h2, if_pos heq]
    · intro hne
      rw [h2, if_neg hne]
  · intro err hS
    exact envUpgradeOpts.upgradeLegacyEnvironment_not_listed p o upgrader conf app
      artifactBucketARN artifactBucketKeyARN urls fromVersion toVersion canonical actual t err
      hT hA hS

/-- C8, amended, on a legacy environment whose template is the canonical one
and whose application has one load-balanced web service: the default-shape
branch is taken, with the stock fields and that service. -/
theorem isDefaultLegacyTemplate_decides_branch_witness :
    envUpgradeOpts.upgradeLegacyEnvironment (Mock.pkg "v1.9.0".toList [] [])
        (Mock.opts Mock.body Mock.body "v0.0.0".toList none) 3 Mock.env Mock.app
        "arn:aws:s3:::bucket".toList "key".toList [] "v0.0.0".toList "v1.9.0".toList []
      = (Outcome.ok (),
          [Event.Template (Except.ok Mock.body),
            Event.EnvironmentTemplate 3 "phonetool".toList "test".toList
              (Except.ok Mock.body),
            Event.ListServices "phonetool".toList
              (Except.ok [{ App := "phonetool".toList, Name := "frontend".toList,
                            Type_ := "Load Balanced Web Service".toList }]),
            Event.UpgradeLegacyEnvironment 3
              { Version := "v1.9.0".toList
                App := { Name := "phonetool".toList }
                Name := "test".toList
                ArtifactBucketKeyARN := "key".toList
                ArtifactBucketARN := "arn:aws:s3:::bucket".toList
                CFNServiceRoleARN := "execRole".toList }
              ["frontend".toList] none]) :=
  ((isDefaultLegacyTemplate_decides_branch (Mock.pkg "v1.9.0".toList [] [])
      (Mock.opts Mock.body Mock.body "v0.0.0".toList none) 3 Mock.env Mock.app
      "arn:aws:s3:::bucket".toList "key".toList [] "v0.0.0".toList "v1.9.0".toList
      Mock.body Mock.body [] rfl rfl).2.2.1 _ rfl).1 rfl

/-- C9, as stated, fails: for a legacy environment whose template differs from
the canonical one and whose record has no stored custom configuration,
`upgradeLegacyEnvironment` returns the listing error, not the dedicated error,
when the store fails to list the services. -/
theorem missingVPCConfig_not_returned_when_listing_fails :
    Mock.env.CustomConfig = none
    ∧ Mock.body ≠ "canonical".toList
    ∧ envUpgradeOpts.upgradeLegacyEnvironment (Mock.pkg "v1.9.0".toList [] [])
        (Mock.optsNoServices Mock.body "canonical".toList) 3 Mock.env Mock.app
        "arn:aws:s3:::bucket".toList "key".toList [] "v0.0.0".toList "v1.9.0".toList []
      = (Outcome.err (GoError.errorString
            "list services in application phonetool: throttled".toList),
          [Event.Template (Except.ok "canonical".toList),
            Event.EnvironmentTemplate 3 "phonetool".toList "test".toList
              (Except.ok Mock.body),
            Event.ListServices "phonetool".toList
              (Except.error (GoError.errorString "throttled".toList))])
    ∧ GoError.errorString "list services in application phonetool: throttled".toList
      ≠ envUpgradeOpts.errMissingVPCConfig := by
  refine ⟨rfl, by decide, by rfl, by decide⟩

/-- C9, amended. For a legacy environment whose template differs from the
canonical one and whose record has no stored custom configuration,
`upgradeLegacyEnvironment` always returns a non-nil error and makes no upgrade
call. The error is the dedicated error `cannot upgrade environment due to
missing vpc configuration`, after the warning, when the services of the
application are listed; it is the listing error when the listing fails. -/
theorem upgradeLegacyEnvironment_missing_vpc_config (p : Pkg) (o : envUpgradeOpts)
    (upgrader : Handle) (conf : config.Environment) (app : config.Application)
    (artifactBucketARN artifactBucketKeyARN : GoString) (urls : List (GoString × GoString))
    (fromVersion toVersion canonical actual : GoString) (t : Trace)
    (hT : o.Template t = Except.ok canonical)
    (hA : o.EnvironmentTemplate (t ++ [Event.Template (Except.ok canonical)]) upgrader
      conf.App conf.Name = Except.ok actual)
    (hne : canonical ≠ actual) (hC : conf.CustomConfig = none) :
    (∀ services,
        o.ListServices (t ++ [Event.Template (Except.ok canonical),
            Event.EnvironmentTemplate upgrader conf.App conf.Name (Except.ok actual)])
          o.appName = Except.ok services →
        envUpgradeOpts.upgradeLegacyEnvironment p o upgrader conf app artifactBucketARN
            artifactBucketKeyARN urls fromVersion toVersion t
          = (Outcome.err (errors.New
                "cannot upgrade environment due to missing vpc configuration".toList),
              t ++ [Event.Template (Except.ok canonical),
                Event.EnvironmentTemplate upgrader conf.App conf.Name (Except.ok actual),
                Event.ListServices o.appName (Except.ok services),
                Event.Warningln envUpgradeOpts.msgCustomizedVPC]))
    ∧ (∀ err,
        o.ListServices (t ++ [Event.Template (Except.ok canonical),
            Event.EnvironmentTemplate upgrader conf.App conf.Name (Except.ok actual)])
          o.appName = Except.error err →
        envUpgradeOpts.upgradeLegacyEnvironment p o upgrader conf app artifactBucketARN
            artifactBucketKeyARN urls fromVersion toVersion t
          = (Outcome.err (fmt.Errorf_v ("list services in application ".toList ++ o.appName
                ++ ": ".toList) err),
              t ++ [Event.Template (Except.ok canonical),
                Event.EnvironmentTemplate upgrader conf.App conf.Name (Except.ok actual),
                Event.ListServices o.appName (Except.error err)]))
    ∧ (envUpgradeOpts.upgradeLegacyEnvironment p o upgrader conf app artifactBucketARN
          artifactBucketKeyARN urls fromVersion toVersion t).1.isErr = true
    ∧ (∃ d, (envUpgradeOpts.upgradeLegacyEnvironment p o upgrader conf app artifactBucketARN
          artifactBucketKeyARN urls fromVersion toVersion t).2 = t ++ d
        ∧ ∀ ev ∈ d, ev.isUpgradeCall = false) := by
  have hok : ∀ services,
      o.ListServices (t ++ [Event.Template (Except.ok canonical),
          Event.EnvironmentTemplate upgrader conf.App conf.Name (Except.ok actual)])
        o.appName = Except.ok services →
      envUpgradeOpts.upgradeLegacyEnvironment p o upgrader conf app artifactBucketARN
          artifactBucketKeyARN urls fromVersion toVersion t
        = (Outcome.err (errors.New
              "cannot upgrade environment due to missing vpc configuration".toList),
            t ++ [Event.Template (Except.ok canonical),
              Event.EnvironmentTemplate upgrader conf.App conf.Name (Except.ok actual),
              Event.ListServices o.appName (Except.ok services),
              Event.Warningln envUpgradeOpts.msgCustomizedVPC]) := by
    intro services hS
    rw [envUpgradeOpts.upgradeLegacyEnvironment_listed p o upgrader conf app
      artifactBucketARN artifactBucketKeyARN urls fromVersion toVersion canonical actual t
      services hT hA hS, if_neg hne,
      envUpgradeOpts.withVPCOverrides_none o upgrader conf fromVersion toVersion _ _ hC]
    simp [envUpgradeOpts.errMissingVPCConfig]
  have herr := fun err => envUpgradeOpts.upgradeLegacyEnvironment_not_listed p o upgrader conf
    app artifactBucketARN artifactBucketKeyARN urls fromVersion toVersion canonical actual t
    err hT hA
  refine ⟨hok, herr, ?_, ?_⟩
  · rcases hS : o.ListServices (t ++ [Event.Template (Except.ok canonical),
        Event.EnvironmentTemplate upgrader conf.App conf.Name (Except.ok actual)])
        o.appName with err | services
    · rw [herr err hS]
      rfl
    · rw [hok services hS]
      rfl
  · rcases hS : o.ListServices (t ++ [Event.Template (Except.ok canonical),
        Event.EnvironmentTemplate upgrader conf.App conf.Name (Except.ok actual)])
        o.appName with err | services
    · rw [herr err hS]
      exact ⟨_, rfl, by simp [Event.isUpgradeCall]⟩
    · rw [hok services hS]
      exact ⟨_, rfl, by simp [Event.isUpgradeCall]⟩

/-- C9, amended, on a legacy environment with a customised template and no
stored custom configuration: the warning is logged, the dedicated error is
returned and no upgrade call is made. -/
theorem upgradeLegacyEnvironment_missing_vpc_config_witness :
    envUpgradeOpts.upgradeLegacyEnvironment (Mock.pkg "v1.9.0".toList [] [])
        (Mock.opts Mock.body "canonical".toList "v0.0.0".toList none) 3 Mock.env Mock.app
        "arn:aws:s3:::bucket".toList "key".toList [] "v0.0.0".toList "v1.9.0".toList []
      = (Outcome.err (errors.New
            "cannot upgrade environment due to missing vpc configuration".toList),
          [Event.Template (Except.ok "canonical".toList),
            Event.EnvironmentTemplate 3 "phonetool".toList "test".toList
              (Except.ok Mock.body),
            Event.ListServices "phonetool".toList
              (Except.ok [{ App := "phonetool".toList, Name := "frontend".toList,
                            Type_ := "Load Balanced Web Service".toList }]),
            Event.Warningln envUpgradeOpts.msgCustomizedVPC]) :=
  (upgradeLegacyEnvironment_missing_vpc_config (Mock.pkg "v1.9.0".toList [] [])
    (Mock.opts Mock.body "canonical".toList "v0.0.0".toList none) 3 Mock.env Mock.app
    "arn:aws:s3:::bucket".toList "key".toList [] "v0.0.0".toList "v1.9.0".toList
    "canonical".toList Mock.body [] rfl rfl (by decide) rfl).1 _ rfl

/-- C10, as stated, fails: the input of the `UpgradeLegacyEnvironment` call of
`upgradeLegacyEnvironmentWithVPCOverrides` has an empty internal-ALB subnet
allow-list although the stored custom configuration has the subnet
`subnet2` in its allow-list. -/
theorem vpcOverrides_input_drops_allow_list :
    (Mock.customEnv.CustomConfig.map (fun c => c.InternalALBSubnets))
      = some ["subnet2".toList]
    ∧ envUpgradeOpts.upgradeLegacyEnvironmentWithVPCOverrides
        (Mock.opts Mock.body "canonical".toList "v0.0.0".toList none) 3 Mock.customEnv
        "v0.0.0".toList "v1.9.0".toList ["frontend".toList] []
      = (Outcome.ok (),
          [Event.UpgradeLegacyEnvironment 3
            { Version := "v1.9.0".toList
              App := { Name := "phonetool".toList }
              Name := "test".toList
              ImportVPCConfig := some { ID := "vpc-1".toList
                                        PrivateSubnetIDs := ["subnet1".toList, "subnet2".toList] }
              ImportCertARNs := ["cert1".toList, "cert2".toList]
              InternalALBSubnets := []
              AllowVPCIngress := true
              CFNServiceRoleARN := "execRole".toList }
            ["frontend".toList] none]) := by
  constructor
  · rfl
  · rfl

/-- C10, amended. For an environment with a stored custom configuration,
`upgradeLegacyEnvironmentWithVPCOverrides` makes exactly one call, an
`UpgradeLegacyEnvironment` call with the given workloads, whose input has the
target version, the name of the environment, the application of the record,
the execution role of the record as deploy role, and the imported VPC, the
adjusted VPC, the imported certificates and the VPC-ingress flag of the stored
configuration; the internal-ALB subnet allow-list of the input is empty
whatever is stored. It returns nil exactly when that call succeeds. -/
theorem upgradeLegacyEnvironmentWithVPCOverrides_input (o : envUpgradeOpts)
    (upgrader : Handle) (conf : config.Environment) (c : config.CustomizeEnv)
    (fromVersion toVersion : GoString) (albWorkloads : List GoString) (t : Trace)
    (hC : conf.CustomConfig = some c) :
    ∃ input : deploy.CreateEnvironmentInput,
      (envUpgradeOpts.upgradeLegacyEnvironmentWithVPCOverrides o upgrader conf fromVersion
          toVersion albWorkloads t).2
        = t ++ [Event.UpgradeLegacyEnvironment upgrader input albWorkloads
            (o.UpgradeLegacyEnvironment t upgrader input albWorkloads)]
      ∧ ((envUpgradeOpts.upgradeLegacyEnvironmentWithVPCOverrides o upgrader conf fromVersion
          toVersion albWorkloads t).1 = Outcome.ok ()
          ↔ o.UpgradeLegacyEnvironment t upgrader input albWorkloads = none)
      ∧ input.Version = toVersion
      ∧ input.Name = conf.Name
      ∧ input.App.Name = conf.App
      ∧ input.CFNServiceRoleARN = conf.ExecutionRoleARN
      ∧ input.ImportVPCConfig = c.ImportVPC
      ∧ input.AdjustVPCConfig = c.VPCConfig
      ∧ input.ImportCertARNs = c.ImportCertARNs
      ∧ input.AllowVPCIngress = c.EnableInternalALBVPCIngress
      ∧ input.InternalALBSubnets = [] := by
  refine ⟨{ Version := toVersion
            App := { Name := conf.App }
            Name := conf.Name
            ImportVPCConfig := c.ImportVPC
            AdjustVPCConfig := c.VPCConfig
            ImportCertARNs := c.ImportCertARNs
            AllowVPCIngress := c.EnableInternalALBVPCIngress
            CFNServiceRoleARN := conf.ExecutionRoleARN }, ?_, ?_,
    rfl, rfl, rfl, rfl, rfl, rfl, rfl, rfl, rfl⟩
  · rw [envUpgradeOpts.withVPCOverrides_some o upgrader conf c fromVersion toVersion
      albWorkloads t hC]
  · rw [envUpgradeOpts.withVPCOverrides_some o upgrader conf c fromVersion toVersion
      albWorkloads t hC]
    simp only []
    generalize o.UpgradeLegacyEnvironment t upgrader
      { Version := toVersion
        App := { Name := conf.App }
        Name := conf.Name
        ImportVPCConfig := c.ImportVPC
        AdjustVPCConfig := c.VPCConfig
        ImportCertARNs := c.ImportCertARNs
        AllowVPCIngress := c.EnableInternalALBVPCIngress
        CFNServiceRoleARN := conf.ExecutionRoleARN } albWorkloads = res
    cases res with
    | none => simp
    | some err => simp

/-- C10, amended, on the environment with a stored custom configuration and
an upgrade call that fails: one call, with the stored VPC, certificates and
flag, an empty allow-list, and a non-nil error. -/
theorem upgradeLegacyEnvironmentWithVPCOverrides_input_witness :
    ∃ input : deploy.CreateEnvironmentInput,
      (envUpgradeOpts.upgradeLegacyEnvironmentWithVPCOverrides
          (Mock.opts Mock.body "canonical".toList "v0.0.0".toList (some Mock.accessDenied))
          3 Mock.customEnv "v0.0.0".toList "v1.9.0".toList ["frontend".toList] []).2
        = [Event.UpgradeLegacyEnvironment 3 input ["frontend".toList]
            (some Mock.accessDenied)]
      ∧ input.ImportCertARNs = ["cert1".toList, "cert2".toList]
      ∧ input.AllowVPCIngress = true
      ∧ input.InternalALBSubnets = []
      ∧ (envUpgradeOpts.upgradeLegacyEnvironmentWithVPCOverrides
          (Mock.opts Mock.body "canonical".toList "v0.0.0".toList (some Mock.accessDenied))
          3 Mock.customEnv "v0.0.0".toList "v1.9.0".toList ["frontend".toList] []).1
        ≠ Outcome.ok () := by
  obtain ⟨input, h1, h2, _, _, _, _, _, _, h9, h10, h11⟩ :=
    upgradeLegacyEnvironmentWithVPCOverrides_input
      (Mock.opts Mock.body "canonical".toList "v0.0.0".toList (some Mock.accessDenied))
      3 Mock.customEnv
      { ImportVPC := some { ID := "vpc-1".toList
                            PrivateSubnetIDs := ["subnet1".toList, "subnet2".toList] }
        ImportCertARNs := ["cert1".toList, "cert2".toList]
        InternalALBSubnets := ["subnet2".toList]
        EnableInternalALBVPCIngress := true }
      "v0.0.0".toList "v1.9.0".toList ["frontend".toList] [] rfl
  refine ⟨input, h1, h9, h10, h11, ?_⟩
  intro hok
  have := h2.mp hok
  simp [Mock.opts] at this

/-! ### Validation of the flags -/

/-- C16. With both the flag `all` and a non-empty environment name,
`Validate` returns an error and calls no collaborator; with the flag `all`
alone it returns nil, also without calling any collaborator. -/
theorem Validate_all_flag (p : Pkg) (o : envUpgradeOpts) (t : Trace) (hall : o.all = true) :
    (o.name ≠ [] →
      envUpgradeOpts.Validate p o t
        = (Outcome.err (GoError.errorString ("cannot specify both ".toList ++ ['-', '-']
            ++ p.allFlag ++ " and ".toList ++ ['-', '-'] ++ p.nameFlag ++ " flags".toList)),
           t))
    ∧ (o.name = [] → envUpgradeOpts.Validate p o t = (Outcome.ok (), t)) := by
  constructor
  · intro hname
    unfold envUpgradeOpts.Validate
    rw [if_pos ⟨hall, hname⟩]
    rfl
  · intro hname
    unfold envUpgradeOpts.Validate
    have h1 : ¬ (o.all = true ∧ o.name ≠ []) := fun h => h.2 hname
    rw [if_neg h1, if_pos hall]
    rfl

/-- C16, on the flags `all` with the name `test`, and `all` alone. -/
theorem Validate_all_flag_witness :
    envUpgradeOpts.Validate (Mock.pkg "v1.9.0".toList [] [])
        { Mock.opts [] [] [] none with all := true } []
      = (Outcome.err (GoError.errorString
          ("cannot specify both ".toList ++ ['-', '-'] ++ "all and ".toList ++ ['-', '-']
            ++ "name flags".toList)), [])
    ∧ envUpgradeOpts.Validate (Mock.pkg "v1.9.0".toList [] []) Mock.twoEnvOpts []
      = (Outcome.ok (), []) :=
  ⟨(Validate_all_flag (Mock.pkg "v1.9.0".toList [] [])
      { Mock.opts [] [] [] none with all := true } [] rfl).1 (by decide),
   (Validate_all_flag (Mock.pkg "v1.9.0".toList [] []) Mock.twoEnvOpts [] rfl).2 rfl⟩

/-! ### The load-balanced web services -/

theorem envUpgradeOpts.lbWebServiceNames_eq_filter (p : Pkg) (services : List config.Workload) :
    lbWebServiceNames p services
      = (services.filter (fun svc => decide (svc.Type_ = p.LoadBalancedWebServiceType))).map
          (fun svc => svc.Name) := by
  induction services with
  | nil => rfl
  | cons svc rest ih =>
    unfold lbWebServiceNames
    by_cases h : svc.Type_ = p.LoadBalancedWebServiceType
    · simp [h, ih]
    · simp [h, ih]

theorem envUpgradeOpts.listLBWebServices_listed (p : Pkg) (o : envUpgradeOpts) (t : Trace)
    (services : List config.Workload) (h : o.ListServices t o.appName = Except.ok services) :
    listLBWebServices p o t
      = (Outcome.ok (lbWebServiceNames p services),
          t ++ [Event.ListServices o.appName (Except.ok services)]) := by
  unfold listLBWebServices
  simp [h]

/-- C18. For the services that the store lists for the application,
`listLBWebServices` returns the names of those whose type is the load-balanced
web service type, in the order of the store and nothing else; and
`upgradeLegacyEnvironment` gives exactly that list as the workloads of its
`UpgradeLegacyEnvironment` call, in the default-shape branch and in the branch
of the stored overrides. -/
theorem listLBWebServices_passed_through (p : Pkg) (o : envUpgradeOpts)
    (upgrader : Handle) (conf : config.Environment) (app : config.Application)
    (artifactBucketARN artifactBucketKeyARN : GoString) (urls : List (GoString × GoString))
    (fromVersion toVersion canonical actual : GoString) (t : Trace)
    (services : List config.Workload)
    (hT : o.Template t = Except.ok canonical)
    (hA : o.EnvironmentTemplate (t ++ [Event.Template (Except.ok canonical)]) upgrader
      conf.App conf.Name = Except.ok actual)
    (hS : o.ListServices (t ++ [Event.Template (Except.ok canonical),
        Event.EnvironmentTemplate upgrader conf.App conf.Name (Except.ok actual)]) o.appName
      = Except.ok services) :
    (envUpgradeOpts.listLBWebServices p o
        (t ++ [Event.Template (Except.ok canonical),
          Event.EnvironmentTemplate upgrader conf.App conf.Name (Except.ok actual)])).1
      = Outcome.ok ((services.filter
          (fun svc => decide (svc.Type_ = p.LoadBalancedWebServiceType))).map
          (fun svc => svc.Name))
    ∧ (canonical = actual →
        ∃ input res,
          (envUpgradeOpts.upgradeLegacyEnvironment p o upgrader conf app artifactBucketARN
              artifactBucketKeyARN urls fromVersion toVersion t).2
            = t ++ [Event.Template (Except.ok canonical),
                Event.EnvironmentTemplate upgrader conf.App conf.Name (Except.ok actual),
                Event.ListServices o.appName (Except.ok services),
                Event.UpgradeLegacyEnvironment upgrader input
                  ((services.filter
                    (fun svc => decide (svc.Type_ = p.LoadBalancedWebServiceType))).map
                    (fun svc => svc.Name)) res])
    ∧ (canonical ≠ actual → ∀ c, conf.CustomConfig = some c →
        ∃ input res,
          (envUpgradeOpts.upgradeLegacyEnvironment p o upgrader conf app artifactBucketARN
              artifactBucketKeyARN urls fromVersion toVersion t).2
            = t ++ [Event.Template (Except.ok canonical),
                Event.EnvironmentTemplate upgrader conf.App conf.Name (Except.ok actual),
                Event.ListServices o.appName (Except.ok services),
                Event.UpgradeLegacyEnvironment upgrader input
                  ((services.filter
                    (fun svc => decide (svc.Type_ = p.LoadBalancedWebServiceType))).map
                    (fun svc => svc.Name)) res]) := by
  have hl := envUpgradeOpts.upgradeLegacyEnvironment_listed p o upgrader conf app
    artifactBucketARN artifactBucketKeyARN urls fromVersion toVersion canonical actual t
    services hT hA hS
  refine ⟨?_, ?_, ?_⟩
  · rw [envUpgradeOpts.listLBWebServices_listed p o _ services hS,
      envUpgradeOpts.lbWebServiceNames_eq_filter]
  · intro heq
    rw [hl, if_pos heq, ← envUpgradeOpts.lbWebServiceNames_eq_filter]
    exact ⟨_, _, rfl⟩
  · intro hne c hC
    rw [hl, if_neg hne,
      envUpgradeOpts.withVPCOverrides_some o upgrader conf c fromVersion toVersion _ _ hC,
      ← envUpgradeOpts.lbWebServiceNames_eq_filter]
    refine ⟨{ Version := toVersion
              App := { Name := conf.App }
              Name := conf.Name
              ImportVPCConfig := c.ImportVPC
              AdjustVPCConfig := c.VPCConfig
              ImportCertARNs := c.ImportCertARNs
              AllowVPCIngress := c.EnableInternalALBVPCIngress
              CFNServiceRoleARN := conf.ExecutionRoleARN },
      o.UpgradeLegacyEnvironment
        (t ++ [Event.Template (Except.ok canonical),
          Event.EnvironmentTemplate upgrader conf.App conf.Name (Except.ok actual),
          Event.ListServices o.appName (Except.ok services)])
        upgrader
        { Version := toVersion
          App := { Name := conf.App }
          Name := conf.Name
          ImportVPCConfig := c.ImportVPC
          AdjustVPCConfig := c.VPCConfig
          ImportCertARNs := c.ImportCertARNs
          AllowVPCIngress := c.EnableInternalALBVPCIngress
          CFNServiceRoleARN := conf.ExecutionRoleARN }
        (envUpgradeOpts.lbWebServiceNames p services), ?_⟩
    simp only [List.append_assoc, List.cons_append, List.nil_append]

/-- C18, on an application with a backend service between two load-balanced
web services: the legacy upgrade call gets the two load-balanced names, in
order. -/
theorem listLBWebServices_passed_through_witness :
    ∃ input res,
      (envUpgradeOpts.upgradeLegacyEnvironment (Mock.pkg "v1.9.0".toList [] [])
          { Mock.opts Mock.body Mock.body "v0.0.0".toList none with
            ListServices := fun _ _ => Except.ok
              [{ Name := "frontend".toList, Type_ := "Load Balanced Web Service".toList },
               { Name := "worker".toList, Type_ := "Backend Service".toList },
               { Name := "admin".toList, Type_ := "Load Balanced Web Service".toList }] }
          3 Mock.env Mock.app "arn:aws:s3:::bucket".toList "key".toList []
          "v0.0.0".toList "v1.9.0".toList []).2
        = [Event.Template (Except.ok Mock.body),
            Event.EnvironmentTemplate 3 "phonetool".toList "test".toList
              (Except.ok Mock.body),
            Event.ListServices "phonetool".toList (Except.ok
              [{ Name := "frontend".toList, Type_ := "Load Balanced Web Service".toList },
               { Name := "worker".toList, Type_ := "Backend Service".toList },
               { Name := "admin".toList, Type_ := "Load Balanced Web Service".toList }]),
            Event.UpgradeLegacyEnvironment 3 input ["frontend".toList, "admin".toList]
              res] := by
  obtain ⟨input, res, h⟩ :=
    (listLBWebServices_passed_through (Mock.pkg "v1.9.0".toList [] [])
      { Mock.opts Mock.body Mock.body "v0.0.0".toList none with
        ListServices := fun _ _ => Except.ok
          [{ Name := "frontend".toList, Type_ := "Load Balanced Web Service".toList },
           { Name := "worker".toList, Type_ := "Backend Service".toList },
           { Name := "admin".toList, Type_ := "Load Balanced Web Service".toList }] }
      3 Mock.env Mock.app "arn:aws:s3:::bucket".toList "key".toList []
      "v0.0.0".toList "v1.9.0".toList Mock.body Mock.body [] _ rfl rfl rfl).2.1 rfl
  exact ⟨input, res, h⟩

/-! ### The versioned upgrade -/

/-- The call of `upgradeEnvironment`: one `UpgradeEnvironment` call with the
input of the method, and an error exactly when the call fails. -/
theorem envUpgradeOpts.upgradeEnvironment_eq (o : envUpgradeOpts) (upgrader : Handle)
    (conf : config.Environment) (app : config.Application)
    (artifactBucketARN artifactBucketKeyARN : GoString) (urls : List (GoString × GoString))
    (fromVersion toVersion : GoString) (t : Trace) :
    upgradeEnvironment o upgrader conf app artifactBucketARN artifactBucketKeyARN urls
        fromVersion toVersion t
      = ((match o.UpgradeEnvironment t upgrader
              (versionedInput conf app artifactBucketARN artifactBucketKeyARN urls
                toVersion) with
          | none => Outcome.ok ()
          | some err => Outcome.err (fmt.Errorf_v
              (msgUpgradeEnvironment conf.Name fromVersion toVersion) err)),
         t ++ [Event.UpgradeEnvironment upgrader
            (versionedInput conf app artifactBucketARN artifactBucketKeyARN urls toVersion)
            (o.UpgradeEnvironment t upgrader
              (versionedInput conf app artifactBucketARN artifactBucketKeyARN urls
                toVersion))]) := by
  unfold upgradeEnvironment versionedInput
  cases hC : conf.CustomConfig with
  | none =>
    simp only [Act.bind_apply, Act.call_apply, Option.bind, Option.map, Option.getD]
    generalize o.UpgradeEnvironment t upgrader _ = res
    cases res with
    | none => simp
    | some err => simp
  | some c =>
    simp only [Act.bind_apply, Act.call_apply, Option.bind, Option.map, Option.getD]
    generalize o.UpgradeEnvironment t upgrader _ = res
    cases res with
    | none => simp
    | some err => simp

/-! ### The decision of `upgrade` -/

theorem envUpgradeOpts.envVersion_ok (o : envUpgradeOpts) (name : GoString) (t : Trace)
    (getter : Handle) (v : GoString)
    (hg : o.newEnvVersionGetter t o.appName name = Except.ok getter)
    (hv : o.Version (t ++ [Event.newEnvVersionGetter o.appName name (Except.ok getter)]) getter
      = Except.ok v) :
    envVersion o name t
      = (Outcome.ok v,
          t ++ [Event.newEnvVersionGetter o.appName name (Except.ok getter),
            Event.Version getter (Except.ok v)]) := by
  unfold envVersion
  simp [hg, hv]

/-- When the version of the environment is read and is not lower than the
latest version, `upgrade` logs the reason and returns nil. -/
theorem envUpgradeOpts.upgrade_skipped (p : Pkg) (o : envUpgradeOpts)
    (env : config.Environment) (app : config.Application)
    (artifactBucketARN artifactBucketKeyARN : GoString) (urls : List (GoString × GoString))
    (t : Trace) (getter : Handle) (v : GoString)
    (hg : o.newEnvVersionGetter t o.appName env.Name = Except.ok getter)
    (hv : o.Version (t ++ [Event.newEnvVersionGetter o.appName env.Name (Except.ok getter)])
      getter = Except.ok v)
    (hc : 0 ≤ semver.Compare v p.LatestEnvTemplateVersion) :
    upgrade p o env app artifactBucketARN artifactBucketKeyARN urls t
      = (Outcome.ok (),
          t ++ [Event.newEnvVersionGetter o.appName env.Name (Except.ok getter),
            Event.Version getter (Except.ok v),
            Event.Debugln
              (if 0 < semver.Compare v p.LatestEnvTemplateVersion
                then msgVersionSkew env.Name p.LatestEnvTemplateVersion v
                else msgAlreadyLatest env.Name p.LatestEnvTemplateVersion)]) := by
  unfold upgrade
  rw [Act.bind_apply, envVersion_ok o env.Name t getter v hg hv]
  have hn : ¬ semver.Compare v p.LatestEnvTemplateVersion < 0 := by omega
  by_cases hpos : 0 < semver.Compare v p.LatestEnvTemplateVersion
  · simp [shouldUpgradeEnv, hn, hpos]
  · simp [shouldUpgradeEnv, hn, hpos]

/-- When the version of the environment is read and is lower than the latest
version, and the template upgrader is created, `upgrade` starts the progress
sink, runs the legacy path if the version is the legacy version and the
versioned path otherwise, and stops the progress sink. -/
theorem envUpgradeOpts.upgrade_attempted (p : Pkg) (o : envUpgradeOpts)
    (env : config.Environment) (app : config.Application)
    (artifactBucketARN artifactBucketKeyARN : GoString) (urls : List (GoString × GoString))
    (t : Trace) (getter upgrader : Handle) (v : GoString)
    (hg : o.newEnvVersionGetter t o.appName env.Name = Except.ok getter)
    (hv : o.Version (t ++ [Event.newEnvVersionGetter o.appName env.Name (Except.ok getter)])
      getter = Except.ok v)
    (hc : semver.Compare v p.LatestEnvTemplateVersion < 0)
    (hu : o.newTemplateUpgrader
      (t ++ [Event.newEnvVersionGetter o.appName env.Name (Except.ok getter),
        Event.Version getter (Except.ok v),
        Event.Start (fmtEnvUpgradeStart (p.HighlightUserInput env.Name) (p.Emphasize v)
          (p.Emphasize p.LatestEnvTemplateVersion))]) env = Except.ok upgrader) :
    upgrade p o env app artifactBucketARN artifactBucketKeyARN urls t
      = match (if v = p.LegacyEnvTemplateVersion then
            upgradeLegacyEnvironment p o upgrader env app artifactBucketARN
              artifactBucketKeyARN urls v p.LatestEnvTemplateVersion
          else
            upgradeEnvironment o upgrader env app artifactBucketARN artifactBucketKeyARN urls
              v p.LatestEnvTemplateVersion)
          (t ++ [Event.newEnvVersionGetter o.appName env.Name (Except.ok getter),
            Event.Version getter (Except.ok v),
            Event.Start (fmtEnvUpgradeStart (p.HighlightUserInput env.Name) (p.Emphasize v)
              (p.Emphasize p.LatestEnvTemplateVersion)),
            Event.newTemplateUpgrader env (Except.ok upgrader)]) with
        | (Outcome.ok a, t1) =>
          (Outcome.ok a, t1 ++ [Event.Stop (p.Ssuccessf (fmtEnvUpgradeComplete
            (p.HighlightUserInput env.Name) (p.Emphasize p.LatestEnvTemplateVersion)))])
        | (Outcome.err e, t1) =>
          (Outcome.err e, t1 ++ [Event.Stop (p.Serrorf (fmtEnvUpgradeFailed
            (p.HighlightUserInput env.Name) (p.Emphasize p.LatestEnvTemplateVersion)))])
        | (Outcome.panic m, t1) =>
          (Outcome.panic m, t1 ++ [Event.Stop (p.Ssuccessf (fmtEnvUpgradeComplete
            (p.HighlightUserInput env.Name) (p.Emphasize p.LatestEnvTemplateVersion)))]) := by
  unfold upgrade
  rw [Act.bind_apply, envVersion_ok o env.Name t getter v hg hv]
  simp only [Act.bind_apply]
  have hs : shouldUpgradeEnv p env.Name v
      (t ++ [Event.newEnvVersionGetter o.appName env.Name (Except.ok getter),
        Event.Version getter (Except.ok v)])
      = (Outcome.ok true, t ++ [Event.newEnvVersionGetter o.appName env.Name (Except.ok getter),
        Event.Version getter (Except.ok v)]) := by
    simp [shouldUpgradeEnv, hc]
  rw [hs]
  simp only [Bool.not_true, Bool.false_eq_true, if_false, Act.emit_apply,
    List.append_assoc, List.cons_append, List.nil_append]
  unfold upgradeDeferred
  simp only [Act.bind_apply, Act.call_apply, Act.emit_apply, List.append_assoc,
    List.cons_append, List.nil_append, hu]

/-- C11. `upgradeEnvironment` makes one call, an `UpgradeEnvironment` call,
and returns nil exactly when the call succeeds. The input of the call has the
target version, the name and domain of the application, the name of the
environment, the given bucket ARN, key ARN and URL mapping, the execution role
of the environment as deploy role and its telemetry settings. Without a stored
custom configuration the imported VPC and the adjusted VPC are nil, the
certificate list is empty and the ingress flag is false; with one, the four
fields are those of the configuration. In `upgrade`, for an environment below
the latest version and not on the legacy version, the target version of that
call is the latest version. -/
theorem upgradeEnvironment_input (p : Pkg) (o : envUpgradeOpts) (upgrader : Handle)
    (conf : config.Environment) (app : config.Application)
    (artifactBucketARN artifactBucketKeyARN : GoString) (urls : List (GoString × GoString))
    (fromVersion toVersion : GoString) (t : Trace) :
    ∃ input : deploy.CreateEnvironmentInput,
      (envUpgradeOpts.upgradeEnvironment o upgrader conf app artifactBucketARN
          artifactBucketKeyARN urls fromVersion toVersion t).2
        = t ++ [Event.UpgradeEnvironment upgrader input
            (o.UpgradeEnvironment t upgrader input)]
      ∧ ((envUpgradeOpts.upgradeEnvironment o upgrader conf app artifactBucketARN
          artifactBucketKeyARN urls fromVersion toVersion t).1 = Outcome.ok ()
          ↔ o.UpgradeEnvironment t upgrader input = none)
      ∧ input.Version = toVersion
      ∧ input.App.Name = app.Name
      ∧ input.App.Domain = app.Domain
      ∧ input.Name = conf.Name
      ∧ input.ArtifactBucketARN = artifactBucketARN
      ∧ input.ArtifactBucketKeyARN = artifactBucketKeyARN
      ∧ input.CustomResourcesURLs = urls
      ∧ input.CFNServiceRoleARN = conf.ExecutionRoleARN
      ∧ input.Telemetry = conf.Telemetry
      ∧ (conf.CustomConfig = none →
          input.ImportVPCConfig = none ∧ input.AdjustVPCConfig = none
            ∧ input.ImportCertARNs = [] ∧ input.AllowVPCIngress = false)
      ∧ (∀ c, conf.CustomConfig = some c →
          input.ImportVPCConfig = c.ImportVPC ∧ input.AdjustVPCConfig = c.VPCConfig
            ∧ input.ImportCertARNs = c.ImportCertARNs
            ∧ input.AllowVPCIngress = c.EnableInternalALBVPCIngress)
      ∧ (∀ (getter : Handle) (v : GoString),
          o.newEnvVersionGetter t o.appName conf.Name = Except.ok getter →
          o.Version (t ++ [Event.newEnvVersionGetter o.appName conf.Name (Except.ok getter)])
            getter = Except.ok v →
          semver.Compare v p.LatestEnvTemplateVersion < 0 →
          v ≠ p.LegacyEnvTemplateVersion →
          o.newTemplateUpgrader
            (t ++ [Event.newEnvVersionGetter o.appName conf.Name (Except.ok getter),
              Event.Version getter (Except.ok v),
              Event.Start (fmtEnvUpgradeStart (p.HighlightUserInput conf.Name) (p.Emphasize v)
                (p.Emphasize p.LatestEnvTemplateVersion))]) conf = Except.ok upgrader →
          ∃ res label,
            (envUpgradeOpts.upgrade p o conf app artifactBucketARN artifactBucketKeyARN
                urls t).2
              = t ++ [Event.newEnvVersionGetter o.appName conf.Name (Except.ok getter),
                  Event.Version getter (Except.ok v),
                  Event.Start (fmtEnvUpgradeStart (p.HighlightUserInput conf.Name)
                    (p.Emphasize v) (p.Emphasize p.LatestEnvTemplateVersion)),
                  Event.newTemplateUpgrader conf (Except.ok upgrader),
                  Event.UpgradeEnvironment upgrader
                    (envUpgradeOpts.versionedInput conf app artifactBucketARN
                      artifactBucketKeyARN urls p.LatestEnvTemplateVersion) res,
                  Event.Stop label]) := by
  refine ⟨envUpgradeOpts.versionedInput conf app artifactBucketARN artifactBucketKeyARN urls
    toVersion, ?_, ?_, rfl, rfl, rfl, rfl, rfl, rfl, rfl, rfl, rfl, ?_, ?_, ?_⟩
  · rw [envUpgradeOpts.upgradeEnvironment_eq]
  · rw [envUpgradeOpts.upgradeEnvironment_eq]
    simp only []
    generalize o.UpgradeEnvironment t upgrader _ = res
    cases res with
    | none => simp
    | some err => simp
  · intro hC
    simp [envUpgradeOpts.versionedInput, hC]
  · intro c hC
    simp [envUpgradeOpts.versionedInput, hC]
  · intro getter v hg hv hc hne hu
    rw [envUpgradeOpts.upgrade_attempted p o conf app artifactBucketARN artifactBucketKeyARN
      urls t getter upgrader v hg hv hc hu, if_neg hne,
      envUpgradeOpts.upgradeEnvironment_eq]
    generalize o.UpgradeEnvironment _ upgrader _ = res
    cases res with
    | none =>
      exact ⟨none, p.Ssuccessf (fmtEnvUpgradeComplete (p.HighlightUserInput conf.Name)
        (p.Emphasize p.LatestEnvTemplateVersion)), by simp⟩
    | some err =>
      exact ⟨some err, p.Serrorf (fmtEnvUpgradeFailed (p.HighlightUserInput conf.Name)
        (p.Emphasize p.LatestEnvTemplateVersion)), by simp⟩

/-- C11, on the scenario of the specification: the environment `prod` on
version `v1.9.0`, latest version `v1.14.0`, no custom network configuration.
`Execute` makes no permission patch, publishes the artifacts and issues one
`UpgradeEnvironment` call with target `v1.14.0` and no VPC override. -/
theorem upgradeEnvironment_input_witness :
    (∃ input : deploy.CreateEnvironmentInput,
      (envUpgradeOpts.upgradeEnvironment
          (Mock.prodOpts Mock.body [] "v1.9.0".toList none) 3 Mock.prod Mock.app
          "arn:aws:s3:::bucket".toList "key".toList [("script".toList, "url".toList)]
          "v1.9.0".toList "v1.14.0".toList []).2
        = [Event.UpgradeEnvironment 3 input none]
      ∧ input.Version = "v1.14.0".toList
      ∧ input.ImportVPCConfig = none ∧ input.AdjustVPCConfig = none
      ∧ input.ImportCertARNs = [] ∧ input.AllowVPCIngress = false)
    ∧ envUpgradeOpts.Execute (Mock.pkg "v1.14.0".toList "v1.9.0".toList [])
        (Mock.prodOpts Mock.body [] "v1.9.0".toList none) []
      = (Outcome.ok (),
          [Event.GetEnvironment "phonetool".toList "prod".toList (Except.ok Mock.prod),
            Event.GetApplication "phonetool".toList (Except.ok Mock.app),
            Event.GetAppResourcesByRegion Mock.app "us-west-2".toList
              (Except.ok { S3Bucket := "bucket".toList, KMSKeyARN := "key".toList }),
            Event.newEnvDeployer Mock.prod (Except.ok 1),
            Event.EnvironmentTemplate 1 "phonetool".toList "prod".toList
              (Except.ok Mock.body),
            Event.newS3 Mock.prod (Except.ok 4),
            Event.ZipAndUpload 4 "bucket".toList "script.zip".toList []
              (Except.ok "url".toList),
            Event.UploadEnvironmentCustomResources
              (Except.ok [("script".toList, "url".toList)]),
            Event.newEnvVersionGetter "phonetool".toList "prod".toList (Except.ok 2),
            Event.Version 2 (Except.ok "v1.9.0".toList),
            Event.Start (fmtEnvUpgradeStart "prod".toList "v1.9.0".toList "v1.14.0".toList),
            Event.newTemplateUpgrader Mock.prod (Except.ok 3),
            Event.UpgradeEnvironment 3
              { Version := "v1.14.0".toList
                App := { Name := "phonetool".toList }
                Name := "prod".toList
                CustomResourcesURLs := [("script".toList, "url".toList)]
                ArtifactBucketARN := "arn:aws:s3:::bucket".toList
                ArtifactBucketKeyARN := "key".toList
                CFNServiceRoleARN := "execRole".toList } none,
            Event.Stop ("v ".toList
              ++ fmtEnvUpgradeComplete "prod".toList "v1.14.0".toList)]) := by
  constructor
  · obtain ⟨input, h1, _, h3, _, _, _, _, _, _, _, _, h12, _, _⟩ :=
      upgradeEnvironment_input (Mock.pkg "v1.14.0".toList "v1.9.0".toList [])
        (Mock.prodOpts Mock.body [] "v1.9.0".toList none) 3 Mock.prod Mock.app
        "arn:aws:s3:::bucket".toList "key".toList [("script".toList, "url".toList)]
        "v1.9.0".toList "v1.14.0".toList []
    exact ⟨input, h1, h3, h12 rfl⟩
  · rfl

/-! ### The loop of `Execute` -/

theorem envUpgradeOpts.ExecuteLoop_cons_ok (p : Pkg) (o : envUpgradeOpts)
    (app : config.Application) (env : config.Environment) (rest : List config.Environment)
    (t t1 : Trace) (h : ExecuteEnv p o app env t = (Outcome.ok (), t1)) :
    ExecuteLoop p o app (env :: rest) t = ExecuteLoop p o app rest t1 := by
  rw [ExecuteLoop, Act.bind_apply, h]

theorem envUpgradeOpts.ExecuteLoop_cons_err (p : Pkg) (o : envUpgradeOpts)
    (app : config.Application) (env : config.Environment) (rest : List config.Environment)
    (t t1 : Trace) (e : GoError) (h : ExecuteEnv p o app env t = (Outcome.err e, t1)) :
    ExecuteLoop p o app (env :: rest) t = (Outcome.err e, t1) := by
  rw [ExecuteLoop, Act.bind_apply, h]

theorem envUpgradeOpts.ExecuteLoop_all_ok (p : Pkg) (o : envUpgradeOpts)
    (app : config.Application) (envs : List config.Environment)
    (h : ∀ env ∈ envs, ∀ t, (ExecuteEnv p o app env t).1 = Outcome.ok ()) (t : Trace) :
    (ExecuteLoop p o app envs t).1 = Outcome.ok () := by
  induction envs generalizing t with
  | nil => rfl
  | cons env rest ih =>
    have h1 := h env (by simp) t
    rcases hx : ExecuteEnv p o app env t with ⟨out, t1⟩
    rw [hx] at h1
    simp only at h1
    subst h1
    rw [ExecuteLoop_cons_ok p o app env rest t t1 hx]
    exact ih (fun e he => h e (by simp [he])) t1

theorem envUpgradeOpts.Execute_eq_loop (p : Pkg) (o : envUpgradeOpts) (t t1 : Trace)
    (envs : List config.Environment) (app : config.Application)
    (hl : listEnvsToUpgrade o t = (Outcome.ok envs, t1))
    (ha : o.GetApplication t1 o.appName = Except.ok app) :
    Execute p o t
      = ExecuteLoop p o app envs (t1 ++ [Event.GetApplication o.appName (Except.ok app)]) := by
  unfold Execute
  rw [Act.bind_apply, hl]
  simp only [Act.bind_apply, Act.call_apply, ha]

/-- C14. When the version of an environment is read and is equal to or above
the latest version, `upgrade` returns nil after the two calls that read the
version and one log line: no template upgrader is created, no upgrade call is
made, and the progress sink is neither started nor stopped. The loop of
`Execute` goes on with the next environment after an environment that returned
nil, and `Execute` returns nil when every environment does. -/
theorem upgrade_skips_current_version (p : Pkg) (o : envUpgradeOpts)
    (env : config.Environment) (app : config.Application)
    (artifactBucketARN artifactBucketKeyARN : GoString) (urls : List (GoString × GoString))
    (t : Trace) (getter : Handle) (v : GoString)
    (hg : o.newEnvVersionGetter t o.appName env.Name = Except.ok getter)
    (hv : o.Version (t ++ [Event.newEnvVersionGetter o.appName env.Name (Except.ok getter)])
      getter = Except.ok v)
    (hc : 0 ≤ semver.Compare v p.LatestEnvTemplateVersion) :
    envUpgradeOpts.upgrade p o env app artifactBucketARN artifactBucketKeyARN urls t
      = (Outcome.ok (),
          t ++ [Event.newEnvVersionGetter o.appName env.Name (Except.ok getter),
            Event.Version getter (Except.ok v),
            Event.Debugln
              (if 0 < semver.Compare v p.LatestEnvTemplateVersion
                then msgVersionSkew env.Name p.LatestEnvTemplateVersion v
                else msgAlreadyLatest env.Name p.LatestEnvTemplateVersion)])
    ∧ (∀ (rest : List config.Environment) (t0 t1 : Trace),
        envUpgradeOpts.ExecuteEnv p o app env t0 = (Outcome.ok (), t1) →
        envUpgradeOpts.ExecuteLoop p o app (env :: rest) t0
          = envUpgradeOpts.ExecuteLoop p o app rest t1)
    ∧ (∀ (envs : List config.Environment) (t0 t1 : Trace),
        envUpgradeOpts.listEnvsToUpgrade o t0 = (Outcome.ok envs, t1) →
        o.GetApplication t1 o.appName = Except.ok app →
        (∀ e ∈ envs, ∀ t2, (envUpgradeOpts.ExecuteEnv p o app e t2).1 = Outcome.ok ()) →
        (envUpgradeOpts.Execute p o t0).1 = Outcome.ok ()) := by
  refine ⟨envUpgradeOpts.upgrade_skipped p o env app artifactBucketARN artifactBucketKeyARN
    urls t getter v hg hv hc, ?_, ?_⟩
  · intro rest t0 t1 h
    exact envUpgradeOpts.ExecuteLoop_cons_ok p o app env rest t0 t1 h
  · intro envs t0 t1 hl ha hall
    rw [envUpgradeOpts.Execute_eq_loop p o t0 t1 envs app hl ha]
    exact envUpgradeOpts.ExecuteLoop_all_ok p o app envs hall _

/-- C14, on the environment `test` on version `v1.10.0` with latest version
`v1.9.0`: the upgrade is skipped with the advisory message. -/
theorem upgrade_skips_current_version_witness :
    envUpgradeOpts.upgrade (Mock.pkg "v1.9.0".toList "v1.10.0".toList [])
        (Mock.opts Mock.body [] "v1.10.0".toList none) Mock.env Mock.app
        "arn:aws:s3:::bucket".toList "key".toList [] []
      = (Outcome.ok (),
          [Event.newEnvVersionGetter "phonetool".toList "test".toList (Except.ok 2),
            Event.Version 2 (Except.ok "v1.10.0".toList),
            Event.Debugln (msgVersionSkew "test".toList "v1.9.0".toList "v1.10.0".toList)]) :=
  (upgrade_skips_current_version (Mock.pkg "v1.9.0".toList "v1.10.0".toList [])
    (Mock.opts Mock.body [] "v1.10.0".toList none) Mock.env Mock.app
    "arn:aws:s3:::bucket".toList "key".toList [] [] 2 "v1.10.0".toList rfl rfl
    (by decide)).1

/-! ### What the upgrade input carries -/

/-- C12 (defect of the code). For a legacy environment with a customised
template and a stored custom configuration, `Execute` publishes the custom
resources and gets the URL mapping of `script`, and the bucket `bucket` and
the key `key` are discovered for the region; yet the input of the
`UpgradeLegacyEnvironment` call that follows has no URL mapping, an empty
bucket ARN and an empty key ARN. The inputs of the versioned path and of the
default-shape branch do carry the three. -/
theorem vpcOverrides_input_lacks_resources :
    envUpgradeOpts.Execute (Mock.pkg "v1.9.0".toList [] [{ Line := 7, Column := 13 }])
        (Mock.customOpts Mock.body "canonical".toList "v0.0.0".toList none) []
      = (Outcome.ok (),
          [Event.GetEnvironment "phonetool".toList "test".toList (Except.ok Mock.customEnv),
            Event.GetApplication "phonetool".toList (Except.ok Mock.app),
            Event.GetAppResourcesByRegion Mock.app "us-west-2".toList
              (Except.ok { S3Bucket := "bucket".toList, KMSKeyARN := "key".toList }),
            Event.newEnvDeployer Mock.customEnv (Except.ok 1),
            Event.EnvironmentTemplate 1 "phonetool".toList "test".toList
              (Except.ok Mock.body),
            Event.Start envUpgradeOpts.msgUpdateManagerRole,
            Event.UpdateEnvironmentTemplate 1 "phonetool".toList "test".toList Mock.patched
              "execRole".toList none,
            Event.Stop ("v ".toList ++ envUpgradeOpts.msgUpdated ++ "\n".toList),
            Event.newS3 Mock.customEnv (Except.ok 4),
            Event.ZipAndUpload 4 "bucket".toList "script.zip".toList []
              (Except.ok "url".toList),
            Event.UploadEnvironmentCustomResources
              (Except.ok [("script".toList, "url".toList)]),
            Event.newEnvVersionGetter "phonetool".toList "test".toList (Except.ok 2),
            Event.Version 2 (Except.ok "v0.0.0".toList),
            Event.Start (fmtEnvUpgradeStart "test".toList "v0.0.0".toList "v1.9.0".toList),
            Event.newTemplateUpgrader Mock.customEnv (Except.ok 3),
            Event.Template (Except.ok "canonical".toList),
            Event.EnvironmentTemplate 3 "phonetool".toList "test".toList
              (Except.ok Mock.body),
            Event.ListServices "phonetool".toList
              (Except.ok [{ App := "phonetool".toList, Name := "frontend".toList,
                            Type_ := "Load Balanced Web Service".toList }]),
            Event.UpgradeLegacyEnvironment 3
              { Version := "v1.9.0".toList
                App := { Name := "phonetool".toList }
                Name := "test".toList
                CustomResourcesURLs := []
                ArtifactBucketARN := []
                ArtifactBucketKeyARN := []
                ImportVPCConfig := some { ID := "vpc-1".toList
                                          PrivateSubnetIDs := ["subnet1".toList, "subnet2".toList] }
                ImportCertARNs := ["cert1".toList, "cert2".toList]
                AllowVPCIngress := true
                CFNServiceRoleARN := "execRole".toList }
              ["frontend".toList] none,
            Event.Stop ("v ".toList
              ++ fmtEnvUpgradeComplete "test".toList "v1.9.0".toList)])
    ∧ (∀ (conf : config.Environment) (app : config.Application)
        (artifactBucketARN artifactBucketKeyARN : GoString)
        (urls : List (GoString × GoString)) (toVersion : GoString),
        (envUpgradeOpts.versionedInput conf app artifactBucketARN artifactBucketKeyARN urls
            toVersion).CustomResourcesURLs = urls
        ∧ (envUpgradeOpts.versionedInput conf app artifactBucketARN artifactBucketKeyARN urls
            toVersion).ArtifactBucketARN = artifactBucketARN
        ∧ (envUpgradeOpts.versionedInput conf app artifactBucketARN artifactBucketKeyARN urls
            toVersion).ArtifactBucketKeyARN = artifactBucketKeyARN
        ∧ (envUpgradeOpts.defaultLegacyInput conf app artifactBucketARN artifactBucketKeyARN
            urls toVersion).CustomResourcesURLs = urls
        ∧ (envUpgradeOpts.defaultLegacyInput conf app artifactBucketARN artifactBucketKeyARN
            urls toVersion).ArtifactBucketARN = artifactBucketARN
        ∧ (envUpgradeOpts.defaultLegacyInput conf app artifactBucketARN artifactBucketKeyARN
            urls toVersion).ArtifactBucketKeyARN = artifactBucketKeyARN) := by
  constructor
  · rfl
  · intro conf app artifactBucketARN artifactBucketKeyARN urls toVersion
    exact ⟨rfl, rfl, rfl, rfl, rfl, rfl⟩

/-! ### A version string that is not a semantic version -/

theorem semver.Compare_invalid_valid (v w : GoString) (hv : semver.IsValid v = false)
    (hw : semver.IsValid w = true) : semver.Compare v w = -1 := by
  unfold semver.IsValid at hv hw
  unfold semver.Compare
  cases hpv : semver.parse v with
  | some pv => simp [hpv] at hv
  | none =>
    cases hpw : semver.parse w with
    | none => simp [hpw] at hw
    | some pw => rfl

/-- An attempted upgrade of an environment that is not on the legacy version:
the versioned path, with one `UpgradeEnvironment` call for the latest
version. -/
theorem envUpgradeOpts.upgrade_versioned (p : Pkg) (o : envUpgradeOpts)
    (env : config.Environment) (app : config.Application)
    (artifactBucketARN artifactBucketKeyARN : GoString) (urls : List (GoString × GoString))
    (t : Trace) (getter upgrader : Handle) (v : GoString)
    (hg : o.newEnvVersionGetter t o.appName env.Name = Except.ok getter)
    (hv : o.Version (t ++ [Event.newEnvVersionGetter o.appName env.Name (Except.ok getter)])
      getter = Except.ok v)
    (hc : semver.Compare v p.LatestEnvTemplateVersion < 0)
    (hu : o.newTemplateUpgrader
      (t ++ [Event.newEnvVersionGetter o.appName env.Name (Except.ok getter),
        Event.Version getter (Except.ok v),
        Event.Start (fmtEnvUpgradeStart (p.HighlightUserInput env.Name) (p.Emphasize v)
          (p.Emphasize p.LatestEnvTemplateVersion))]) env = Except.ok upgrader)
    (hne : v ≠ p.LegacyEnvTemplateVersion) :
    ∃ res label,
      (upgrade p o env app artifactBucketARN artifactBucketKeyARN urls t).2
        = t ++ [Event.newEnvVersionGetter o.appName env.Name (Except.ok getter),
            Event.Version getter (Except.ok v),
            Event.Start (fmtEnvUpgradeStart (p.HighlightUserInput env.Name) (p.Emphasize v)
              (p.Emphasize p.LatestEnvTemplateVersion)),
            Event.newTemplateUpgrader env (Except.ok upgrader),
            Event.UpgradeEnvironment upgrader
              (versionedInput env app artifactBucketARN artifactBucketKeyARN urls
                p.LatestEnvTemplateVersion) res,
            Event.Stop label]
      ∧ ((upgrade p o env app artifactBucketARN artifactBucketKeyARN urls t).1
          = Outcome.ok () ↔ res = none) := by
  rw [upgrade_attempted p o env app artifactBucketARN artifactBucketKeyARN urls t getter
    upgrader v hg hv hc hu, if_neg hne, upgradeEnvironment_eq]
  generalize o.UpgradeEnvironment _ upgrader _ = res
  cases res with
  | none =>
    exact ⟨none, p.Ssuccessf (fmtEnvUpgradeComplete (p.HighlightUserInput env.Name)
      (p.Emphasize p.LatestEnvTemplateVersion)), by simp⟩
  | some err =>
    exact ⟨some err, p.Serrorf (fmtEnvUpgradeFailed (p.HighlightUserInput env.Name)
      (p.Emphasize p.LatestEnvTemplateVersion)), by simp⟩

/-- C15, as stated, fails: the version string `1.8.0`, without the leading
`v`, is not a valid semantic version, and `upgrade` takes the versioned path
with it: it calls `UpgradeEnvironment`, and makes none of the calls of the
legacy path. -/
theorem invalid_version_takes_versioned_path :
    semver.IsValid "1.8.0".toList = false
    ∧ envUpgradeOpts.upgrade (Mock.pkg "v1.9.0".toList [] [])
        (Mock.opts Mock.body [] "1.8.0".toList none) Mock.env Mock.app
        "arn:aws:s3:::bucket".toList "key".toList [] []
      = (Outcome.ok (),
          [Event.newEnvVersionGetter "phonetool".toList "test".toList (Except.ok 2),
            Event.Version 2 (Except.ok "1.8.0".toList),
            Event.Start (fmtEnvUpgradeStart "test".toList "1.8.0".toList "v1.9.0".toList),
            Event.newTemplateUpgrader Mock.env (Except.ok 3),
            Event.UpgradeEnvironment 3
              { Version := "v1.9.0".toList
                App := { Name := "phonetool".toList }
                Name := "test".toList
                ArtifactBucketARN := "arn:aws:s3:::bucket".toList
                ArtifactBucketKeyARN := "key".toList
                CFNServiceRoleARN := "execRole".toList } none,
            Event.Stop ("v ".toList
              ++ fmtEnvUpgradeComplete "test".toList "v1.9.0".toList)]) := by
  constructor
  · decide
  · rfl

/-- C15, amended. A current-version string that is not a valid semantic
version compares below a valid latest version, so `upgrade` attempts the
upgrade; when the legacy version is itself a valid version the string differs
from it, and `upgrade` takes the versioned path: one `UpgradeEnvironment` call
for the latest version, and no call of the legacy path. The legacy path is
taken for the string equal to `deploy.LegacyEnvTemplateVersion` only. -/
theorem upgrade_invalid_version (p : Pkg) (o : envUpgradeOpts)
    (env : config.Environment) (app : config.Application)
    (artifactBucketARN artifactBucketKeyARN : GoString) (urls : List (GoString × GoString))
    (t : Trace) (getter upgrader : Handle) (v : GoString)
    (hg : o.newEnvVersionGetter t o.appName env.Name = Except.ok getter)
    (hv : o.Version (t ++ [Event.newEnvVersionGetter o.appName env.Name (Except.ok getter)])
      getter = Except.ok v)
    (hinv : semver.IsValid v = false)
    (hlatest : semver.IsValid p.LatestEnvTemplateVersion = true)
    (hlegacy : semver.IsValid p.LegacyEnvTemplateVersion = true)
    (hu : o.newTemplateUpgrader
      (t ++ [Event.newEnvVersionGetter o.appName env.Name (Except.ok getter),
        Event.Version getter (Except.ok v),
        Event.Start (fmtEnvUpgradeStart (p.HighlightUserInput env.Name) (p.Emphasize v)
          (p.Emphasize p.LatestEnvTemplateVersion))]) env = Except.ok upgrader) :
    semver.Compare v p.LatestEnvTemplateVersion = -1
    ∧ v ≠ p.LegacyEnvTemplateVersion
    ∧ ∃ res label,
        (envUpgradeOpts.upgrade p o env app artifactBucketARN artifactBucketKeyARN urls t).2
          = t ++ [Event.newEnvVersionGetter o.appName env.Name (Except.ok getter),
              Event.Version getter (Except.ok v),
              Event.Start (fmtEnvUpgradeStart (p.HighlightUserInput env.Name) (p.Emphasize v)
                (p.Emphasize p.LatestEnvTemplateVersion)),
              Event.newTemplateUpgrader env (Except.ok upgrader),
              Event.UpgradeEnvironment upgrader
                (envUpgradeOpts.versionedInput env app artifactBucketARN artifactBucketKeyARN
                  urls p.LatestEnvTemplateVersion) res,
              Event.Stop label]
        ∧ ((envUpgradeOpts.upgrade p o env app artifactBucketARN artifactBucketKeyARN urls
              t).1 = Outcome.ok () ↔ res = none) := by
  have hc := semver.Compare_invalid_valid v p.LatestEnvTemplateVersion hinv hlatest
  have hne : v ≠ p.LegacyEnvTemplateVersion := by
    intro h
    rw [h, hlegacy] at hinv
    simp at hinv
  exact ⟨hc, hne, envUpgradeOpts.upgrade_versioned p o env app artifactBucketARN
    artifactBucketKeyARN urls t getter upgrader v hg hv (by omega) hu hne⟩

/-- C15, amended, on the version string `latest`, which is no semantic
version: the versioned path is taken. -/
theorem upgrade_invalid_version_witness :
    ∃ res label,
      (envUpgradeOpts.upgrade (Mock.pkg "v1.9.0".toList [] [])
          (Mock.opts Mock.body [] "latest".toList none) Mock.env Mock.app
          "arn:aws:s3:::bucket".toList "key".toList [] []).2
        = [Event.newEnvVersionGetter "phonetool".toList "test".toList (Except.ok 2),
            Event.Version 2 (Except.ok "latest".toList),
            Event.Start (fmtEnvUpgradeStart "test".toList "latest".toList "v1.9.0".toList),
            Event.newTemplateUpgrader Mock.env (Except.ok 3),
            Event.UpgradeEnvironment 3
              (envUpgradeOpts.versionedInput Mock.env Mock.app "arn:aws:s3:::bucket".toList
                "key".toList [] "v1.9.0".toList) res,
            Event.Stop label] := by
  obtain ⟨_, _, res, label, h, _⟩ :=
    upgrade_invalid_version (Mock.pkg "v1.9.0".toList [] [])
      (Mock.opts Mock.body [] "latest".toList none) Mock.env Mock.app
      "arn:aws:s3:::bucket".toList "key".toList [] [] 2 3 "latest".toList rfl rfl
      (by decide) (by decide) (by decide) rfl
  exact ⟨res, label, h⟩

/-! ### Patching a patched body -/

/-- Whenever `updatedBody` returns a body, that body is the original with the
eight indented lines of the statement inserted at the index `Line - 1`. -/
theorem envUpgradeOpts.updatedBody_ok (node : yaml.Node) (body bucketARN updated : GoString)
    (h : updatedBody node body bucketARN = Except.ok updated) (hA : '\n' ∉ bucketARN) :
    (node.Line - 1).toNat ≤ (strings.Split body).length
    ∧ updated = strings.Join
        ((strings.Split body).take (node.Line - 1).toNat
          ++ ((permissionLines bucketARN).map
                (fun l => List.replicate (node.Column - 1).toNat ' ' ++ l)
              ++ (strings.Split body).drop (node.Line - 1).toNat))
    ∧ strings.Split updated
        = (strings.Split body).take (node.Line - 1).toNat
          ++ ((permissionLines bucketARN).map
                (fun l => List.replicate (node.Column - 1).toNat ' ' ++ l)
              ++ (strings.Split body).drop (node.Line - 1).toNat) := by
  have hpad : ∀ l ∈ (permissionLines bucketARN).map
      (fun l => List.replicate (node.Column - 1).toNat ' ' ++ l), '\n' ∉ l := by
    intro l hl
    rcases List.mem_map.mp hl with ⟨l0, hl0, rfl⟩
    have := permissionLines_no_newline bucketARN hA l0 hl0
    simp [this]
  have hlines : ∀ l ∈ (strings.Split body).take (node.Line - 1).toNat
      ++ ((permissionLines bucketARN).map
            (fun l => List.replicate (node.Column - 1).toNat ' ' ++ l)
          ++ (strings.Split body).drop (node.Line - 1).toNat), '\n' ∉ l := by
    intro l hl
    rcases List.mem_append.mp hl with h1 | h1
    · exact strings.Split_mem_no_newline body l (List.mem_of_mem_take h1)
    · rcases List.mem_append.mp h1 with h2 | h2
      · exact hpad l h2
      · exact strings.Split_mem_no_newline body l (List.mem_of_mem_drop h2)
  unfold updatedBody at h
  by_cases hneg : node.Column - 1 < 0
  · have hrep : strings.Repeat (node.Column - 1) = none := by
      unfold strings.Repeat
      rw [if_pos hneg]
    simp only [hrep] at h
    cases h
  · have hrep : strings.Repeat (node.Column - 1)
        = some (List.replicate (node.Column - 1).toNat ' ') := by
      unfold strings.Repeat
      rw [if_neg hneg]
    by_cases hidx : node.Line - 1 < 0 ∨ ((strings.Split body).length : Int) < node.Line - 1
    · simp only [hrep, hidx, if_true] at h
      cases h
    · simp only [hrep, hidx, if_false, Except.ok.injEq] at h
      rw [permissionsText_eq_Join,
        strings.Replace_Join _ _ (by simp [permissionLines])
          (permissionLines_no_newline bucketARN hA),
        strings.Split_Join _ (by simp [permissionLines]) hpad] at h
      refine ⟨by omega, h.symm, ?_⟩
      rw [← h]
      exact strings.Split_Join _ (by simp [permissionLines]) hlines

theorem envUpgradeOpts.updatedBody_adds_eight_lines (node : yaml.Node)
    (body bucketARN updated : GoString)
    (h : updatedBody node body bucketARN = Except.ok updated) (hA : '\n' ∉ bucketARN) :
    (strings.Split updated).length = (strings.Split body).length + 8 := by
  obtain ⟨hk, _, hs⟩ := updatedBody_ok node body bucketARN updated h hA
  rw [hs]
  simp only [List.length_append, List.length_take, List.length_map, List.length_drop,
    permissionLines, List.length_cons, List.length_nil]
  omega

/-- What `grantManagerRolePermissionToUpload` submits: the body that
`updatedBody` returns for the statement node of the first policy. -/
theorem envUpgradeOpts.grant_submits (p : Pkg) (o : envUpgradeOpts) (cfn : Handle)
    (app env execRole body bucketARN updated : GoString) (t : Trace) (node : yaml.Node)
    (rest : List yaml.Node)
    (hU : p.UnmarshalPolicies body = Except.ok (node :: rest))
    (hB : updatedBody node body bucketARN = Except.ok updated) :
    ∃ label,
      (grantManagerRolePermissionToUpload p o cfn app env execRole body bucketARN t).2
        = t ++ [Event.Start msgUpdateManagerRole,
            Event.UpdateEnvironmentTemplate cfn app env updated execRole
              (o.UpdateEnvironmentTemplate (t ++ [Event.Start msgUpdateManagerRole]) cfn app
                env updated execRole),
            Event.Stop label] := by
  unfold grantManagerRolePermissionToUpload
  rw [hU]
  simp only [hB]
  rcases hres : o.UpdateEnvironmentTemplate (t ++ [Event.Start msgUpdateManagerRole]) cfn
      app env updated execRole with _ | err
  · exact ⟨p.Ssuccessln msgUpdated,
      by simp [bind, Act.andThen, Act.emit, Act.call, hres, pure, Act.ret]⟩
  · by_cases hE : err.AsErrChangeSetEmpty = true
    · exact ⟨p.Ssuccessln msgUpdated,
        by simp [bind, Act.andThen, Act.emit, Act.call, hres, pure, Act.ret, hE]⟩
    · exact ⟨p.Serrorln msgUnableToUpdate,
        by simp [bind, Act.andThen, Act.emit, Act.call, hres, pure, Act.ret, hE, Act.fail]⟩

/-- C19, as stated, fails: the patch of the patched body is not the patched
body. On the template of seven lines the first patch gives the body with the
statement once, and the patch of that body, whose statement list starts at the
same line 7 and column 13, gives the body with the statement twice, which the
second run submits. -/
theorem patch_of_patched_body_differs :
    envUpgradeOpts.updatedBody { Line := 7, Column := 13 } Mock.body
        "arn:aws:s3:::bucket".toList = Except.ok Mock.patched
    ∧ envUpgradeOpts.updatedBody { Line := 7, Column := 13 } Mock.patched
        "arn:aws:s3:::bucket".toList = Except.ok Mock.patchedTwice
    ∧ Mock.patchedTwice ≠ Mock.patched
    ∧ (envUpgradeOpts.grantManagerRolePermissionToUpload
          (Mock.pkg [] [] [{ Line := 7, Column := 13 }]) (Mock.opts Mock.patched [] [] none) 1
          "phonetool".toList "test".toList "execRole".toList Mock.patched
          "arn:aws:s3:::bucket".toList []).2
        = [Event.Start envUpgradeOpts.msgUpdateManagerRole,
            Event.UpdateEnvironmentTemplate 1 "phonetool".toList "test".toList
              Mock.patchedTwice "execRole".toList none,
            Event.Stop ("v ".toList ++ envUpgradeOpts.msgUpdated ++ "\n".toList)] := by
  refine ⟨by rfl, by rfl, ?_, by rfl⟩
  intro h
  have hlen := envUpgradeOpts.updatedBody_adds_eight_lines { Line := 7, Column := 13 }
    Mock.patched "arn:aws:s3:::bucket".toList Mock.patchedTwice (by rfl) (by decide)
  rw [h] at hlen
  omega

/-- C19, amended. The permission patch is not idempotent on the template
text. For a bucket ARN without a line break, when the patch of a body is built
and the patch of that patched body is built, each patch adds eight lines, so
the second body has eight lines more than the patched body and is never equal
to it; when the statement list of the patched body starts at the same line and
column, the second body has the eight statement lines twice, one copy after
the other. The second run submits that longer body to
`UpdateEnvironmentTemplate`. -/
theorem patch_is_not_idempotent (node node2 : yaml.Node)
    (body bucketARN updated updated2 : GoString)
    (h1 : envUpgradeOpts.updatedBody node body bucketARN = Except.ok updated)
    (h2 : envUpgradeOpts.updatedBody node2 updated bucketARN = Except.ok updated2)
    (hA : '\n' ∉ bucketARN) :
    (strings.Split updated).length = (strings.Split body).length + 8
    ∧ (strings.Split updated2).length = (strings.Split updated).length + 8
    ∧ updated2 ≠ updated
    ∧ (node2 = node →
        strings.Split updated2
          = (strings.Split body).take (node.Line - 1).toNat
            ++ ((envUpgradeOpts.permissionLines bucketARN).map
                  (fun l => List.replicate (node.Column - 1).toNat ' ' ++ l)
                ++ ((envUpgradeOpts.permissionLines bucketARN).map
                      (fun l => List.replicate (node.Column - 1).toNat ' ' ++ l)
                    ++ (strings.Split body).drop (node.Line - 1).toNat)))
    ∧ (∀ (p : Pkg) (o : envUpgradeOpts) (cfn : Handle) (app env execRole : GoString)
        (t : Trace) (rest : List yaml.Node),
        p.UnmarshalPolicies updated = Except.ok (node2 :: rest) →
        ∃ label,
          (envUpgradeOpts.grantManagerRolePermissionToUpload p o cfn app env execRole updated
              bucketARN t).2
            = t ++ [Event.Start envUpgradeOpts.msgUpdateManagerRole,
                Event.UpdateEnvironmentTemplate cfn app env updated2 execRole
                  (o.UpdateEnvironmentTemplate
                    (t ++ [Event.Start envUpgradeOpts.msgUpdateManagerRole]) cfn app env
                    updated2 execRole),
                Event.Stop label]) := by
  have hlen1 := envUpgradeOpts.updatedBody_adds_eight_lines node body bucketARN updated h1 hA
  have hlen2 := envUpgradeOpts.updatedBody_adds_eight_lines node2 updated bucketARN updated2
    h2 hA
  refine ⟨hlen1, hlen2, ?_, ?_, ?_⟩
  · intro heq
    rw [heq] at hlen2
    omega
  · intro hn
    subst hn
    obtain ⟨hk, _, hs1⟩ := envUpgradeOpts.updatedBody_ok node2 body bucketARN updated h1 hA
    obtain ⟨_, _, hs2⟩ := envUpgradeOpts.updatedBody_ok node2 updated bucketARN updated2 h2 hA
    rw [hs2, hs1]
    have hlen : ((strings.Split body).take (node2.Line - 1).toNat).length
        = (node2.Line - 1).toNat := by
      rw [List.length_take]
      omega
    rw [List.take_append_of_le_length (by omega), List.take_of_length_le (by omega),
      List.drop_append_of_le_length (by omega), List.drop_of_length_le (by omega),
      List.nil_append]
  · intro p o cfn app env execRole t rest hU
    exact envUpgradeOpts.grant_submits p o cfn app env execRole updated bucketARN updated2 t
      node2 rest hU h2

/-- C19, amended, on the template of seven lines: the second patch has eight
lines more than the first, which has eight lines more than the template. -/
theorem patch_is_not_idempotent_witness :
    (strings.Split Mock.patched).length = (strings.Split Mock.body).length + 8
    ∧ (strings.Split Mock.patchedTwice).length = (strings.Split Mock.patched).length + 8
    ∧ Mock.patchedTwice ≠ Mock.patched :=
  have h := patch_is_not_idempotent { Line := 7, Column := 13 } { Line := 7, Column := 13 }
    Mock.body "arn:aws:s3:::bucket".toList Mock.patched Mock.patchedTwice (by rfl) (by rfl)
    (by decide)
  ⟨h.1, h.2.1, h.2.2.1⟩

/-! ### The upgrade calls of `upgrade` -/

/-- The upgrade calls of the legacy resolver when the two templates are read
and the services are listed: one `UpgradeLegacyEnvironment` call for the target
version when the template is the canonical one or the record has a custom
configuration, none otherwise. -/
theorem envUpgradeOpts.upgradeLegacyEnvironment_calls (p : Pkg) (o : envUpgradeOpts)
    (upgrader : Handle) (conf : config.Environment) (app : config.Application)
    (artifactBucketARN artifactBucketKeyARN : GoString) (urls : List (GoString × GoString))
    (fromVersion toVersion canonical actual : GoString) (t : Trace)
    (services : List config.Workload)
    (hT : o.Template t = Except.ok canonical)
    (hA : o.EnvironmentTemplate (t ++ [Event.Template (Except.ok canonical)]) upgrader
      conf.App conf.Name = Except.ok actual)
    (hS : o.ListServices (t ++ [Event.Template (Except.ok canonical),
        Event.EnvironmentTemplate upgrader conf.App conf.Name (Except.ok actual)]) o.appName
      = Except.ok services) :
    ∃ d, (upgradeLegacyEnvironment p o upgrader conf app artifactBucketARN
          artifactBucketKeyARN urls fromVersion toVersion t).2 = t ++ d
      ∧ (canonical = actual ∨ conf.CustomConfig ≠ none →
          ∃ input res, input.Version = toVersion
            ∧ d.filter Event.isUpgradeCall
              = [Event.UpgradeLegacyEnvironment upgrader input (lbWebServiceNames p services)
                  res])
      ∧ (canonical ≠ actual → conf.CustomConfig = none →
          d.filter Event.isUpgradeCall = []
          ∧ (upgradeLegacyEnvironment p o upgrader conf app artifactBucketARN
              artifactBucketKeyARN urls fromVersion toVersion t).1
            = Outcome.err errMissingVPCConfig) := by
  rw [upgradeLegacyEnvironment_listed p o upgrader conf app artifactBucketARN
    artifactBucketKeyARN urls fromVersion toVersion canonical actual t services hT hA hS]
  by_cases heq : canonical = actual
  · rw [if_pos heq]
    refine ⟨_, rfl, ?_, fun hne => absurd heq hne⟩
    intro _
    exact ⟨defaultLegacyInput conf app artifactBucketARN artifactBucketKeyARN urls toVersion,
      _, rfl, rfl⟩
  · rw [if_neg heq]
    cases hC : conf.CustomConfig with
    | none =>
      rw [withVPCOverrides_none o upgrader conf fromVersion toVersion _ _ hC]
      refine ⟨_, by simp only [List.append_assoc]; rfl, ?_, ?_⟩
      · rintro (h | h)
        · exact absurd h heq
        · exact absurd rfl h
      · intro _ _
        exact ⟨by simp [Event.isUpgradeCall, List.filter], rfl⟩
    | some c =>
      rw [withVPCOverrides_some o upgrader conf c fromVersion toVersion _ _ hC]
      refine ⟨_, by simp only [List.append_assoc]; rfl, ?_, ?_⟩
      · intro _
        exact ⟨{ Version := toVersion
                 App := { Name := conf.App }
                 Name := conf.Name
                 ImportVPCConfig := c.ImportVPC
                 AdjustVPCConfig := c.VPCConfig
                 ImportCertARNs := c.ImportCertARNs
                 AllowVPCIngress := c.EnableInternalALBVPCIngress
                 CFNServiceRoleARN := conf.ExecutionRoleARN }, _, rfl, rfl⟩
      · intro _ h
        exact absurd h (by simp)

/-- An attempted upgrade returns what the upgrade path returns, and its trace
is the trace of the path followed by one stop of the progress sink. -/
theorem envUpgradeOpts.upgrade_attempted_trace (p : Pkg) (o : envUpgradeOpts)
    (env : config.Environment) (app : config.Application)
    (artifactBucketARN artifactBucketKeyARN : GoString) (urls : List (GoString × GoString))
    (t : Trace) (getter upgrader : Handle) (v : GoString)
    (hg : o.newEnvVersionGetter t o.appName env.Name = Except.ok getter)
    (hv : o.Version (t ++ [Event.newEnvVersionGetter o.appName env.Name (Except.ok getter)])
      getter = Except.ok v)
    (hc : semver.Compare v p.LatestEnvTemplateVersion < 0)
    (hu : o.newTemplateUpgrader
      (t ++ [Event.newEnvVersionGetter o.appName env.Name (Except.ok getter),
        Event.Version getter (Except.ok v),
        Event.Start (fmtEnvUpgradeStart (p.HighlightUserInput env.Name) (p.Emphasize v)
          (p.Emphasize p.LatestEnvTemplateVersion))]) env = Except.ok upgrader) :
    (upgrade p o env app artifactBucketARN artifactBucketKeyARN urls t).1
      = ((if v = p.LegacyEnvTemplateVersion then
            upgradeLegacyEnvironment p o upgrader env app artifactBucketARN
              artifactBucketKeyARN urls v p.LatestEnvTemplateVersion
          else
            upgradeEnvironment o upgrader env app artifactBucketARN artifactBucketKeyARN urls
              v p.LatestEnvTemplateVersion)
          (t ++ [Event.newEnvVersionGetter o.appName env.Name (Except.ok getter),
            Event.Version getter (Except.ok v),
            Event.Start (fmtEnvUpgradeStart (p.HighlightUserInput env.Name) (p.Emphasize v)
              (p.Emphasize p.LatestEnvTemplateVersion)),
            Event.newTemplateUpgrader env (Except.ok upgrader)])).1
    ∧ ∃ label, (upgrade p o env app artifactBucketARN artifactBucketKeyARN urls t).2
      = ((if v = p.LegacyEnvTemplateVersion then
            upgradeLegacyEnvironment p o upgrader env app artifactBucketARN
              artifactBucketKeyARN urls v p.LatestEnvTemplateVersion
          else
            upgradeEnvironment o upgrader env app artifactBucketARN artifactBucketKeyARN urls
              v p.LatestEnvTemplateVersion)
          (t ++ [Event.newEnvVersionGetter o.appName env.Name (Except.ok getter),
            Event.Version getter (Except.ok v),
            Event.Start (fmtEnvUpgradeStart (p.HighlightUserInput env.Name) (p.Emphasize v)
              (p.Emphasize p.LatestEnvTemplateVersion)),
            Event.newTemplateUpgrader env (Except.ok upgrader)])).2 ++ [Event.Stop label] := by
  rw [upgrade_attempted p o env app artifactBucketARN artifactBucketKeyARN urls t getter
    upgrader v hg hv hc hu]
  generalize (if v = p.LegacyEnvTemplateVersion then
            upgradeLegacyEnvironment p o upgrader env app artifactBucketARN
              artifactBucketKeyARN urls v p.LatestEnvTemplateVersion
          else
            upgradeEnvironment o upgrader env app artifactBucketARN artifactBucketKeyARN urls
              v p.LatestEnvTemplateVersion)
          (t ++ [Event.newEnvVersionGetter o.appName env.Name (Except.ok getter),
            Event.Version getter (Except.ok v),
            Event.Start (fmtEnvUpgradeStart (p.HighlightUserInput env.Name) (p.Emphasize v)
              (p.Emphasize p.LatestEnvTemplateVersion)),
            Event.newTemplateUpgrader env (Except.ok upgrader)]) = r
  rcases r with ⟨a | e | m, t1⟩
  · exact ⟨rfl, _, rfl⟩
  · exact ⟨rfl, _, rfl⟩
  · exact ⟨rfl, _, rfl⟩

/-- C20, as stated, fails: a legacy environment whose template is customised
and whose record has no custom configuration is below the latest version and
none of its collaborators fails, and `upgrade` makes no upgrade call for it: it
logs the warning, returns the dedicated error and stops the progress sink with
the failure message. -/
theorem legacy_without_vpc_config_makes_no_upgrade_call :
    semver.Compare "v0.0.0".toList "v1.9.0".toList < 0
    ∧ envUpgradeOpts.upgrade (Mock.pkg "v1.9.0".toList [] [])
        (Mock.opts Mock.body "canonical".toList "v0.0.0".toList none) Mock.env Mock.app
        "arn:aws:s3:::bucket".toList "key".toList [] []
      = (Outcome.err envUpgradeOpts.errMissingVPCConfig,
          [Event.newEnvVersionGetter "phonetool".toList "test".toList (Except.ok 2),
            Event.Version 2 (Except.ok "v0.0.0".toList),
            Event.Start (fmtEnvUpgradeStart "test".toList "v0.0.0".toList "v1.9.0".toList),
            Event.newTemplateUpgrader Mock.env (Except.ok 3),
            Event.Template (Except.ok "canonical".toList),
            Event.EnvironmentTemplate 3 "phonetool".toList "test".toList
              (Except.ok Mock.body),
            Event.ListServices "phonetool".toList
              (Except.ok [{ App := "phonetool".toList, Name := "frontend".toList,
                            Type_ := "Load Balanced Web Service".toList }]),
            Event.Warningln envUpgradeOpts.msgCustomizedVPC,
            Event.Stop ("x ".toList
              ++ fmtEnvUpgradeFailed "test".toList "v1.9.0".toList)])
    ∧ (envUpgradeOpts.upgrade (Mock.pkg "v1.9.0".toList [] [])
        (Mock.opts Mock.body "canonical".toList "v0.0.0".toList none) Mock.env Mock.app
        "arn:aws:s3:::bucket".toList "key".toList [] []).2.filter Event.isUpgradeCall = []
    ∧ (envUpgradeOpts.upgrade (Mock.pkg "v1.9.0".toList [] [])
        (Mock.opts Mock.body "canonical".toList "v0.0.0".toList none) Mock.env Mock.app
        "arn:aws:s3:::bucket".toList "key".toList [] []).2.any Event.isFailure = false := by
  refine ⟨by decide, by rfl, by rfl, by rfl⟩

/-- C20, amended. For an environment whose version is below the latest
version and whose collaborators do not fail before the final call, `upgrade`
makes at most one upgrade call, for the latest version. When the version is not
the legacy version, it is one `UpgradeEnvironment` call. When the version is
the legacy version and the template is the canonical one or the record has a
custom configuration, it is one `UpgradeLegacyEnvironment` call. When the
version is the legacy version, the template differs from the canonical one and
the record has no custom configuration, there is no upgrade call and `upgrade`
returns the error of the missing VPC configuration. -/
theorem upgrade_issues_at_most_one_upgrade_call (p : Pkg) (o : envUpgradeOpts)
    (env : config.Environment) (app : config.Application)
    (artifactBucketARN artifactBucketKeyARN : GoString) (urls : List (GoString × GoString))
    (t : Trace) (getter upgrader : Handle) (v canonical actual : GoString)
    (services : List config.Workload)
    (hg : o.newEnvVersionGetter t o.appName env.Name = Except.ok getter)
    (hv : o.Version (t ++ [Event.newEnvVersionGetter o.appName env.Name (Except.ok getter)])
      getter = Except.ok v)
    (hc : semver.Compare v p.LatestEnvTemplateVersion < 0)
    (hu : o.newTemplateUpgrader
      (t ++ [Event.newEnvVersionGetter o.appName env.Name (Except.ok getter),
        Event.Version getter (Except.ok v),
        Event.Start (fmtEnvUpgradeStart (p.HighlightUserInput env.Name) (p.Emphasize v)
          (p.Emphasize p.LatestEnvTemplateVersion))]) env = Except.ok upgrader)
    (hL : v = p.LegacyEnvTemplateVersion →
      o.Template
          (t ++ [Event.newEnvVersionGetter o.appName env.Name (Except.ok getter),
            Event.Version getter (Except.ok v),
            Event.Start (fmtEnvUpgradeStart (p.HighlightUserInput env.Name) (p.Emphasize v)
              (p.Emphasize p.LatestEnvTemplateVersion)),
            Event.newTemplateUpgrader env (Except.ok upgrader)]) = Except.ok canonical
      ∧ o.EnvironmentTemplate
          (t ++ [Event.newEnvVersionGetter o.appName env.Name (Except.ok getter),
            Event.Version getter (Except.ok v),
            Event.Start (fmtEnvUpgradeStart (p.HighlightUserInput env.Name) (p.Emphasize v)
              (p.Emphasize p.LatestEnvTemplateVersion)),
            Event.newTemplateUpgrader env (Except.ok upgrader)]
            ++ [Event.Template (Except.ok canonical)]) upgrader env.App env.Name
          = Except.ok actual
      ∧ o.ListServices
          (t ++ [Event.newEnvVersionGetter o.appName env.Name (Except.ok getter),
            Event.Version getter (Except.ok v),
            Event.Start (fmtEnvUpgradeStart (p.HighlightUserInput env.Name) (p.Emphasize v)
              (p.Emphasize p.LatestEnvTemplateVersion)),
            Event.newTemplateUpgrader env (Except.ok upgrader)]
            ++ [Event.Template (Except.ok canonical),
              Event.EnvironmentTemplate upgrader env.App env.Name (Except.ok actual)])
          o.appName = Except.ok services) :
    ∃ d, (envUpgradeOpts.upgrade p o env app artifactBucketARN artifactBucketKeyARN urls t).2
        = t ++ d
      ∧ (v ≠ p.LegacyEnvTemplateVersion →
          ∃ input res, input.Version = p.LatestEnvTemplateVersion
            ∧ d.filter Event.isUpgradeCall = [Event.UpgradeEnvironment upgrader input res])
      ∧ (v = p.LegacyEnvTemplateVersion → canonical = actual ∨ env.CustomConfig ≠ none →
          ∃ input res, input.Version = p.LatestEnvTemplateVersion
            ∧ d.filter Event.isUpgradeCall
              = [Event.UpgradeLegacyEnvironment upgrader input
                  (envUpgradeOpts.lbWebServiceNames p services) res])
      ∧ (v = p.LegacyEnvTemplateVersion → canonical ≠ actual → env.CustomConfig = none →
          d.filter Event.isUpgradeCall = []
          ∧ (envUpgradeOpts.upgrade p o env app artifactBucketARN artifactBucketKeyARN urls
              t).1 = Outcome.err envUpgradeOpts.errMissingVPCConfig) := by
  obtain ⟨h1, label, h2⟩ := envUpgradeOpts.upgrade_attempted_trace p o env app
    artifactBucketARN artifactBucketKeyARN urls t getter upgrader v hg hv hc hu
  by_cases hleg : v = p.LegacyEnvTemplateVersion
  · obtain ⟨hT, hA, hS⟩ := hL hleg
    rw [if_pos hleg] at h1 h2
    obtain ⟨d0, hd0, hone, hnone⟩ := envUpgradeOpts.upgradeLegacyEnvironment_calls p o upgrader
      env app artifactBucketARN artifactBucketKeyARN urls v p.LatestEnvTemplateVersion
      canonical actual _ services hT hA hS
    rw [hd0] at h2
    refine ⟨[Event.newEnvVersionGetter o.appName env.Name (Except.ok getter),
        Event.Version getter (Except.ok v),
        Event.Start (fmtEnvUpgradeStart (p.HighlightUserInput env.Name) (p.Emphasize v)
          (p.Emphasize p.LatestEnvTemplateVersion)),
        Event.newTemplateUpgrader env (Except.ok upgrader)] ++ d0 ++ [Event.Stop label],
      ?_, ?_, ?_, ?_⟩
    · rw [h2]
      simp only [List.append_assoc, List.cons_append, List.nil_append]
    · intro hne
      exact absurd hleg hne
    · intro _ hcase
      obtain ⟨input, res, hver, hf⟩ := hone hcase
      exact ⟨input, res, hver, by simp [List.filter_append, List.filter, Event.isUpgradeCall, hf]⟩
    · intro _ hne hC
      obtain ⟨hf, hres⟩ := hnone hne hC
      exact ⟨by simp [List.filter_append, List.filter, Event.isUpgradeCall, hf],
        by rw [h1, hres]⟩
  · rw [if_neg hleg] at h1 h2
    obtain ⟨res, hres⟩ : ∃ res,
        (envUpgradeOpts.upgradeEnvironment o upgrader env app artifactBucketARN
          artifactBucketKeyARN urls v p.LatestEnvTemplateVersion
          (t ++ [Event.newEnvVersionGetter o.appName env.Name (Except.ok getter),
            Event.Version getter (Except.ok v),
            Event.Start (fmtEnvUpgradeStart (p.HighlightUserInput env.Name) (p.Emphasize v)
              (p.Emphasize p.LatestEnvTemplateVersion)),
            Event.newTemplateUpgrader env (Except.ok upgrader)])).2
          = (t ++ [Event.newEnvVersionGetter o.appName env.Name (Except.ok getter),
            Event.Version getter (Except.ok v),
            Event.Start (fmtEnvUpgradeStart (p.HighlightUserInput env.Name) (p.Emphasize v)
              (p.Emphasize p.LatestEnvTemplateVersion)),
            Event.newTemplateUpgrader env (Except.ok upgrader)])
            ++ [Event.UpgradeEnvironment upgrader
              (envUpgradeOpts.versionedInput env app artifactBucketARN artifactBucketKeyARN
                urls p.LatestEnvTemplateVersion) res] :=
      ⟨_, by rw [envUpgradeOpts.upgradeEnvironment_eq]⟩
    rw [hres] at h2
    refine ⟨[Event.newEnvVersionGetter o.appName env.Name (Except.ok getter),
        Event.Version getter (Except.ok v),
        Event.Start (fmtEnvUpgradeStart (p.HighlightUserInput env.Name) (p.Emphasize v)
          (p.Emphasize p.LatestEnvTemplateVersion)),
        Event.newTemplateUpgrader env (Except.ok upgrader),
        Event.UpgradeEnvironment upgrader
          (envUpgradeOpts.versionedInput env app artifactBucketARN artifactBucketKeyARN
            urls p.LatestEnvTemplateVersion) res,
        Event.Stop label],
      by rw [h2]; simp only [List.append_assoc, List.cons_append, List.nil_append],
      ?_, ?_, ?_⟩
    · intro _
      exact ⟨envUpgradeOpts.versionedInput env app artifactBucketARN artifactBucketKeyARN urls
        p.LatestEnvTemplateVersion, res, rfl, rfl⟩
    · intro h
      exact absurd h hleg
    · intro h
      exact absurd h hleg

/-- C20, amended, on a legacy environment with the canonical template: one
`UpgradeLegacyEnvironment` call for the latest version and the load-balanced
service of the application. -/
theorem upgrade_issues_at_most_one_upgrade_call_witness :
    ∃ input res, input.Version = "v1.9.0".toList
      ∧ (envUpgradeOpts.upgrade (Mock.pkg "v1.9.0".toList [] [])
          (Mock.opts Mock.body Mock.body "v0.0.0".toList none) Mock.env Mock.app
          "arn:aws:s3:::bucket".toList "key".toList [] []).2.filter Event.isUpgradeCall
        = [Event.UpgradeLegacyEnvironment 3 input ["frontend".toList] res] := by
  obtain ⟨d, hd, _, hone, _⟩ := upgrade_issues_at_most_one_upgrade_call
    (Mock.pkg "v1.9.0".toList [] []) (Mock.opts Mock.body Mock.body "v0.0.0".toList none)
    Mock.env Mock.app "arn:aws:s3:::bucket".toList "key".toList [] [] 2 3 "v0.0.0".toList
    Mock.body Mock.body
    [{ App := "phonetool".toList, Name := "frontend".toList,
       Type_ := "Load Balanced Web Service".toList }]
    rfl rfl (by decide) rfl (fun _ => ⟨rfl, rfl, rfl⟩)
  obtain ⟨input, res, hver, hf⟩ := hone rfl (Or.inl rfl)
  rw [hd]
  exact ⟨input, res, hver, hf⟩

/-! ### The progress sink of `upgrade` -/

section NeverPanicsLemmas

variable {α β : Type}

theorem Act.neverPanics_pure (a : α) : Act.NeverPanics (pure a : Act α) := by
  intro t m h
  simp at h

theorem Act.neverPanics_fail (e : GoError) : Act.NeverPanics (Act.fail e : Act α) := by
  intro t m h
  simp at h

theorem Act.neverPanics_call {ρ : Type} (respond : Trace → ρ) (record : ρ → Event) :
    Act.NeverPanics (Act.call respond record) := by
  intro t m h
  simp at h

theorem Act.neverPanics_emit (e : Event) : Act.NeverPanics (Act.emit e) := by
  intro t m h
  simp at h

theorem Act.neverPanics_bind {x : Act α} {f : α → Act β} (hx : Act.NeverPanics x)
    (hf : ∀ a, Act.NeverPanics (f a)) : Act.NeverPanics (x >>= f) := by
  intro t m h
  rw [Act.bind_apply] at h
  rcases hxt : x t with ⟨ox, tx⟩
  rw [hxt] at h
  cases ox with
  | ok a => exact hf a tx m h
  | err e => simp at h
  | panic m2 => exact hx t m2 (by rw [hxt])

end NeverPanicsLemmas

theorem envUpgradeOpts.upgradeEnvironment_neverPanics (o : envUpgradeOpts)
    (upgrader : Handle) (conf : config.Environment) (app : config.Application)
    (artifactBucketARN artifactBucketKeyARN : GoString)
    (urls : List (GoString × GoString)) (fromVersion toVersion : GoString) :
    Act.NeverPanics (upgradeEnvironment o upgrader conf app artifactBucketARN
      artifactBucketKeyARN urls fromVersion toVersion) := by
  unfold upgradeEnvironment
  refine Act.neverPanics_bind (Act.neverPanics_call _ _) (fun res => ?_)
  cases res with
  | none => exact Act.neverPanics_pure _
  | some err => exact Act.neverPanics_fail _

theorem envUpgradeOpts.isDefaultLegacyTemplate_neverPanics (o : envUpgradeOpts)
    (cfn : Handle) (appName envName : GoString) :
    Act.NeverPanics (isDefaultLegacyTemplate o cfn appName envName) := by
  unfold isDefaultLegacyTemplate
  refine Act.neverPanics_bind (Act.neverPanics_call _ _) (fun res => ?_)
  cases res with
  | error err => exact Act.neverPanics_fail _
  | ok tpl =>
    refine Act.neverPanics_bind (Act.neverPanics_call _ _) (fun res => ?_)
    cases res with
    | error err => exact Act.neverPanics_fail _
    | ok actual => exact Act.neverPanics_pure _

theorem envUpgradeOpts.listLBWebServices_neverPanics (p : Pkg) (o : envUpgradeOpts) :
    Act.NeverPanics (listLBWebServices p o) := by
  unfold listLBWebServices
  refine Act.neverPanics_bind (Act.neverPanics_call _ _) (fun res => ?_)
  cases res with
  | error err => exact Act.neverPanics_fail _
  | ok services => exact Act.neverPanics_pure _

theorem envUpgradeOpts.upgradeLegacyEnvironmentWithVPCOverrides_neverPanics
    (o : envUpgradeOpts) (upgrader : Handle) (conf : config.Environment)
    (fromVersion toVersion : GoString) (albWorkloads : List GoString) :
    Act.NeverPanics (upgradeLegacyEnvironmentWithVPCOverrides o upgrader conf fromVersion
      toVersion albWorkloads) := by
  unfold upgradeLegacyEnvironmentWithVPCOverrides
  cases conf.CustomConfig with
  | none => exact Act.neverPanics_bind (Act.neverPanics_emit _) (fun _ => Act.neverPanics_fail _)
  | some c =>
    refine Act.neverPanics_bind (Act.neverPanics_call _ _) (fun res => ?_)
    cases res with
    | none => exact Act.neverPanics_pure _
    | some err => exact Act.neverPanics_fail _

theorem envUpgradeOpts.upgradeLegacyEnvironment_neverPanics (p : Pkg)
    (o : envUpgradeOpts) (upgrader : Handle) (conf : config.Environment)
    (app : config.Application) (artifactBucketARN artifactBucketKeyARN : GoString)
    (urls : List (GoString × GoString)) (fromVersion toVersion : GoString) :
    Act.NeverPanics (upgradeLegacyEnvironment p o upgrader conf app artifactBucketARN
      artifactBucketKeyARN urls fromVersion toVersion) := by
  unfold upgradeLegacyEnvironment
  refine Act.neverPanics_bind (isDefaultLegacyTemplate_neverPanics o _ _ _)
    (fun isDefaultEnv => ?_)
  refine Act.neverPanics_bind (listLBWebServices_neverPanics p o) (fun albWorkloads => ?_)
  cases isDefaultEnv with
  | true =>
    refine Act.neverPanics_bind (Act.neverPanics_call _ _) (fun res => ?_)
    cases res with
    | none => exact Act.neverPanics_pure _
    | some err => exact Act.neverPanics_fail _
  | false => exact upgradeLegacyEnvironmentWithVPCOverrides_neverPanics o _ _ _ _ _

/-- The legacy resolver makes no call of the progress sink. -/
theorem envUpgradeOpts.upgradeLegacyEnvironment_no_progress (p : Pkg)
    (o : envUpgradeOpts) (upgrader : Handle) (conf : config.Environment)
    (app : config.Application) (artifactBucketARN artifactBucketKeyARN : GoString)
    (urls : List (GoString × GoString)) (fromVersion toVersion : GoString) :
    Act.Emits (fun ev => ev.isProgress = false)
      (upgradeLegacyEnvironment p o upgrader conf app artifactBucketARN
        artifactBucketKeyARN urls fromVersion toVersion) := by
  unfold upgradeLegacyEnvironment
  refine Act.Emits.bind (isDefaultLegacyTemplate_emits o _ _ _ (fun _ => rfl)
    (fun _ _ _ _ => rfl)) (fun isDefaultEnv => ?_)
  refine Act.Emits.bind (listLBWebServices_emits p o (fun _ _ => rfl))
    (fun albWorkloads => ?_)
  cases isDefaultEnv with
  | true =>
    refine Act.Emits.bind (Act.Emits.call _ _ (fun _ => rfl)) (fun res => ?_)
    cases res with
    | none => exact Act.Emits.pure _
    | some err => exact Act.Emits.fail _
  | false =>
    exact upgradeLegacyEnvironmentWithVPCOverrides_emits o _ _ _ _ _
      (fun _ _ _ _ => rfl) (fun _ => rfl)

/-- What `upgrade` runs between the start and the stop of the progress sink
makes no call of the progress sink and does not panic. -/
theorem envUpgradeOpts.upgrade_path_quiet (p : Pkg) (o : envUpgradeOpts)
    (env : config.Environment) (app : config.Application)
    (artifactBucketARN artifactBucketKeyARN : GoString) (urls : List (GoString × GoString))
    (v : GoString) :
    Act.Emits (fun ev => ev.isProgress = false)
      (do
        let res ← Act.call (fun t => o.newTemplateUpgrader t env) (Event.newTemplateUpgrader env)
        match res with
        | Except.error err => Act.fail err
        | Except.ok upgrader =>
          if v = p.LegacyEnvTemplateVersion then
            upgradeLegacyEnvironment p o upgrader env app artifactBucketARN artifactBucketKeyARN
              urls v p.LatestEnvTemplateVersion
          else
            upgradeEnvironment o upgrader env app artifactBucketARN artifactBucketKeyARN
              urls v p.LatestEnvTemplateVersion : Act Unit)
    ∧ Act.NeverPanics
      (do
        let res ← Act.call (fun t => o.newTemplateUpgrader t env) (Event.newTemplateUpgrader env)
        match res with
        | Except.error err => Act.fail err
        | Except.ok upgrader =>
          if v = p.LegacyEnvTemplateVersion then
            upgradeLegacyEnvironment p o upgrader env app artifactBucketARN artifactBucketKeyARN
              urls v p.LatestEnvTemplateVersion
          else
            upgradeEnvironment o upgrader env app artifactBucketARN artifactBucketKeyARN
              urls v p.LatestEnvTemplateVersion : Act Unit) := by
  constructor
  · refine Act.Emits.bind (Act.Emits.call _ _ (fun _ => rfl)) (fun res => ?_)
    cases res with
    | error err => exact Act.Emits.fail _
    | ok upgrader =>
      by_cases h : v = p.LegacyEnvTemplateVersion
      · simp only [h, if_true]
        exact upgradeLegacyEnvironment_no_progress p o _ _ _ _ _ _ _ _
      · simp only [h, if_false]
        exact upgradeEnvironment_emits o _ _ _ _ _ _ _ _ (fun _ _ _ => rfl)
  · refine Act.neverPanics_bind (Act.neverPanics_call _ _) (fun res => ?_)
    cases res with
    | error err => exact Act.neverPanics_fail _
    | ok upgrader =>
      by_cases h : v = p.LegacyEnvTemplateVersion
      · simp only [h, if_true]
        exact upgradeLegacyEnvironment_neverPanics p o _ _ _ _ _ _ _ _
      · simp only [h, if_false]
        exact upgradeEnvironment_neverPanics o _ _ _ _ _ _ _ _

/-- An attempted upgrade, whatever the template upgrader does: after the
version is read and the progress sink is started, the rest of the method runs
under the deferred stop. -/
theorem envUpgradeOpts.upgrade_started (p : Pkg) (o : envUpgradeOpts)
    (env : config.Environment) (app : config.Application)
    (artifactBucketARN artifactBucketKeyARN : GoString) (urls : List (GoString × GoString))
    (t : Trace) (getter : Handle) (v : GoString)
    (hg : o.newEnvVersionGetter t o.appName env.Name = Except.ok getter)
    (hv : o.Version (t ++ [Event.newEnvVersionGetter o.appName env.Name (Except.ok getter)])
      getter = Except.ok v)
    (hc : semver.Compare v p.LatestEnvTemplateVersion < 0) :
    upgrade p o env app artifactBucketARN artifactBucketKeyARN urls t
      = upgradeDeferred p env
          (do
            let res ← Act.call (fun t => o.newTemplateUpgrader t env)
              (Event.newTemplateUpgrader env)
            match res with
            | Except.error err => Act.fail err
            | Except.ok upgrader =>
              if v = p.LegacyEnvTemplateVersion then
                upgradeLegacyEnvironment p o upgrader env app artifactBucketARN
                  artifactBucketKeyARN urls v p.LatestEnvTemplateVersion
              else
                upgradeEnvironment o upgrader env app artifactBucketARN artifactBucketKeyARN
                  urls v p.LatestEnvTemplateVersion)
          (t ++ [Event.newEnvVersionGetter o.appName env.Name (Except.ok getter),
            Event.Version getter (Except.ok v),
            Event.Start (fmtEnvUpgradeStart (p.HighlightUserInput env.Name) (p.Emphasize v)
              (p.Emphasize p.LatestEnvTemplateVersion))]) := by
  unfold upgrade
  rw [Act.bind_apply, envVersion_ok o env.Name t getter v hg hv]
  simp only [Act.bind_apply]
  have hs : shouldUpgradeEnv p env.Name v
      (t ++ [Event.newEnvVersionGetter o.appName env.Name (Except.ok getter),
        Event.Version getter (Except.ok v)])
      = (Outcome.ok true, t ++ [Event.newEnvVersionGetter o.appName env.Name (Except.ok getter),
        Event.Version getter (Except.ok v)]) := by
    simp [shouldUpgradeEnv, hc]
  rw [hs]
  simp only [Bool.not_true, Bool.false_eq_true, if_false]
  rw [Act.bind_apply, Act.emit_apply]
  simp only [List.append_assoc, List.cons_append, List.nil_append]

/-- The deferred stop of `upgrade`, over a rest of the method that makes no
call of the progress sink and does not panic: one stop after the calls of the
rest, with the success text when the rest returns nil and the failure text when
it returns an error. -/
theorem envUpgradeOpts.upgradeDeferred_stops (p : Pkg) (env : config.Environment)
    (rest : Act Unit) (t : Trace)
    (hq : Act.Emits (fun ev => ev.isProgress = false) rest) (hnp : Act.NeverPanics rest) :
    ∃ d label, (upgradeDeferred p env rest t).2 = t ++ d ++ [Event.Stop label]
      ∧ d.filter Event.isProgress = []
      ∧ ((upgradeDeferred p env rest t).1 = Outcome.ok ()
          ∧ label = p.Ssuccessf (fmtEnvUpgradeComplete (p.HighlightUserInput env.Name)
              (p.Emphasize p.LatestEnvTemplateVersion))
        ∨ ∃ e, (upgradeDeferred p env rest t).1 = Outcome.err e
          ∧ label = p.Serrorf (fmtEnvUpgradeFailed (p.HighlightUserInput env.Name)
              (p.Emphasize p.LatestEnvTemplateVersion))) := by
  obtain ⟨d, hd, hno⟩ := hq t
  have hp := hnp t
  have hf : d.filter Event.isProgress = [] := by
    rw [List.filter_eq_nil_iff]
    intro ev hev
    simp [hno ev hev]
  unfold upgradeDeferred
  rcases hr : rest t with ⟨a | e | m, t1⟩
  · rw [hr] at hd
    simp only at hd
    subst hd
    exact ⟨d, _, rfl, hf, Or.inl ⟨rfl, rfl⟩⟩
  · rw [hr] at hd
    simp only at hd
    subst hd
    exact ⟨d, _, rfl, hf, Or.inr ⟨e, rfl, rfl⟩⟩
  · exact absurd (by rw [hr]) (hp m)

/-- C17. For an environment whose version is below the latest version,
`upgrade` calls the progress sink exactly twice: one start, with the version
of the environment and the latest version, and then one stop, which is the last
call of the method, on every path, also when the template upgrader cannot be
created. Either `upgrade` returns nil and the stop carries the success
message, or it returns an error and the stop carries the failure message; so,
the two messages being different, the stop carries the success message exactly
when `upgrade` returns nil and the failure message exactly when it returns an
error. -/
theorem upgrade_starts_and_stops_once (p : Pkg) (o : envUpgradeOpts)
    (env : config.Environment) (app : config.Application)
    (artifactBucketARN artifactBucketKeyARN : GoString) (urls : List (GoString × GoString))
    (t : Trace) (getter : Handle) (v : GoString)
    (hg : o.newEnvVersionGetter t o.appName env.Name = Except.ok getter)
    (hv : o.Version (t ++ [Event.newEnvVersionGetter o.appName env.Name (Except.ok getter)])
      getter = Except.ok v)
    (hc : semver.Compare v p.LatestEnvTemplateVersion < 0) :
    ∃ d label,
      (envUpgradeOpts.upgrade p o env app artifactBucketARN artifactBucketKeyARN urls t).2
        = t ++ d
      ∧ d.filter Event.isProgress
        = [Event.Start (fmtEnvUpgradeStart (p.HighlightUserInput env.Name) (p.Emphasize v)
            (p.Emphasize p.LatestEnvTemplateVersion)), Event.Stop label]
      ∧ d.getLast? = some (Event.Stop label)
      ∧ ((envUpgradeOpts.upgrade p o env app artifactBucketARN artifactBucketKeyARN urls t).1
            = Outcome.ok ()
          ∧ label = p.Ssuccessf (fmtEnvUpgradeComplete (p.HighlightUserInput env.Name)
              (p.Emphasize p.LatestEnvTemplateVersion))
        ∨ ∃ e,
          (envUpgradeOpts.upgrade p o env app artifactBucketARN artifactBucketKeyARN urls t).1
            = Outcome.err e
          ∧ label = p.Serrorf (fmtEnvUpgradeFailed (p.HighlightUserInput env.Name)
              (p.Emphasize p.LatestEnvTemplateVersion)))
      ∧ (p.Ssuccessf (fmtEnvUpgradeComplete (p.HighlightUserInput env.Name)
            (p.Emphasize p.LatestEnvTemplateVersion))
          ≠ p.Serrorf (fmtEnvUpgradeFailed (p.HighlightUserInput env.Name)
            (p.Emphasize p.LatestEnvTemplateVersion)) →
        (label = p.Ssuccessf (fmtEnvUpgradeComplete (p.HighlightUserInput env.Name)
              (p.Emphasize p.LatestEnvTemplateVersion))
          ↔ (envUpgradeOpts.upgrade p o env app artifactBucketARN artifactBucketKeyARN urls
              t).1 = Outcome.ok ())
        ∧ (label = p.Serrorf (fmtEnvUpgradeFailed (p.HighlightUserInput env.Name)
              (p.Emphasize p.LatestEnvTemplateVersion))
          ↔ (envUpgradeOpts.upgrade p o env app artifactBucketARN artifactBucketKeyARN urls
              t).1.isErr = true)) := by
  obtain ⟨hq, hnp⟩ := envUpgradeOpts.upgrade_path_quiet p o env app artifactBucketARN
    artifactBucketKeyARN urls v
  rw [envUpgradeOpts.upgrade_started p o env app artifactBucketARN artifactBucketKeyARN urls t
    getter v hg hv hc]
  obtain ⟨d, label, h2, hf, hout⟩ := envUpgradeOpts.upgradeDeferred_stops p env _
    (t ++ [Event.newEnvVersionGetter o.appName env.Name (Except.ok getter),
      Event.Version getter (Except.ok v),
      Event.Start (fmtEnvUpgradeStart (p.HighlightUserInput env.Name) (p.Emphasize v)
        (p.Emphasize p.LatestEnvTemplateVersion))]) hq hnp
  refine ⟨[Event.newEnvVersionGetter o.appName env.Name (Except.ok getter),
      Event.Version getter (Except.ok v),
      Event.Start (fmtEnvUpgradeStart (p.HighlightUserInput env.Name) (p.Emphasize v)
        (p.Emphasize p.LatestEnvTemplateVersion))] ++ d ++ [Event.Stop label], label,
    ?_, ?_, ?_, hout, ?_⟩
  · rw [h2]
    simp only [List.append_assoc, List.cons_append, List.nil_append]
  · simp [List.filter_append, List.filter, Event.isProgress, hf]
  · exact List.getLast?_concat _
  · intro hne
    rcases hout with ⟨hok, hl⟩ | ⟨e, herr, hl⟩
    · rw [hok, hl]
      exact ⟨⟨fun _ => rfl, fun _ => rfl⟩, ⟨fun h => absurd h hne, fun h => by simp [Outcome.isErr] at h⟩⟩
    · rw [herr, hl]
      exact ⟨⟨fun h => absurd h.symm hne, fun h => by simp at h⟩,
        ⟨fun _ => rfl, fun _ => rfl⟩⟩

/-- C17 on an environment below the latest version whose template upgrader
cannot be created: one start, the failed creation, one stop with the failure
message, and the error of the creation is returned. -/
theorem upgrade_starts_and_stops_once_witness :
    envUpgradeOpts.upgrade (Mock.pkg "v1.9.0".toList [] [])
        { Mock.opts Mock.body Mock.body "v1.8.0".toList none with
          newTemplateUpgrader := fun _ _ => Except.error Mock.accessDenied }
        Mock.env Mock.app "arn:aws:s3:::bucket".toList "key".toList [] []
      = (Outcome.err Mock.accessDenied,
          [Event.newEnvVersionGetter "phonetool".toList "test".toList (Except.ok 2),
            Event.Version 2 (Except.ok "v1.8.0".toList),
            Event.Start (fmtEnvUpgradeStart "test".toList "v1.8.0".toList "v1.9.0".toList),
            Event.newTemplateUpgrader Mock.env (Except.error Mock.accessDenied),
            Event.Stop ("x ".toList ++ fmtEnvUpgradeFailed "test".toList "v1.9.0".toList)])
    ∧ ∃ d label,
      (envUpgradeOpts.upgrade (Mock.pkg "v1.9.0".toList [] [])
        { Mock.opts Mock.body Mock.body "v1.8.0".toList none with
          newTemplateUpgrader := fun _ _ => Except.error Mock.accessDenied }
        Mock.env Mock.app "arn:aws:s3:::bucket".toList "key".toList [] []).2 = [] ++ d
      ∧ d.filter Event.isProgress
        = [Event.Start (fmtEnvUpgradeStart "test".toList "v1.8.0".toList "v1.9.0".toList),
            Event.Stop label]
      ∧ d.getLast? = some (Event.Stop label) := by
  refine ⟨by rfl, ?_⟩
  obtain ⟨d, label, h1, h2, h3, _⟩ := upgrade_starts_and_stops_once
    (Mock.pkg "v1.9.0".toList [] [])
    { Mock.opts Mock.body Mock.body "v1.8.0".toList none with
      newTemplateUpgrader := fun _ _ => Except.error Mock.accessDenied }
    Mock.env Mock.app "arn:aws:s3:::bucket".toList "key".toList [] [] 2 "v1.8.0".toList
    rfl rfl (by decide)
  exact ⟨d, label, h1, h2, h3⟩

/-! ### A failed call ends the run -/

section FailFastLemmas

variable {α β : Type}

theorem Act.failFastOr_pure {bad : α → Bool} (a : α) : Act.FailFastOr bad (pure a : Act α) := by
  intro t
  refine ⟨[], by simp, ?_⟩
  intro pre post ev hd
  simp at hd

theorem Act.failFastOr_fail {bad : α → Bool} (e : GoError) :
    Act.FailFastOr bad (Act.fail e : Act α) := by
  intro t
  refine ⟨[], by simp, ?_⟩
  intro pre post ev hd
  simp at hd

theorem Act.failFastOr_panic {bad : α → Bool} (m : GoString) :
    Act.FailFastOr bad (Act.panic m : Act α) := by
  intro t
  refine ⟨[], by simp, ?_⟩
  intro pre post ev hd
  simp at hd

/-- A single event `ev` as `pre ++ e :: post`. -/
theorem Event.singleton_split {ev e : Event} {pre post : List Event}
    (h : [ev] = pre ++ e :: post) : pre = [] ∧ e = ev ∧ post = [] := by
  cases pre with
  | nil =>
    simp only [List.nil_append, List.cons.injEq] at h
    exact ⟨rfl, h.1.symm, h.2.symm⟩
  | cons c cs =>
    simp only [List.cons_append, List.cons.injEq] at h
    have := h.2
    simp at this

theorem Act.failFastOr_emit {bad : Unit → Bool} (e : Event) (h : e.isFailure = false) :
    Act.FailFastOr bad (Act.emit e) := by
  intro t
  refine ⟨[e], by simp, ?_⟩
  intro pre post ev hd hev
  obtain ⟨_, rfl, _⟩ := Event.singleton_split hd
  rw [h] at hev
  cases hev

theorem Act.failFastOr_call {ρ : Type} (respond : Trace → ρ) (record : ρ → Event) :
    Act.FailFastOr (fun r => (record r).isFailure) (Act.call respond record) := by
  intro t
  refine ⟨[record (respond t)], by simp, ?_⟩
  intro pre post ev hd hev
  obtain ⟨_, rfl, rfl⟩ := Event.singleton_split hd
  exact ⟨hev, by simp⟩

theorem Act.failFastOr_bind {bad : α → Bool} {bad2 : β → Bool} {x : Act α} {f : α → Act β}
    (hx : Act.FailFastOr bad x) (hf : ∀ a, Act.FailFastOr bad2 (f a))
    (hbad : ∀ a, bad a = true → Act.AbortsOr bad2 (f a)) :
    Act.FailFastOr bad2 (x >>= f) := by
  intro t
  obtain ⟨dx, hdx, hPx⟩ := hx t
  rw [Act.bind_apply]
  rcases hxt : x t with ⟨ox, tx⟩
  rw [hxt] at hdx hPx
  simp only at hdx
  subst hdx
  cases ox with
  | err e => exact ⟨dx, rfl, fun pre post ev hd hev => ⟨rfl, (hPx pre post ev hd hev).2⟩⟩
  | panic m =>
    refine ⟨dx, rfl, fun pre post ev hd hev => ?_⟩
    have h1 := (hPx pre post ev hd hev).1
    simp [Outcome.failed] at h1
  | ok a =>
    obtain ⟨df, hdf, hPf⟩ := hf a (t ++ dx)
    refine ⟨dx ++ df, by simp [hdf], ?_⟩
    intro pre post ev hd hev
    rcases List.append_eq_append_iff.mp hd with ⟨a1, _, hdf1⟩ | ⟨c1, hdx1, hpost⟩
    · exact hPf a1 post ev hdf1 hev
    · cases c1 with
      | nil =>
        simp only [List.nil_append] at hpost
        exact hPf [] post ev (by simpa using hpost.symm) hev
      | cons c cs =>
        simp only [List.cons_append, List.cons.injEq] at hpost
        obtain ⟨rfl, rfl⟩ := hpost
        have h1 := hPx pre cs ev hdx1 hev
        have hb : bad a = true := h1.1
        obtain ⟨hfail, d2, hd2, hc2⟩ := hbad a hb (t ++ dx)
        have hdd : df = d2 := List.append_cancel_left (hdf.symm.trans hd2)
        subst hdd
        refine ⟨hfail, ?_⟩
        intro e he
        rcases List.mem_append.mp he with h | h
        · exact h1.2 e h
        · exact hc2 e h

/-- Sequencing after a function that reports its failures as errors. -/
theorem Act.failFastOr_seq {bad2 : β → Bool} {x : Act α} {f : α → Act β}
    (hx : Act.FailFastOr (fun _ => false) x) (hf : ∀ a, Act.FailFastOr bad2 (f a)) :
    Act.FailFastOr bad2 (x >>= f) :=
  Act.failFastOr_bind hx hf (fun _ h => by simp at h)

theorem Act.abortsOr_fail {bad : α → Bool} (e : GoError) :
    Act.AbortsOr bad (Act.fail e : Act α) :=
  fun t => ⟨rfl, [], by simp, by simp⟩

theorem Act.abortsOr_pure {bad : α → Bool} (a : α) (h : bad a = true) :
    Act.AbortsOr bad (pure a : Act α) :=
  fun t => ⟨h, [], by simp, by simp⟩

theorem Act.abortsOr_emit_bind {bad : α → Bool} (e : Event) (h : e.isCleanup = true)
    {y : Act α} (hy : Act.AbortsOr bad y) :
    Act.AbortsOr bad (Act.emit e >>= fun _ => y) := by
  intro t
  rw [Act.bind_apply, Act.emit_apply]
  obtain ⟨hfail, d, hd, hc⟩ := hy (t ++ [e])
  refine ⟨hfail, e :: d, by simp [hd], ?_⟩
  intro e1 he1
  rcases List.mem_cons.mp he1 with h1 | h1
  · rw [h1]
    exact h
  · exact hc e1 h1

/-- For a function without a value, to fail fast is that a failed call makes
the function return an error. -/
theorem Act.failFast_iff (x : Act Unit) :
    Act.FailFast x ↔ Act.FailFastOr (fun _ => false) x := by
  have hiff : ∀ out : Outcome Unit, out.failed (fun _ => false) = out.isErr := by
    intro out
    cases out <;> rfl
  constructor
  · intro h t
    obtain ⟨d, hd, hP⟩ := h t
    exact ⟨d, hd, fun pre post ev hs hev => by rw [hiff]; exact hP pre post ev hs hev⟩
  · intro h t
    obtain ⟨d, hd, hP⟩ := h t
    exact ⟨d, hd, fun pre post ev hs hev => by rw [← hiff]; exact hP pre post ev hs hev⟩

end FailFastLemmas

theorem envUpgradeOpts.listEnvsToUpgrade_failFast (o : envUpgradeOpts) :
    Act.FailFastOr (fun _ => false) (listEnvsToUpgrade o) := by
  unfold listEnvsToUpgrade
  cases o.all with
  | false =>
    simp only [Bool.not_false, if_true]
    refine Act.failFastOr_bind (Act.failFastOr_call _ _) (fun res => ?_) (fun res hres => ?_)
    · cases res with
      | error err => exact Act.failFastOr_fail _
      | ok env => exact Act.failFastOr_pure _
    · cases res with
      | error err => exact Act.abortsOr_fail _
      | ok env => simp [Event.isFailure] at hres
  | true =>
    simp only [Bool.not_true, Bool.false_eq_true, if_false]
    refine Act.failFastOr_bind (Act.failFastOr_call _ _) (fun res => ?_) (fun res hres => ?_)
    · cases res with
      | error err => exact Act.failFastOr_fail _
      | ok envs => exact Act.failFastOr_pure _
    · cases res with
      | error err => exact Act.abortsOr_fail _
      | ok envs => simp [Event.isFailure] at hres

theorem envUpgradeOpts.envVersion_failFast (o : envUpgradeOpts) (name : GoString) :
    Act.FailFastOr (fun _ => false) (envVersion o name) := by
  unfold envVersion
  refine Act.failFastOr_bind (Act.failFastOr_call _ _) (fun res => ?_) (fun res hres => ?_)
  · cases res with
    | error err => exact Act.failFastOr_fail _
    | ok envTpl =>
      refine Act.failFastOr_bind (Act.failFastOr_call _ _) (fun res => ?_) (fun res hres => ?_)
      · cases res with
        | error err => exact Act.failFastOr_fail _
        | ok version => exact Act.failFastOr_pure _
      · cases res with
        | error err => exact Act.abortsOr_fail _
        | ok version => simp [Event.isFailure] at hres
  · cases res with
    | error err => exact Act.abortsOr_fail _
    | ok envTpl => simp [Event.isFailure] at hres

theorem shouldUpgradeEnv_failFast (p : Pkg) (env version : GoString) :
    Act.FailFastOr (fun _ => false) (shouldUpgradeEnv p env version) := by
  unfold shouldUpgradeEnv
  by_cases h : semver.Compare version p.LatestEnvTemplateVersion < 0
  · simp only [h, if_true]
    exact Act.failFastOr_pure _
  · simp only [h, if_false]
    exact Act.failFastOr_seq (Act.failFastOr_emit _ rfl) (fun _ => Act.failFastOr_pure _)

theorem envUpgradeOpts.upgradeEnvironment_failFast (o : envUpgradeOpts)
    (upgrader : Handle) (conf : config.Environment) (app : config.Application)
    (artifactBucketARN artifactBucketKeyARN : GoString)
    (urls : List (GoString × GoString)) (fromVersion toVersion : GoString) :
    Act.FailFastOr (fun _ => false) (upgradeEnvironment o upgrader conf app artifactBucketARN
      artifactBucketKeyARN urls fromVersion toVersion) := by
  unfold upgradeEnvironment
  refine Act.failFastOr_bind (Act.failFastOr_call _ _) (fun res => ?_) (fun res hres => ?_)
  · cases res with
    | none => exact Act.failFastOr_pure _
    | some err => exact Act.failFastOr_fail _
  · cases res with
    | none => simp [Event.isFailure] at hres
    | some err => exact Act.abortsOr_fail _

theorem envUpgradeOpts.isDefaultLegacyTemplate_failFast (o : envUpgradeOpts)
    (cfn : Handle) (appName envName : GoString) :
    Act.FailFastOr (fun _ => false) (isDefaultLegacyTemplate o cfn appName envName) := by
  unfold isDefaultLegacyTemplate
  refine Act.failFastOr_bind (Act.failFastOr_call _ _) (fun res => ?_) (fun res hres => ?_)
  · cases res with
    | error err => exact Act.failFastOr_fail _
    | ok tpl =>
      refine Act.failFastOr_bind (Act.failFastOr_call _ _) (fun res => ?_) (fun res hres => ?_)
      · cases res with
        | error err => exact Act.failFastOr_fail _
        | ok actual => exact Act.failFastOr_pure _
      · cases res with
        | error err => exact Act.abortsOr_fail _
        | ok actual => simp [Event.isFailure] at hres
  · cases res with
    | error err => exact Act.abortsOr_fail _
    | ok tpl => simp [Event.isFailure] at hres

theorem envUpgradeOpts.listLBWebServices_failFast (p : Pkg) (o : envUpgradeOpts) :
    Act.FailFastOr (fun _ => false) (listLBWebServices p o) := by
  unfold listLBWebServices
  refine Act.failFastOr_bind (Act.failFastOr_call _ _) (fun res => ?_) (fun res hres => ?_)
  · cases res with
    | error err => exact Act.failFastOr_fail _
    | ok services => exact Act.failFastOr_pure _
  · cases res with
    | error err => exact Act.abortsOr_fail _
    | ok services => simp [Event.isFailure] at hres

theorem envUpgradeOpts.upgradeLegacyEnvironmentWithVPCOverrides_failFast
    (o : envUpgradeOpts) (upgrader : Handle) (conf : config.Environment)
    (fromVersion toVersion : GoString) (albWorkloads : List GoString) :
    Act.FailFastOr (fun _ => false) (upgradeLegacyEnvironmentWithVPCOverrides o upgrader conf
      fromVersion toVersion albWorkloads) := by
  unfold upgradeLegacyEnvironmentWithVPCOverrides
  cases conf.CustomConfig with
  | none =>
    exact Act.failFastOr_seq (Act.failFastOr_emit _ rfl) (fun _ => Act.failFastOr_fail _)
  | some c =>
    refine Act.failFastOr_bind (Act.failFastOr_call _ _) (fun res => ?_) (fun res hres => ?_)
    · cases res with
      | none => exact Act.failFastOr_pure _
      | some err => exact Act.failFastOr_fail _
    · cases res with
      | none => simp [Event.isFailure] at hres
      | some err => exact Act.abortsOr_fail _

theorem envUpgradeOpts.upgradeLegacyEnvironment_failFast (p : Pkg)
    (o : envUpgradeOpts) (upgrader : Handle) (conf : config.Environment)
    (app : config.Application) (artifactBucketARN artifactBucketKeyARN : GoString)
    (urls : List (GoString × GoString)) (fromVersion toVersion : GoString) :
    Act.FailFastOr (fun _ => false) (upgradeLegacyEnvironment p o upgrader conf app
      artifactBucketARN artifactBucketKeyARN urls fromVersion toVersion) := by
  unfold upgradeLegacyEnvironment
  refine Act.failFastOr_seq (isDefaultLegacyTemplate_failFast o _ _ _) (fun isDefaultEnv => ?_)
  refine Act.failFastOr_seq (listLBWebServices_failFast p o) (fun albWorkloads => ?_)
  cases isDefaultEnv with
  | true =>
    refine Act.failFastOr_bind (Act.failFastOr_call _ _) (fun res => ?_) (fun res hres => ?_)
    · cases res with
      | none => exact Act.failFastOr_pure _
      | some err => exact Act.failFastOr_fail _
    · cases res with
      | none => simp [Event.isFailure] at hres
      | some err => exact Act.abortsOr_fail _
  | false => exact upgradeLegacyEnvironmentWithVPCOverrides_failFast o _ _ _ _ _

theorem envUpgradeOpts.upgradeDeferred_failFast (p : Pkg) (env : config.Environment)
    (rest : Act Unit) (hr : Act.FailFastOr (fun _ => false) rest) :
    Act.FailFastOr (fun _ => false) (upgradeDeferred p env rest) := by
  intro t
  obtain ⟨d, hd, hP⟩ := hr t
  unfold upgradeDeferred
  have key : ∀ (label : GoString) (pre post : List Event) (ev : Event),
      d ++ [Event.Stop label] = pre ++ ev :: post → ev.isFailure = true →
      (rest t).1.failed (fun _ => false) = true ∧ ∀ e ∈ post, e.isCleanup = true := by
    intro label pre post ev hs hev
    rcases List.append_eq_append_iff.mp hs with ⟨a1, _, h1⟩ | ⟨c1, hd1, hpost⟩
    · obtain ⟨_, rfl, _⟩ := Event.singleton_split h1
      simp [Event.isFailure] at hev
    · cases c1 with
      | nil =>
        simp only [List.nil_append, List.cons.injEq] at hpost
        rw [hpost.1] at hev
        simp [Event.isFailure] at hev
      | cons c cs =>
        simp only [List.cons_append, List.cons.injEq] at hpost
        obtain ⟨rfl, rfl⟩ := hpost
        obtain ⟨h1, h2⟩ := hP pre cs ev hd1 hev
        refine ⟨h1, ?_⟩
        intro e he
        rcases List.mem_append.mp he with h | h
        · exact h2 e h
        · simp only [List.mem_singleton] at h
          rw [h]
          rfl
  rcases hrt : rest t with ⟨a | e | m, t1⟩
  · rw [hrt] at hd key
    simp only at hd
    subst hd
    exact ⟨d ++ [Event.Stop _], List.append_assoc _ _ _, key _⟩
  · rw [hrt] at hd key
    simp only at hd
    subst hd
    exact ⟨d ++ [Event.Stop _], List.append_assoc _ _ _,
      fun pre post ev hs hev => ⟨rfl, (key _ pre post ev hs hev).2⟩⟩
  · rw [hrt] at hd key
    simp only at hd
    subst hd
    exact ⟨d ++ [Event.Stop _], List.append_assoc _ _ _, key _⟩

theorem envUpgradeOpts.upgrade_failFast (p : Pkg) (o : envUpgradeOpts)
    (env : config.Environment) (app : config.Application)
    (artifactBucketARN artifactBucketKeyARN : GoString) (urls : List (GoString × GoString)) :
    Act.FailFastOr (fun _ => false)
      (upgrade p o env app artifactBucketARN artifactBucketKeyARN urls) := by
  unfold upgrade
  refine Act.failFastOr_seq (envVersion_failFast o _) (fun version => ?_)
  refine Act.failFastOr_seq (shouldUpgradeEnv_failFast p _ _) (fun should => ?_)
  cases should with
  | false => exact Act.failFastOr_pure _
  | true =>
    refine Act.failFastOr_seq (Act.failFastOr_emit _ rfl) (fun _ => ?_)
    refine upgradeDeferred_failFast p env _ ?_
    refine Act.failFastOr_bind (Act.failFastOr_call _ _) (fun res => ?_) (fun res hres => ?_)
    · cases res with
      | error err => exact Act.failFastOr_fail _
      | ok upgrader =>
        by_cases h : version = p.LegacyEnvTemplateVersion
        · simp only [h, if_true]
          exact upgradeLegacyEnvironment_failFast p o _ _ _ _ _ _ _ _
        · simp only [h, if_false]
          exact upgradeEnvironment_failFast o _ _ _ _ _ _ _ _
    · cases res with
      | error err => exact Act.abortsOr_fail _
      | ok upgrader => simp [Event.isFailure] at hres

theorem envUpgradeOpts.grant_failFast (p : Pkg) (o : envUpgradeOpts) (cfn : Handle)
    (app env execRole body bucketARN : GoString) :
    Act.FailFastOr (fun _ => false)
      (grantManagerRolePermissionToUpload p o cfn app env execRole body bucketARN) := by
  unfold grantManagerRolePermissionToUpload
  cases p.UnmarshalPolicies body with
  | error err => exact Act.failFastOr_fail _
  | ok policies =>
    cases policies with
    | nil => exact Act.failFastOr_fail _
    | cons node rest =>
      simp only []
      cases updatedBody node body bucketARN with
      | error msg => exact Act.failFastOr_panic _
      | ok updated =>
        simp only []
        refine Act.failFastOr_seq (Act.failFastOr_emit _ rfl) (fun _ => ?_)
        refine Act.failFastOr_bind (Act.failFastOr_call _ _) (fun res => ?_)
          (fun res hres => ?_)
        · cases res with
          | none =>
            exact Act.failFastOr_seq (Act.failFastOr_emit _ rfl)
              (fun _ => Act.failFastOr_pure _)
          | some err =>
            cases hE : err.AsErrChangeSetEmpty with
            | false =>
              simp only [hE, Bool.not_false, if_true]
              exact Act.failFastOr_seq (Act.failFastOr_emit _ rfl)
                (fun _ => Act.failFastOr_fail _)
            | true =>
              simp only [hE, Bool.not_true, Bool.false_eq_true, if_false]
              exact Act.failFastOr_seq (Act.failFastOr_emit _ rfl)
                (fun _ => Act.failFastOr_pure _)
        · cases res with
          | none => simp [Event.isFailure] at hres
          | some err =>
            simp only [Event.isFailure] at hres
            simp only [hres, if_true]
            exact Act.abortsOr_emit_bind _ (by rfl) (Act.abortsOr_fail _)

theorem envUpgradeOpts.ensure_failFast (p : Pkg) (o : envUpgradeOpts)
    (env : config.Environment) (bucketName : GoString) :
    Act.FailFastOr (fun _ => false) (ensureManagerRoleIsAllowedToUpload p o env bucketName) := by
  unfold ensureManagerRoleIsAllowedToUpload
  refine Act.failFastOr_bind (Act.failFastOr_call _ _) (fun res => ?_) (fun res hres => ?_)
  · cases res with
    | error err => exact Act.failFastOr_fail _
    | ok cfn =>
      refine Act.failFastOr_bind (Act.failFastOr_call _ _) (fun res => ?_) (fun res hres => ?_)
      · cases res with
        | error err => exact Act.failFastOr_fail _
        | ok body =>
          simp only []
          cases isManagerRoleAllowedToUpload p body with
          | error err => exact Act.failFastOr_fail _
          | ok allowed =>
            cases allowed with
            | true => exact Act.failFastOr_pure _
            | false => exact grant_failFast p o _ _ _ _ _ _
      · cases res with
        | error err => exact Act.abortsOr_fail _
        | ok body => simp [Event.isFailure] at hres
  · cases res with
    | error err => exact Act.abortsOr_fail _
    | ok cfn => simp [Event.isFailure] at hres

/-- The publisher reports a failed upload as its return value. -/
theorem uploadCustomResources_failFast
    (upload : GoString → List s3.NamedBinary → Act (Except GoError GoString))
    (hu : ∀ key objects, Act.FailFastOr (fun r => !r.toBool) (upload key objects))
    (rs : List CustomResource) (urls : List (GoString × GoString)) :
    Act.FailFastOr (fun r => !r.toBool) (uploadCustomResources upload rs urls) := by
  induction rs generalizing urls with
  | nil => exact Act.failFastOr_pure _
  | cons r rs ih =>
    unfold uploadCustomResources
    refine Act.failFastOr_bind (hu _ _) (fun res => ?_) (fun res hres => ?_)
    · cases res with
      | error err => exact Act.failFastOr_pure _
      | ok url => exact ih _
    · cases res with
      | error err => exact Act.abortsOr_pure _ rfl
      | ok url => simp [Except.toBool] at hres

theorem envUpgradeOpts.UploadEnvironmentCustomResources_failFast (o : envUpgradeOpts)
    (upload : GoString → List s3.NamedBinary → Act (Except GoError GoString))
    (hu : ∀ key objects, Act.FailFastOr (fun r => !r.toBool) (upload key objects)) :
    Act.FailFastOr (fun r => !r.toBool) (UploadEnvironmentCustomResources o upload) := by
  unfold UploadEnvironmentCustomResources
  refine Act.failFastOr_bind (uploadCustomResources_failFast upload hu _ _) (fun res => ?_)
    (fun res hres => ?_)
  · exact Act.failFastOr_seq (Act.failFastOr_emit _ rfl) (fun _ => Act.failFastOr_pure _)
  · exact Act.abortsOr_emit_bind _ (by rfl) (Act.abortsOr_pure _ hres)

/-- The upload callback of `Execute`: a failed `ZipAndUpload` call is returned
to the publisher. -/
theorem envUpgradeOpts.zipAndUpload_failFast (o : envUpgradeOpts) (s3Client : Handle)
    (bucket key : GoString) (objects : List s3.NamedBinary) :
    Act.FailFastOr (fun r => !r.toBool)
      (Act.call (fun t => o.ZipAndUpload t s3Client bucket key objects)
        (Event.ZipAndUpload s3Client bucket key objects)) := by
  intro t
  refine ⟨[Event.ZipAndUpload s3Client bucket key objects
    (o.ZipAndUpload t s3Client bucket key objects)], by simp, ?_⟩
  intro pre post ev hd hev
  obtain ⟨_, rfl, rfl⟩ := Event.singleton_split hd
  refine ⟨?_, by simp⟩
  rw [Act.call_apply]
  cases hres : o.ZipAndUpload t s3Client bucket key objects with
  | error err => rfl
  | ok url =>
    rw [hres] at hev
    simp [Event.isFailure] at hev

theorem envUpgradeOpts.ExecuteEnv_failFast (p : Pkg) (o : envUpgradeOpts)
    (app : config.Application) (env : config.Environment) :
    Act.FailFastOr (fun _ => false) (ExecuteEnv p o app env) := by
  unfold ExecuteEnv
  refine Act.failFastOr_bind (Act.failFastOr_call _ _) (fun res => ?_) (fun res hres => ?_)
  · cases res with
    | error err => exact Act.failFastOr_fail _
    | ok resources =>
      refine Act.failFastOr_seq (ensure_failFast p o env _) (fun _ => ?_)
      refine Act.failFastOr_bind (Act.failFastOr_call _ _) (fun res => ?_) (fun res hres => ?_)
      · cases res with
        | error err => exact Act.failFastOr_fail _
        | ok s3Client =>
          refine Act.failFastOr_bind
            (UploadEnvironmentCustomResources_failFast o _
              (fun key objects => zipAndUpload_failFast o s3Client _ key objects))
            (fun res => ?_) (fun res hres => ?_)
          · cases res with
            | error err => exact Act.failFastOr_fail _
            | ok urls => exact upgrade_failFast p o env app _ _ _
          · cases res with
            | error err => exact Act.abortsOr_fail _
            | ok urls => simp [Except.toBool] at hres
      · cases res with
        | error err => exact Act.abortsOr_fail _
        | ok s3Client => simp [Event.isFailure] at hres
  · cases res with
    | error err => exact Act.abortsOr_fail _
    | ok resources => simp [Event.isFailure] at hres

theorem envUpgradeOpts.ExecuteLoop_failFast (p : Pkg) (o : envUpgradeOpts)
    (app : config.Application) (envs : List config.Environment) :
    Act.FailFastOr (fun _ => false) (ExecuteLoop p o app envs) := by
  induction envs with
  | nil => exact Act.failFastOr_pure _
  | cons env rest ih =>
    unfold ExecuteLoop
    exact Act.failFastOr_seq (ExecuteEnv_failFast p o app env) (fun _ => ih)

theorem envUpgradeOpts.Execute_failFast (p : Pkg) (o : envUpgradeOpts) :
    Act.FailFastOr (fun _ => false) (Execute p o) := by
  unfold Execute
  refine Act.failFastOr_seq (listEnvsToUpgrade_failFast o) (fun envs => ?_)
  refine Act.failFastOr_bind (Act.failFastOr_call _ _) (fun res => ?_) (fun res hres => ?_)
  · cases res with
    | error err => exact Act.failFastOr_fail _
    | ok app => exact ExecuteLoop_failFast p o app envs
  · cases res with
    | error err => exact Act.abortsOr_fail _
    | ok app => simp [Event.isFailure] at hres

/-! ### The environments one at a time -/

theorem envUpgradeOpts.ExecuteLoop_append_ok (p : Pkg) (o : envUpgradeOpts)
    (app : config.Application) (pre rest : List config.Environment) (t t2 : Trace)
    (h : ExecuteLoop p o app pre t = (Outcome.ok (), t2)) :
    ExecuteLoop p o app (pre ++ rest) t = ExecuteLoop p o app rest t2 := by
  induction pre generalizing t with
  | nil =>
    simp only [ExecuteLoop, Act.pure_apply, Prod.mk.injEq] at h
    rw [List.nil_append, h.2]
  | cons env pre ih =>
    rcases hx : ExecuteEnv p o app env t with ⟨a | e | m, t1⟩
    · rw [ExecuteLoop_cons_ok p o app env pre t t1 hx] at h
      rw [List.cons_append, ExecuteLoop_cons_ok p o app env (pre ++ rest) t t1 hx]
      exact ih t1 h
    · rw [ExecuteLoop_cons_err p o app env pre t t1 e hx] at h
      simp at h
    · rw [ExecuteLoop, Act.bind_apply, hx] at h
      simp at h

/-- A function that fails fast and returns nil has made no failed call. -/
theorem Act.FailFastOr.no_failure_of_ok {x : Act Unit}
    (hx : Act.FailFastOr (fun _ => false) x) (t t1 : Trace) (h : x t = (Outcome.ok (), t1)) :
    ∃ d, t1 = t ++ d ∧ ∀ ev ∈ d, ev.isFailure = false := by
  obtain ⟨d, hd, hP⟩ := hx t
  rw [h] at hd hP
  refine ⟨d, hd, ?_⟩
  intro ev hev
  obtain ⟨pre, post, hs⟩ := List.append_of_mem hev
  cases hf : ev.isFailure with
  | false => rfl
  | true =>
    have h1 := (hP pre post ev hs hf).1
    simp [Outcome.failed] at h1

/-- A step that fails by returning an error. With the flag `all`, `Execute`
runs the loop body over the environments in the order of the listing of the
store, each from the trace the one before left. When the body returns nil for
the environments before the i-th and an error for the i-th, `Execute` returns
that error with the trace of the i-th body: nothing is called for a later
environment. That trace keeps the calls made for the earlier environments,
none of which failed, and adds only the calls of the i-th body, so no earlier
upgrade call is undone. And whenever a call of a collaborator fails, `Execute`
returns a non-nil error and after the failed call only stops the progress
sink. -/
theorem Execute_aborts_at_first_failure (p : Pkg) (o : envUpgradeOpts)
    (app : config.Application) (pre : List config.Environment) (env : config.Environment)
    (post : List config.Environment) (t t2 t3 : Trace) (e : GoError)
    (hall : o.all = true)
    (hL : o.ListEnvironments t o.appName = Except.ok (pre ++ env :: post))
    (ha : o.GetApplication
        (t ++ [Event.ListEnvironments o.appName (Except.ok (pre ++ env :: post))]) o.appName
      = Except.ok app)
    (hpre : envUpgradeOpts.ExecuteLoop p o app pre
        (t ++ [Event.ListEnvironments o.appName (Except.ok (pre ++ env :: post)),
          Event.GetApplication o.appName (Except.ok app)]) = (Outcome.ok (), t2))
    (hfail : envUpgradeOpts.ExecuteEnv p o app env t2 = (Outcome.err e, t3)) :
    envUpgradeOpts.Execute p o t = (Outcome.err e, t3)
    ∧ (∃ d1 d2,
        t2 = t ++ [Event.ListEnvironments o.appName (Except.ok (pre ++ env :: post)),
          Event.GetApplication o.appName (Except.ok app)] ++ d1
        ∧ t3 = t2 ++ d2
        ∧ ∀ ev ∈ d1, ev.isFailure = false)
    ∧ Act.FailFast (envUpgradeOpts.Execute p o) := by
  have hl : envUpgradeOpts.listEnvsToUpgrade o t
      = (Outcome.ok (pre ++ env :: post),
          t ++ [Event.ListEnvironments o.appName (Except.ok (pre ++ env :: post))]) := by
    unfold envUpgradeOpts.listEnvsToUpgrade
    simp only [hall, Bool.not_true, Bool.false_eq_true, if_false, Act.bind_apply,
      Act.call_apply, hL, Act.pure_apply]
  refine ⟨?_, ?_, (Act.failFast_iff _).mpr (envUpgradeOpts.Execute_failFast p o)⟩
  · rw [envUpgradeOpts.Execute_eq_loop p o t _ _ app hl ha]
    simp only [List.append_assoc, List.cons_append, List.nil_append]
    rw [envUpgradeOpts.ExecuteLoop_append_ok p o app pre (env :: post) _ t2 hpre]
    exact envUpgradeOpts.ExecuteLoop_cons_err p o app env post t2 t3 e hfail
  · obtain ⟨d1, hd1, hno⟩ := Act.FailFastOr.no_failure_of_ok
      (envUpgradeOpts.ExecuteLoop_failFast p o app pre) _ t2 hpre
    obtain ⟨d2, hd2, _⟩ := envUpgradeOpts.ExecuteEnv_failFast p o app env t2
    rw [hfail] at hd2
    exact ⟨d1, d2, hd1, hd2, hno⟩

/-- The scenario of the specification on two environments: with the flag
`all`, the store lists `test` and `prod`; `test` is upgraded from `v1.8.0` to
`v1.9.0`, then the call `Version` for `prod` fails. `Execute` returns the error
of that call, and its trace has exactly one upgrade call, the one for `test`. -/
theorem Execute_aborts_at_first_failure_witness :
    envUpgradeOpts.Execute (Mock.pkg "v1.9.0".toList "v1.9.0".toList []) Mock.twoEnvOpts []
      = (Outcome.err (fmt.Errorf_v
            "get template version of environment prod in app phonetool: ".toList
            Mock.describeFailed),
          Mock.firstEnvTrace ++ Mock.secondEnvCalls)
    ∧ (Mock.firstEnvTrace ++ Mock.secondEnvCalls).filter Event.isUpgradeCall
      = [Event.UpgradeEnvironment 3
          { Version := "v1.9.0".toList
            App := { Name := "phonetool".toList }
            Name := "test".toList
            CustomResourcesURLs := [("script".toList, "url".toList)]
            ArtifactBucketARN := "arn:aws:s3:::bucket".toList
            ArtifactBucketKeyARN := "key".toList
            CFNServiceRoleARN := "execRole".toList } none] :=
  ⟨(Execute_aborts_at_first_failure (Mock.pkg "v1.9.0".toList "v1.9.0".toList [])
      Mock.twoEnvOpts Mock.app [Mock.env] Mock.prod [] [] Mock.firstEnvTrace
      (Mock.firstEnvTrace ++ Mock.secondEnvCalls)
      (fmt.Errorf_v "get template version of environment prod in app phonetool: ".toList
        Mock.describeFailed)
      rfl rfl rfl (by rfl) (by rfl)).1,
    by rfl⟩

/-! ### The lookup of the named environment -/

/-- A failed lookup of the named environment in `listEnvsToUpgrade`: the one
call is `GetEnvironment`, and the error wraps the error of the store behind a
text that has the application name after `get environment` and the environment
name after `in app`. -/
theorem envUpgradeOpts.listEnvsToUpgrade_lookup_failed (o : envUpgradeOpts) (t : Trace)
    (err : GoError) (hall : o.all = false)
    (hG : o.GetEnvironment t o.appName o.name = Except.error err) :
    listEnvsToUpgrade o t
      = (Outcome.err (GoError.wrapError
            ("get environment ".toList ++ o.appName ++ " in app ".toList ++ o.name
              ++ ": ".toList ++ err.Error) err),
          t ++ [Event.GetEnvironment o.appName o.name (Except.error err)]) := by
  unfold listEnvsToUpgrade
  simp only [hall, Bool.not_false, if_true, Act.bind_apply, Act.call_apply, hG, Act.fail_apply,
    fmt.Errorf_w, List.append_assoc]

/-- C21 (defect of the code). The store fails the lookup of the environment
`test` of the application `phonetool` with `timeout`. `listEnvsToUpgrade` makes
the one call `GetEnvironment` and returns an error that wraps the error of the
store, but its message is `get environment phonetool in app test: timeout`:
the application name stands in the environment position and the environment
name in the application position. `Validate`, for the same failed lookup,
names the two in the right order. -/
theorem listEnvsToUpgrade_message_swaps_names :
    envUpgradeOpts.listEnvsToUpgrade
        { Mock.opts Mock.body [] "v1.8.0".toList none with
          GetEnvironment := fun _ _ _ => Except.error (GoError.errorString "timeout".toList) }
        []
      = (Outcome.err (GoError.wrapError
            "get environment phonetool in app test: timeout".toList
            (GoError.errorString "timeout".toList)),
          [Event.GetEnvironment "phonetool".toList "test".toList
            (Except.error (GoError.errorString "timeout".toList))])
    ∧ "get environment phonetool in app test: timeout".toList
      ≠ "get environment test in app phonetool: timeout".toList
    ∧ envUpgradeOpts.Validate (Mock.pkg "v1.9.0".toList [] [])
        { Mock.opts Mock.body [] "v1.8.0".toList none with
          GetEnvironment := fun _ _ _ => Except.error (GoError.errorString "timeout".toList) }
        []
      = (Outcome.err (GoError.errorString
            "get environment test configuration from application phonetool: timeout".toList),
          [Event.GetEnvironment "phonetool".toList "test".toList
            (Except.error (GoError.errorString "timeout".toList))]) := by
  refine ⟨by rfl, by decide, by rfl⟩

/-! ### An error of the main upgrade call -/

/-- The versioned path of an attempted upgrade whose `UpgradeEnvironment` call
returns an error: `upgrade` returns the error behind the text of the upgrade,
and stops the progress sink with the failure text. -/
theorem envUpgradeOpts.upgrade_versioned_call_failed (p : Pkg) (o : envUpgradeOpts)
    (env : config.Environment) (app : config.Application)
    (artifactBucketARN artifactBucketKeyARN : GoString) (urls : List (GoString × GoString))
    (t : Trace) (getter upgrader : Handle) (v : GoString) (e : GoError)
    (hg : o.newEnvVersionGetter t o.appName env.Name = Except.ok getter)
    (hv : o.Version (t ++ [Event.newEnvVersionGetter o.appName env.Name (Except.ok getter)])
      getter = Except.ok v)
    (hc : semver.Compare v p.LatestEnvTemplateVersion < 0)
    (hu : o.newTemplateUpgrader
      (t ++ [Event.newEnvVersionGetter o.appName env.Name (Except.ok getter),
        Event.Version getter (Except.ok v),
        Event.Start (fmtEnvUpgradeStart (p.HighlightUserInput env.Name) (p.Emphasize v)
          (p.Emphasize p.LatestEnvTemplateVersion))]) env = Except.ok upgrader)
    (hne : v ≠ p.LegacyEnvTemplateVersion)
    (hres : o.UpgradeEnvironment
        (t ++ [Event.newEnvVersionGetter o.appName env.Name (Except.ok getter),
            Event.Version getter (Except.ok v),
            Event.Start (fmtEnvUpgradeStart (p.HighlightUserInput env.Name) (p.Emphasize v)
              (p.Emphasize p.LatestEnvTemplateVersion)),
            Event.newTemplateUpgrader env (Except.ok upgrader)]) upgrader
        (envUpgradeOpts.versionedInput env app artifactBucketARN artifactBucketKeyARN urls
              p.LatestEnvTemplateVersion) = some e) :
    upgrade p o env app artifactBucketARN artifactBucketKeyARN urls t
      = (Outcome.err (fmt.Errorf_v (envUpgradeOpts.msgUpgradeEnvironment env.Name v
              p.LatestEnvTemplateVersion) e),
          t ++ [Event.newEnvVersionGetter o.appName env.Name (Except.ok getter),
            Event.Version getter (Except.ok v),
            Event.Start (fmtEnvUpgradeStart (p.HighlightUserInput env.Name) (p.Emphasize v)
              (p.Emphasize p.LatestEnvTemplateVersion)),
            Event.newTemplateUpgrader env (Except.ok upgrader)]
            ++ [Event.UpgradeEnvironment upgrader
                (envUpgradeOpts.versionedInput env app artifactBucketARN artifactBucketKeyARN urls
              p.LatestEnvTemplateVersion) (some e),
              Event.Stop (p.Serrorf (fmtEnvUpgradeFailed (p.HighlightUserInput env.Name)
                (p.Emphasize p.LatestEnvTemplateVersion)))]) := by
  rw [upgrade_attempted p o env app artifactBucketARN artifactBucketKeyARN urls t getter
    upgrader v hg hv hc hu, if_neg hne, upgradeEnvironment_eq]
  simp only [hres, List.append_assoc, List.cons_append, List.nil_append]

/-- The legacy path of an attempted upgrade whose `UpgradeLegacyEnvironment`
call returns an error, in the default-shape branch and in the branch of the
stored overrides: `upgrade` returns the error behind the text of the upgrade,
and stops the progress sink with the failure text. -/
theorem envUpgradeOpts.upgrade_legacy_call_failed (p : Pkg) (o : envUpgradeOpts)
    (env : config.Environment) (app : config.Application)
    (artifactBucketARN artifactBucketKeyARN : GoString) (urls : List (GoString × GoString))
    (t : Trace) (getter upgrader : Handle) (v : GoString) (e : GoError)
    (canonical actual : GoString) (services : List config.Workload)
    (input : deploy.CreateEnvironmentInput)
    (hg : o.newEnvVersionGetter t o.appName env.Name = Except.ok getter)
    (hv : o.Version (t ++ [Event.newEnvVersionGetter o.appName env.Name (Except.ok getter)])
      getter = Except.ok v)
    (hc : semver.Compare v p.LatestEnvTemplateVersion < 0)
    (hu : o.newTemplateUpgrader
      (t ++ [Event.newEnvVersionGetter o.appName env.Name (Except.ok getter),
        Event.Version getter (Except.ok v),
        Event.Start (fmtEnvUpgradeStart (p.HighlightUserInput env.Name) (p.Emphasize v)
          (p.Emphasize p.LatestEnvTemplateVersion))]) env = Except.ok upgrader)
    (hleg : v = p.LegacyEnvTemplateVersion)
    (hT : o.Template
        (t ++ [Event.newEnvVersionGetter o.appName env.Name (Except.ok getter),
            Event.Version getter (Except.ok v),
            Event.Start (fmtEnvUpgradeStart (p.HighlightUserInput env.Name) (p.Emphasize v)
              (p.Emphasize p.LatestEnvTemplateVersion)),
            Event.newTemplateUpgrader env (Except.ok upgrader)]) = Except.ok canonical)
    (hA : o.EnvironmentTemplate
        (t ++ [Event.newEnvVersionGetter o.appName env.Name (Except.ok getter),
            Event.Version getter (Except.ok v),
            Event.Start (fmtEnvUpgradeStart (p.HighlightUserInput env.Name) (p.Emphasize v)
              (p.Emphasize p.LatestEnvTemplateVersion)),
            Event.newTemplateUpgrader env (Except.ok upgrader)]
          ++ [Event.Template (Except.ok canonical)]) upgrader env.App env.Name
      = Except.ok actual)
    (hS : o.ListServices
        (t ++ [Event.newEnvVersionGetter o.appName env.Name (Except.ok getter),
            Event.Version getter (Except.ok v),
            Event.Start (fmtEnvUpgradeStart (p.HighlightUserInput env.Name) (p.Emphasize v)
              (p.Emphasize p.LatestEnvTemplateVersion)),
            Event.newTemplateUpgrader env (Except.ok upgrader)]
          ++ [Event.Template (Except.ok canonical),
            Event.EnvironmentTemplate upgrader env.App env.Name (Except.ok actual)])
        o.appName = Except.ok services)
    (hin : canonical = actual
        ∧ input = defaultLegacyInput env app artifactBucketARN artifactBucketKeyARN urls
            p.LatestEnvTemplateVersion
      ∨ canonical ≠ actual
        ∧ ∃ c, env.CustomConfig = some c
          ∧ input =
              { Version := p.LatestEnvTemplateVersion
                App := { Name := env.App }
                Name := env.Name
                ImportVPCConfig := c.ImportVPC
                AdjustVPCConfig := c.VPCConfig
                ImportCertARNs := c.ImportCertARNs
                AllowVPCIngress := c.EnableInternalALBVPCIngress
                CFNServiceRoleARN := env.ExecutionRoleARN })
    (hres : o.UpgradeLegacyEnvironment
        (t ++ [Event.newEnvVersionGetter o.appName env.Name (Except.ok getter),
            Event.Version getter (Except.ok v),
            Event.Start (fmtEnvUpgradeStart (p.HighlightUserInput env.Name) (p.Emphasize v)
              (p.Emphasize p.LatestEnvTemplateVersion)),
            Event.newTemplateUpgrader env (Except.ok upgrader)]
          ++ [Event.Template (Except.ok canonical),
              Event.EnvironmentTemplate upgrader env.App env.Name (Except.ok actual),
              Event.ListServices o.appName (Except.ok services)])
        upgrader input (lbWebServiceNames p services) = some e) :
    upgrade p o env app artifactBucketARN artifactBucketKeyARN urls t
      = (Outcome.err (fmt.Errorf_v (envUpgradeOpts.msgUpgradeEnvironment env.Name v
              p.LatestEnvTemplateVersion) e),
          t ++ [Event.newEnvVersionGetter o.appName env.Name (Except.ok getter),
            Event.Version getter (Except.ok v),
            Event.Start (fmtEnvUpgradeStart (p.HighlightUserInput env.Name) (p.Emphasize v)
              (p.Emphasize p.LatestEnvTemplateVersion)),
            Event.newTemplateUpgrader env (Except.ok upgrader)]
            ++ [Event.Template (Except.ok canonical),
              Event.EnvironmentTemplate upgrader env.App env.Name (Except.ok actual),
              Event.ListServices o.appName (Except.ok services),
              Event.UpgradeLegacyEnvironment upgrader input (lbWebServiceNames p services)
                (some e),
              Event.Stop (p.Serrorf (fmtEnvUpgradeFailed (p.HighlightUserInput env.Name)
                (p.Emphasize p.LatestEnvTemplateVersion)))]) := by
  rw [upgrade_attempted p o env app artifactBucketARN artifactBucketKeyARN urls t getter
    upgrader v hg hv hc hu, if_pos hleg,
    upgradeLegacyEnvironment_listed p o upgrader env app artifactBucketARN
      artifactBucketKeyARN urls v p.LatestEnvTemplateVersion canonical actual _ services
      hT hA hS]
  rcases hin with ⟨heq, hi⟩ | ⟨hne, c, hC, hi⟩
  · subst hi
    rw [if_pos heq, hres]
    simp only [List.append_assoc, List.cons_append, List.nil_append]
  · subst hi
    rw [if_neg hne, withVPCOverrides_some o upgrader env c v p.LatestEnvTemplateVersion _ _ hC,
      hres]
    simp only [List.append_assoc, List.cons_append, List.nil_append]

/-- The permission patch whose update call returns an empty-change-set error:
the patch returns nil and stops the progress sink with the success text. -/
theorem envUpgradeOpts.grant_tolerates_empty_change_set (p : Pkg) (o : envUpgradeOpts)
    (cfn : Handle) (app env execRole body bucketARN updated : GoString) (t : Trace)
    (node : yaml.Node) (rest : List yaml.Node) (e : GoError)
    (hU : p.UnmarshalPolicies body = Except.ok (node :: rest))
    (hB : updatedBody node body bucketARN = Except.ok updated)
    (hres : o.UpdateEnvironmentTemplate (t ++ [Event.Start msgUpdateManagerRole]) cfn app env
      updated execRole = some e)
    (hE : e.AsErrChangeSetEmpty = true) :
    grantManagerRolePermissionToUpload p o cfn app env execRole body bucketARN t
      = (Outcome.ok (),
          t ++ [Event.Start msgUpdateManagerRole,
            Event.UpdateEnvironmentTemplate cfn app env updated execRole (some e),
            Event.Stop (p.Ssuccessln msgUpdated)]) := by
  unfold grantManagerRolePermissionToUpload
  rw [hU]
  simp only [hB]
  simp [bind, Act.andThen, Act.emit, Act.call, hres, pure, Act.ret, hE]

/-- C22. The tolerance of an empty change set is that of the permission patch
only. For an environment below the latest version whose template upgrader is
created, when the main upgrade call returns an empty-change-set error (the
`UpgradeEnvironment` call of the versioned path, or the
`UpgradeLegacyEnvironment` call of the default-shape branch or of the branch of
the stored overrides), `upgrade` returns a non-nil error, the error of the call
behind the text of the upgrade, which is no empty-change-set error for the
caller, and the call is followed by exactly the stop of the progress sink with
the failure message. The same error from the update call of the permission
patch makes the patch return nil and stop the progress sink with the success
message. -/
theorem upgrade_call_empty_change_set_is_error (p : Pkg) (o : envUpgradeOpts)
    (env : config.Environment) (app : config.Application)
    (artifactBucketARN artifactBucketKeyARN : GoString) (urls : List (GoString × GoString))
    (t : Trace) (getter upgrader : Handle) (v : GoString) (e : GoError)
    (hg : o.newEnvVersionGetter t o.appName env.Name = Except.ok getter)
    (hv : o.Version (t ++ [Event.newEnvVersionGetter o.appName env.Name (Except.ok getter)])
      getter = Except.ok v)
    (hc : semver.Compare v p.LatestEnvTemplateVersion < 0)
    (hu : o.newTemplateUpgrader
      (t ++ [Event.newEnvVersionGetter o.appName env.Name (Except.ok getter),
        Event.Version getter (Except.ok v),
        Event.Start (fmtEnvUpgradeStart (p.HighlightUserInput env.Name) (p.Emphasize v)
          (p.Emphasize p.LatestEnvTemplateVersion))]) env = Except.ok upgrader)
    (hE : e.AsErrChangeSetEmpty = true) :
    (v ≠ p.LegacyEnvTemplateVersion →
      o.UpgradeEnvironment
          (t ++ [Event.newEnvVersionGetter o.appName env.Name (Except.ok getter),
            Event.Version getter (Except.ok v),
            Event.Start (fmtEnvUpgradeStart (p.HighlightUserInput env.Name) (p.Emphasize v)
              (p.Emphasize p.LatestEnvTemplateVersion)),
            Event.newTemplateUpgrader env (Except.ok upgrader)]) upgrader
          (envUpgradeOpts.versionedInput env app artifactBucketARN artifactBucketKeyARN urls
              p.LatestEnvTemplateVersion) = some e →
      envUpgradeOpts.upgrade p o env app artifactBucketARN artifactBucketKeyARN urls t
        = (Outcome.err (fmt.Errorf_v (envUpgradeOpts.msgUpgradeEnvironment env.Name v
                p.LatestEnvTemplateVersion) e),
            t ++ [Event.newEnvVersionGetter o.appName env.Name (Except.ok getter),
            Event.Version getter (Except.ok v),
            Event.Start (fmtEnvUpgradeStart (p.HighlightUserInput env.Name) (p.Emphasize v)
              (p.Emphasize p.LatestEnvTemplateVersion)),
            Event.newTemplateUpgrader env (Except.ok upgrader)]
              ++ [Event.UpgradeEnvironment upgrader
                  (envUpgradeOpts.versionedInput env app artifactBucketARN artifactBucketKeyARN urls
              p.LatestEnvTemplateVersion) (some e),
                Event.Stop (p.Serrorf (fmtEnvUpgradeFailed (p.HighlightUserInput env.Name)
                  (p.Emphasize p.LatestEnvTemplateVersion)))]))
    ∧ (∀ (canonical actual : GoString) (services : List config.Workload)
        (input : deploy.CreateEnvironmentInput),
      v = p.LegacyEnvTemplateVersion →
      o.Template
          (t ++ [Event.newEnvVersionGetter o.appName env.Name (Except.ok getter),
            Event.Version getter (Except.ok v),
            Event.Start (fmtEnvUpgradeStart (p.HighlightUserInput env.Name) (p.Emphasize v)
              (p.Emphasize p.LatestEnvTemplateVersion)),
            Event.newTemplateUpgrader env (Except.ok upgrader)]) = Except.ok canonical →
      o.EnvironmentTemplate
          (t ++ [Event.newEnvVersionGetter o.appName env.Name (Except.ok getter),
            Event.Version getter (Except.ok v),
            Event.Start (fmtEnvUpgradeStart (p.HighlightUserInput env.Name) (p.Emphasize v)
              (p.Emphasize p.LatestEnvTemplateVersion)),
            Event.newTemplateUpgrader env (Except.ok upgrader)]
            ++ [Event.Template (Except.ok canonical)]) upgrader env.App env.Name
        = Except.ok actual →
      o.ListServices
          (t ++ [Event.newEnvVersionGetter o.appName env.Name (Except.ok getter),
            Event.Version getter (Except.ok v),
            Event.Start (fmtEnvUpgradeStart (p.HighlightUserInput env.Name) (p.Emphasize v)
              (p.Emphasize p.LatestEnvTemplateVersion)),
            Event.newTemplateUpgrader env (Except.ok upgrader)]
            ++ [Event.Template (Except.ok canonical),
              Event.EnvironmentTemplate upgrader env.App env.Name (Except.ok actual)])
          o.appName = Except.ok services →
      (canonical = actual
          ∧ input = envUpgradeOpts.defaultLegacyInput env app artifactBucketARN
              artifactBucketKeyARN urls p.LatestEnvTemplateVersion
        ∨ canonical ≠ actual
          ∧ ∃ c, env.CustomConfig = some c
            ∧ input =
                { Version := p.LatestEnvTemplateVersion
                  App := { Name := env.App }
                  Name := env.Name
                  ImportVPCConfig := c.ImportVPC
                  AdjustVPCConfig := c.VPCConfig
                  ImportCertARNs := c.ImportCertARNs
                  AllowVPCIngress := c.EnableInternalALBVPCIngress
                  CFNServiceRoleARN := env.ExecutionRoleARN }) →
      o.UpgradeLegacyEnvironment
          (t ++ [Event.newEnvVersionGetter o.appName env.Name (Except.ok getter),
            Event.Version getter (Except.ok v),
            Event.Start (fmtEnvUpgradeStart (p.HighlightUserInput env.Name) (p.Emphasize v)
              (p.Emphasize p.LatestEnvTemplateVersion)),
            Event.newTemplateUpgrader env (Except.ok upgrader)]
            ++ [Event.Template (Except.ok canonical),
              Event.EnvironmentTemplate upgrader env.App env.Name (Except.ok actual),
              Event.ListServices o.appName (Except.ok services)])
          upgrader input (envUpgradeOpts.lbWebServiceNames p services) = some e →
      envUpgradeOpts.upgrade p o env app artifactBucketARN artifactBucketKeyARN urls t
        = (Outcome.err (fmt.Errorf_v (envUpgradeOpts.msgUpgradeEnvironment env.Name v
                p.LatestEnvTemplateVersion) e),
            t ++ [Event.newEnvVersionGetter o.appName env.Name (Except.ok getter),
            Event.Version getter (Except.ok v),
            Event.Start (fmtEnvUpgradeStart (p.HighlightUserInput env.Name) (p.Emphasize v)
              (p.Emphasize p.LatestEnvTemplateVersion)),
            Event.newTemplateUpgrader env (Except.ok upgrader)]
              ++ [Event.Template (Except.ok canonical),
                Event.EnvironmentTemplate upgrader env.App env.Name (Except.ok actual),
                Event.ListServices o.appName (Except.ok services),
                Event.UpgradeLegacyEnvironment upgrader input
                  (envUpgradeOpts.lbWebServiceNames p services) (some e),
                Event.Stop (p.Serrorf (fmtEnvUpgradeFailed (p.HighlightUserInput env.Name)
                  (p.Emphasize p.LatestEnvTemplateVersion)))]))
    ∧ (fmt.Errorf_v (envUpgradeOpts.msgUpgradeEnvironment env.Name v
                p.LatestEnvTemplateVersion) e).AsErrChangeSetEmpty = false
    ∧ (∀ (cfn : Handle) (a n execRole body bucketARN updated : GoString) (t0 : Trace)
        (node : yaml.Node) (rest : List yaml.Node),
      p.UnmarshalPolicies body = Except.ok (node :: rest) →
      envUpgradeOpts.updatedBody node body bucketARN = Except.ok updated →
      o.UpdateEnvironmentTemplate (t0 ++ [Event.Start envUpgradeOpts.msgUpdateManagerRole]) cfn
          a n updated execRole = some e →
      envUpgradeOpts.grantManagerRolePermissionToUpload p o cfn a n execRole body bucketARN t0
        = (Outcome.ok (),
            t0 ++ [Event.Start envUpgradeOpts.msgUpdateManagerRole,
              Event.UpdateEnvironmentTemplate cfn a n updated execRole (some e),
              Event.Stop (p.Ssuccessln envUpgradeOpts.msgUpdated)])) := by
  refine ⟨?_, ?_, rfl, ?_⟩
  · intro hne hres
    exact envUpgradeOpts.upgrade_versioned_call_failed p o env app artifactBucketARN
      artifactBucketKeyARN urls t getter upgrader v e hg hv hc hu hne hres
  · intro canonical actual services input hleg hT hA hS hin hres
    exact envUpgradeOpts.upgrade_legacy_call_failed p o env app artifactBucketARN
      artifactBucketKeyARN urls t getter upgrader v e canonical actual services input
      hg hv hc hu hleg hT hA hS hin hres
  · intro cfn a n execRole body bucketARN updated t0 node rest hU hB hres
    exact envUpgradeOpts.grant_tolerates_empty_change_set p o cfn a n execRole body bucketARN
      updated t0 node rest e hU hB hres hE

/-- C22 on the environment `test` on version `v1.8.0`, latest version
`v1.9.0`, with collaborators whose update and upgrade calls all return a
wrapped empty-change-set error: `upgrade` returns an error and stops the
progress sink with the failure message; in `Execute` the permission patch
before it takes the same error for a success. -/
theorem upgrade_call_empty_change_set_is_error_witness :
    envUpgradeOpts.upgrade (Mock.pkg "v1.9.0".toList "v1.8.0".toList [])
        (Mock.opts Mock.body [] "v1.8.0".toList (some Mock.wrappedEmptyChangeSet)) Mock.env
        Mock.app "arn:aws:s3:::bucket".toList "key".toList [] []
      = (Outcome.err (fmt.Errorf_v
            (envUpgradeOpts.msgUpgradeEnvironment "test".toList "v1.8.0".toList
              "v1.9.0".toList) Mock.wrappedEmptyChangeSet),
          [Event.newEnvVersionGetter "phonetool".toList "test".toList (Except.ok 2),
            Event.Version 2 (Except.ok "v1.8.0".toList),
            Event.Start (fmtEnvUpgradeStart "test".toList "v1.8.0".toList "v1.9.0".toList),
            Event.newTemplateUpgrader Mock.env (Except.ok 3),
            Event.UpgradeEnvironment 3
              (envUpgradeOpts.versionedInput Mock.env Mock.app "arn:aws:s3:::bucket".toList
                "key".toList [] "v1.9.0".toList) (some Mock.wrappedEmptyChangeSet),
            Event.Stop ("x ".toList ++ fmtEnvUpgradeFailed "test".toList "v1.9.0".toList)])
    ∧ envUpgradeOpts.Execute (Mock.pkg "v1.9.0".toList "v1.8.0".toList
          [{ Line := 7, Column := 13 }])
        (Mock.opts Mock.body [] "v1.8.0".toList (some Mock.wrappedEmptyChangeSet)) []
      = (Outcome.err (fmt.Errorf_v
            (envUpgradeOpts.msgUpgradeEnvironment "test".toList "v1.8.0".toList
              "v1.9.0".toList) Mock.wrappedEmptyChangeSet),
          [Event.GetEnvironment "phonetool".toList "test".toList (Except.ok Mock.env),
            Event.GetApplication "phonetool".toList (Except.ok Mock.app),
            Event.GetAppResourcesByRegion Mock.app "us-west-2".toList
              (Except.ok { S3Bucket := "bucket".toList, KMSKeyARN := "key".toList }),
            Event.newEnvDeployer Mock.env (Except.ok 1),
            Event.EnvironmentTemplate 1 "phonetool".toList "test".toList
              (Except.ok Mock.body),
            Event.Start envUpgradeOpts.msgUpdateManagerRole,
            Event.UpdateEnvironmentTemplate 1 "phonetool".toList "test".toList Mock.patched
              "execRole".toList (some Mock.wrappedEmptyChangeSet),
            Event.Stop ("v ".toList ++ envUpgradeOpts.msgUpdated ++ "\n".toList),
            Event.newS3 Mock.env (Except.ok 4),
            Event.ZipAndUpload 4 "bucket".toList "script.zip".toList []
              (Except.ok "url".toList),
            Event.UploadEnvironmentCustomResources
              (Except.ok [("script".toList, "url".toList)]),
            Event.newEnvVersionGetter "phonetool".toList "test".toList (Except.ok 2),
            Event.Version 2 (Except.ok "v1.8.0".toList),
            Event.Start (fmtEnvUpgradeStart "test".toList "v1.8.0".toList "v1.9.0".toList),
            Event.newTemplateUpgrader Mock.env (Except.ok 3),
            Event.UpgradeEnvironment 3
              (envUpgradeOpts.versionedInput Mock.env Mock.app "arn:aws:s3:::bucket".toList
                "key".toList [("script".toList, "url".toList)] "v1.9.0".toList)
              (some Mock.wrappedEmptyChangeSet),
            Event.Stop ("x ".toList ++ fmtEnvUpgradeFailed "test".toList "v1.9.0".toList)]) :=
  ⟨(upgrade_call_empty_change_set_is_error (Mock.pkg "v1.9.0".toList "v1.8.0".toList [])
      (Mock.opts Mock.body [] "v1.8.0".toList (some Mock.wrappedEmptyChangeSet)) Mock.env
      Mock.app "arn:aws:s3:::bucket".toList "key".toList [] [] 2 3 "v1.8.0".toList
      Mock.wrappedEmptyChangeSet rfl rfl (by decide) rfl rfl).1 (by decide) rfl,
    by rfl⟩

/-! ### A step that fails by a panic -/

/-- C13 (defect of the code, the one of C5). With the flag `all`, the store
lists `test` and `prod`, both on templates of version `v1.8.0`. The manager
role of `test` is patched and `test` is upgraded to `v1.9.0`. The template of
`prod` has a first policy without a statement list, so the patch step of
`prod` fails; `Execute` does not return a non-nil error for it: it ends in the
panic of the negative repeat count. No call of a collaborator has failed, and
the upgrade call for `test` is in the trace. A failed call of a collaborator,
in any run, does make `Execute` return a non-nil error, with only the stop of
the progress sink after it. -/
theorem Execute_panics_on_failing_patch_step :
    envUpgradeOpts.Execute Mock.pkgTwoTemplates Mock.twoTemplateOpts []
      = (Outcome.panic "strings: negative Repeat count".toList,
          [Event.ListEnvironments "phonetool".toList (Except.ok [Mock.env, Mock.prod]),
            Event.GetApplication "phonetool".toList (Except.ok Mock.app),
            Event.GetAppResourcesByRegion Mock.app "us-west-2".toList
              (Except.ok { S3Bucket := "bucket".toList, KMSKeyARN := "key".toList }),
            Event.newEnvDeployer Mock.env (Except.ok 1),
            Event.EnvironmentTemplate 1 "phonetool".toList "test".toList
              (Except.ok Mock.body),
            Event.Start envUpgradeOpts.msgUpdateManagerRole,
            Event.UpdateEnvironmentTemplate 1 "phonetool".toList "test".toList Mock.patched
              "execRole".toList none,
            Event.Stop ("v ".toList ++ envUpgradeOpts.msgUpdated ++ "\n".toList),
            Event.newS3 Mock.env (Except.ok 4),
            Event.ZipAndUpload 4 "bucket".toList "script.zip".toList []
              (Except.ok "url".toList),
            Event.UploadEnvironmentCustomResources
              (Except.ok [("script".toList, "url".toList)]),
            Event.newEnvVersionGetter "phonetool".toList "test".toList (Except.ok 2),
            Event.Version 2 (Except.ok "v1.8.0".toList),
            Event.Start (fmtEnvUpgradeStart "test".toList "v1.8.0".toList "v1.9.0".toList),
            Event.newTemplateUpgrader Mock.env (Except.ok 3),
            Event.UpgradeEnvironment 3
              (envUpgradeOpts.versionedInput Mock.env Mock.app "arn:aws:s3:::bucket".toList
                "key".toList [("script".toList, "url".toList)] "v1.9.0".toList) none,
            Event.Stop ("v ".toList ++ fmtEnvUpgradeComplete "test".toList "v1.9.0".toList),
            Event.GetAppResourcesByRegion Mock.app "us-west-2".toList
              (Except.ok { S3Bucket := "bucket".toList, KMSKeyARN := "key".toList }),
            Event.newEnvDeployer Mock.prod (Except.ok 1),
            Event.EnvironmentTemplate 1 "phonetool".toList "prod".toList
              (Except.ok Mock.bodyWithoutStatement)])
    ∧ (envUpgradeOpts.Execute Mock.pkgTwoTemplates Mock.twoTemplateOpts []).1.isErr = false
    ∧ (envUpgradeOpts.Execute Mock.pkgTwoTemplates Mock.twoTemplateOpts []).2.any
        Event.isFailure = false
    ∧ (envUpgradeOpts.Execute Mock.pkgTwoTemplates Mock.twoTemplateOpts []).2.filter
        Event.isUpgradeCall
      = [Event.UpgradeEnvironment 3
          (envUpgradeOpts.versionedInput Mock.env Mock.app "arn:aws:s3:::bucket".toList
            "key".toList [("script".toList, "url".toList)] "v1.9.0".toList) none]
    ∧ (∀ (p : Pkg) (o : envUpgradeOpts), Act.FailFast (envUpgradeOpts.Execute p o)) := by
  refine ⟨by rfl, by rfl, by rfl, by rfl, ?_⟩
  intro p o
  exact (Act.failFast_iff _).mpr (envUpgradeOpts.Execute_failFast p o)
